import Mathlib

/-!
# Verification development for the Assignment 4 ray tracer (`src/main.cpp`)

The C++ program works on IEEE-754 `double`s through Eigen's fixed-size
vectors and matrices.  The embedding keeps the *special values* of the
format (`+inf`, `-inf`, `NaN`, produced by a division by zero or by the
square root of a negative number) and idealises the finite values as the
elements of an ordered field `K` computed without rounding and without
overflow.  Zero is unsigned: `x / 0` is `+inf` for `x > 0`, where a double
division by `-0.0` gives `-inf`; what is proved about a division by zero only
uses that its result is not finite.  The square root of finite non-negative
values is a parameter `sqrt : K → K` of every function that needs one, so that
the definitions stay executable (for instance on `ℚ`); theorems that need the
square root to be exact assume `IsSqrt sqrt`, which `Real.sqrt` satisfies.

The intersection tests and `find_nearest_object` are embedded a second time, under the
names `..._rounded`, with the arithmetic of the machine: every `+`, `-`, `*`, `/` and
`sqrt` returns the exact result rounded by a function `rnd`, which is `round53` (round to
nearest, ties to even, 53 significant binary digits) for doubles.  What is proved of them
for every `rnd` holds for the exact arithmetic and for the doubles alike.

Eigen is a library that the program includes through `utils.h`.  Its members
are embedded as Eigen 3.3 implements them for fixed sizes: `inverse()` of a
3x3 matrix multiplies the cofactors by `1 / det` with no test on `det`,
`normalized()` divides by the norm only when the squared norm is positive,
an empty `AlignedBox3d` has its corners at the largest and lowest doubles.

C++ output parameters (`Vector3d &p, Vector3d &N`) are modelled by state
passing: the function takes the current contents and returns the new ones.
A `Vector3d` that was declared and not yet written holds NaNs, and so does
an entry read past the end of a `std::vector` or of a matrix.
-/

namespace Raytracer

/-! ## Doubles -/

/-- An IEEE-754 double: a finite value, one of the two infinities, or NaN. -/
inductive Dbl (K : Type) where
  | fin (x : K)
  | pinf
  | ninf
  | nan
  deriving DecidableEq

namespace Dbl

variable {K : Type} [LinearOrderedField K]

/-- Unary minus. -/
def neg : Dbl K → Dbl K
  | fin a => fin (-a)
  | pinf => ninf
  | ninf => pinf
  | nan => nan

/-- Addition: `inf + (-inf)` is NaN, NaN is absorbing. -/
def add : Dbl K → Dbl K → Dbl K
  | fin a, fin b => fin (a + b)
  | fin _, pinf => pinf
  | fin _, ninf => ninf
  | pinf, fin _ => pinf
  | ninf, fin _ => ninf
  | pinf, pinf => pinf
  | ninf, ninf => ninf
  | _, _ => nan

/-- Subtraction, `a - b = a + (-b)`. -/
def sub (a b : Dbl K) : Dbl K := add a (neg b)

/-- The product of the finite value `a` with the infinity `s`: NaN for
`a = 0`, otherwise `s` with the sign of `a` applied. -/
def scaleInf (a : K) (s : Dbl K) : Dbl K :=
  if a = 0 then nan else if 0 < a then s else neg s

/-- Multiplication: `0 * inf` is NaN, NaN is absorbing. -/
def mul : Dbl K → Dbl K → Dbl K
  | fin a, fin b => fin (a * b)
  | fin a, pinf => scaleInf a pinf
  | fin a, ninf => scaleInf a ninf
  | pinf, fin b => scaleInf b pinf
  | ninf, fin b => scaleInf b ninf
  | pinf, pinf => pinf
  | pinf, ninf => ninf
  | ninf, pinf => ninf
  | ninf, ninf => pinf
  | _, _ => nan

/-- Division: `x / 0` is an infinity for `x ≠ 0` and NaN for `x = 0`;
a finite value divided by an infinity is `0`; `inf / inf` is NaN. -/
def div : Dbl K → Dbl K → Dbl K
  | fin a, fin b => if b = 0 then scaleInf a pinf else fin (a / b)
  | fin _, pinf => fin 0
  | fin _, ninf => fin 0
  | pinf, fin b => if 0 ≤ b then pinf else ninf
  | ninf, fin b => if 0 ≤ b then ninf else pinf
  | _, _ => nan

/-- The libm `sqrt`: NaN on negative arguments, `sqrt` on finite non-negative ones. -/
def sqrt (sqrt : K → K) : Dbl K → Dbl K
  | fin a => if a < 0 then nan else fin (sqrt a)
  | pinf => pinf
  | _ => nan

/-- The comparison `a <= b`: false as soon as one side is NaN. -/
def le : Dbl K → Dbl K → Bool
  | fin a, fin b => decide (a ≤ b)
  | fin _, pinf => true
  | ninf, fin _ => true
  | ninf, ninf => true
  | ninf, pinf => true
  | pinf, pinf => true
  | _, _ => false

/-- The comparison `a < b`: false as soon as one side is NaN. -/
def lt : Dbl K → Dbl K → Bool
  | fin a, fin b => decide (a < b)
  | fin _, pinf => true
  | ninf, fin _ => true
  | ninf, pinf => true
  | _, _ => false

/-- The comparison `a >= b`. -/
def ge (a b : Dbl K) : Bool := le b a

/-- The comparison `a > b`. -/
def gt (a b : Dbl K) : Bool := lt b a

/-- The function `std::max(a, b)`, which is `(a < b) ? b : a`. -/
def max (a b : Dbl K) : Dbl K := if lt a b then b else a

/-- The function `std::min(a, b)`, which is `(b < a) ? b : a`. -/
def min (a b : Dbl K) : Dbl K := if lt b a then b else a

/-- The function `std::pow(x, 256.0)`, the only exponent the shader uses. -/
def pow256 : Dbl K → Dbl K
  | fin a => fin (a ^ 256)
  | pinf => pinf
  | ninf => pinf
  | nan => nan

/-- The constant `std::numeric_limits<double>::max()`. -/
def DBL_MAX : Dbl K := fin (2 ^ 1024 - 2 ^ 971)

/-- The double is a finite value. -/
def isFinite : Dbl K → Bool
  | fin _ => true
  | _ => false

instance : Add (Dbl K) := ⟨add⟩
instance : Sub (Dbl K) := ⟨sub⟩
instance : Mul (Dbl K) := ⟨mul⟩
instance : Div (Dbl K) := ⟨div⟩
instance : Neg (Dbl K) := ⟨neg⟩
instance : One (Dbl K) := ⟨fin 1⟩
instance : Inhabited (Dbl K) := ⟨nan⟩
instance : Min (Dbl K) := ⟨min⟩
instance : Max (Dbl K) := ⟨max⟩

end Dbl

/-- The parameter `sqrt` is an exact square root on the non-negative elements. -/
def IsSqrt {K : Type} [LinearOrderedField K] (sqrt : K → K) : Prop :=
  ∀ x : K, 0 ≤ x → 0 ≤ sqrt x ∧ sqrt x * sqrt x = x

/-! ## Eigen vectors and matrices -/

/-- A three-component column vector (`Eigen::Vector3d` when `α` is `Dbl K`). -/
@[ext]
structure Vec3 (α : Type) where
  x : α
  y : α
  z : α
  deriving DecidableEq

/-- A four-component column vector (`Eigen::Vector4d` when `α` is `Dbl K`). -/
@[ext]
structure Vec4 (α : Type) where
  r : α
  g : α
  b : α
  a : α
  deriving DecidableEq

/-- A 3x3 matrix (`Eigen::Matrix3d` when `α` is `Dbl K`); `mij` is row `i`, column `j`. -/
@[ext]
structure Mat3 (α : Type) where
  m00 : α
  m01 : α
  m02 : α
  m10 : α
  m11 : α
  m12 : α
  m20 : α
  m21 : α
  m22 : α
  deriving DecidableEq

namespace Vec3

variable {α : Type}

/-- Componentwise sum. -/
def add [Add α] (a b : Vec3 α) : Vec3 α := ⟨a.x + b.x, a.y + b.y, a.z + b.z⟩

/-- Componentwise difference. -/
def sub [Sub α] (a b : Vec3 α) : Vec3 α := ⟨a.x - b.x, a.y - b.y, a.z - b.z⟩

/-- Componentwise unary minus. -/
def neg [Neg α] (a : Vec3 α) : Vec3 α := ⟨-a.x, -a.y, -a.z⟩

instance [Add α] : Add (Vec3 α) := ⟨add⟩
instance [Sub α] : Sub (Vec3 α) := ⟨sub⟩
instance [Neg α] : Neg (Vec3 α) := ⟨neg⟩

/-- The product `s * v` of a scalar and a vector. -/
def smul [Mul α] (s : α) (v : Vec3 α) : Vec3 α := ⟨s * v.x, s * v.y, s * v.z⟩

/-- The product `v * s` of a vector and a scalar. -/
def muls [Mul α] (v : Vec3 α) (s : α) : Vec3 α := ⟨v.x * s, v.y * s, v.z * s⟩

/-- The quotient `v / s` of a vector by a scalar. -/
def divs [Div α] (v : Vec3 α) (s : α) : Vec3 α := ⟨v.x / s, v.y / s, v.z / s⟩

/-- The member `a.dot(b)`. -/
def dot [Add α] [Mul α] (a b : Vec3 α) : α := a.x * b.x + a.y * b.y + a.z * b.z

/-- The member `a.cross(b)`. -/
def cross [Sub α] [Mul α] (a b : Vec3 α) : Vec3 α :=
  ⟨a.y * b.z - a.z * b.y, a.z * b.x - a.x * b.z, a.x * b.y - a.y * b.x⟩

/-- The member `a.cwiseMin(b)`. -/
def cwiseMin [Min α] (a b : Vec3 α) : Vec3 α :=
  ⟨min a.x b.x, min a.y b.y, min a.z b.z⟩

/-- The member `a.cwiseMax(b)`. -/
def cwiseMax [Max α] (a b : Vec3 α) : Vec3 α :=
  ⟨max a.x b.x, max a.y b.y, max a.z b.z⟩

/-- The member `a.squaredNorm()`. -/
def squaredNorm [Add α] [Mul α] (a : Vec3 α) : α := a.x * a.x + a.y * a.y + a.z * a.z

/-- A vector of finite doubles. -/
def lift {K : Type} (v : Vec3 K) : Vec3 (Dbl K) := ⟨Dbl.fin v.x, Dbl.fin v.y, Dbl.fin v.z⟩

/-- The member `n.normalized()` of Eigen 3.3 and later: `n / sqrt(z)` when the squared
norm `z` is positive, and a copy of `n` otherwise. -/
def normalized {K : Type} [LinearOrderedField K] (sqrt : K → K) (n : Vec3 (Dbl K)) :
    Vec3 (Dbl K) :=
  let z := n.squaredNorm
  if Dbl.gt z (Dbl.fin 0) then n.divs (Dbl.sqrt sqrt z) else n

/-- The contents of a `Vector3d` that was declared and never written. -/
def uninit {K : Type} : Vec3 (Dbl K) := ⟨Dbl.nan, Dbl.nan, Dbl.nan⟩

instance {K : Type} : Inhabited (Vec3 (Dbl K)) := ⟨uninit⟩

end Vec3

namespace Vec4

variable {α : Type}

/-- Componentwise sum. -/
def add [Add α] (a b : Vec4 α) : Vec4 α := ⟨a.r + b.r, a.g + b.g, a.b + b.b, a.a + b.a⟩

instance [Add α] : Add (Vec4 α) := ⟨add⟩

/-- The product `v * s` of a vector and a scalar. -/
def muls [Mul α] (v : Vec4 α) (s : α) : Vec4 α := ⟨v.r * s, v.g * s, v.b * s, v.a * s⟩

/-- The quotient `v / s` of a vector by a scalar. -/
def divs [Div α] (v : Vec4 α) (s : α) : Vec4 α := ⟨v.r / s, v.g / s, v.b / s, v.a / s⟩

/-- The member `a.cwiseProduct(b)`, also written `a.array() * b.array()`. -/
def cwiseProduct [Mul α] (a b : Vec4 α) : Vec4 α := ⟨a.r * b.r, a.g * b.g, a.b * b.b, a.a * b.a⟩

/-- A vector of finite doubles. -/
def lift {K : Type} (v : Vec4 K) : Vec4 (Dbl K) :=
  ⟨Dbl.fin v.r, Dbl.fin v.g, Dbl.fin v.b, Dbl.fin v.a⟩

instance {K : Type} : Inhabited (Vec4 (Dbl K)) := ⟨⟨Dbl.nan, Dbl.nan, Dbl.nan, Dbl.nan⟩⟩

end Vec4

namespace Mat3

variable {α : Type}

/-- The member `m.col(0)`. -/
def col0 (m : Mat3 α) : Vec3 α := ⟨m.m00, m.m10, m.m20⟩

/-- The member `m.col(1)`. -/
def col1 (m : Mat3 α) : Vec3 α := ⟨m.m01, m.m11, m.m21⟩

/-- The member `m.col(2)`. -/
def col2 (m : Mat3 α) : Vec3 α := ⟨m.m02, m.m12, m.m22⟩

/-- The matrix-vector product `m * v`. -/
def mulVec [Add α] [Mul α] (m : Mat3 α) (v : Vec3 α) : Vec3 α :=
  ⟨m.m00 * v.x + m.m01 * v.y + m.m02 * v.z,
   m.m10 * v.x + m.m11 * v.y + m.m12 * v.z,
   m.m20 * v.x + m.m21 * v.y + m.m22 * v.z⟩

/-- The determinant as Eigen's 3x3 inverse computes it: the first column of cofactors
times the first column of the matrix.  The operations are those of `α`: exact on the finite
values of `Dbl K`, rounded on `RDbl K rnd`. -/
def det [Add α] [Sub α] [Mul α] (m : Mat3 α) : α :=
  (m.m11 * m.m22 - m.m12 * m.m21) * m.m00
    + (m.m21 * m.m02 - m.m22 * m.m01) * m.m10
    + (m.m01 * m.m12 - m.m02 * m.m11) * m.m20

/-- The member `m.inverse()` for a fixed-size 3x3 matrix: every cofactor is multiplied by
`1 / det`, with no test on the determinant. -/
def inverse [Add α] [Sub α] [Mul α] [Div α] [One α] (m : Mat3 α) : Mat3 α :=
  let invdet := 1 / m.det
  ⟨(m.m11 * m.m22 - m.m12 * m.m21) * invdet,
   (m.m21 * m.m02 - m.m22 * m.m01) * invdet,
   (m.m01 * m.m12 - m.m02 * m.m11) * invdet,
   (m.m12 * m.m20 - m.m10 * m.m22) * invdet,
   (m.m22 * m.m00 - m.m20 * m.m02) * invdet,
   (m.m02 * m.m10 - m.m00 * m.m12) * invdet,
   (m.m10 * m.m21 - m.m11 * m.m20) * invdet,
   (m.m20 * m.m01 - m.m21 * m.m00) * invdet,
   (m.m00 * m.m11 - m.m01 * m.m10) * invdet⟩

/-- A matrix of finite doubles. -/
def lift {K : Type} (m : Mat3 K) : Mat3 (Dbl K) :=
  ⟨Dbl.fin m.m00, Dbl.fin m.m01, Dbl.fin m.m02,
   Dbl.fin m.m10, Dbl.fin m.m11, Dbl.fin m.m12,
   Dbl.fin m.m20, Dbl.fin m.m21, Dbl.fin m.m22⟩

instance {K : Type} : Inhabited (Mat3 (Dbl K)) :=
  ⟨⟨Dbl.nan, Dbl.nan, Dbl.nan, Dbl.nan, Dbl.nan, Dbl.nan, Dbl.nan, Dbl.nan, Dbl.nan⟩⟩

end Mat3

/-! ## Scene setup, global variables -/

/-- The global variables that `setup_scene` fills: the triangle mesh (`vertices`, one row a
point; `facets`, one row the three vertex indices of a triangle), the spheres, the
parallelograms (column 0 the origin, columns 1 and 2 the two adjacent corners) and the lights. -/
structure Scene (α : Type) where
  vertices : List (Vec3 α)
  facets : List (Nat × Nat × Nat)
  sphere_centers : List (Vec3 α)
  sphere_radii : List α
  parallelograms : List (Mat3 α)
  light_positions : List (Vec3 α)
  light_colors : List (Vec4 α)

/-- A scene of finite doubles. -/
def Scene.lift {K : Type} (s : Scene K) : Scene (Dbl K) :=
  ⟨s.vertices.map Vec3.lift, s.facets, s.sphere_centers.map Vec3.lift,
   s.sphere_radii.map Dbl.fin, s.parallelograms.map Mat3.lift,
   s.light_positions.map Vec3.lift, s.light_colors.map Vec4.lift⟩

section Code

variable {K : Type} [LinearOrderedField K]

/-- The constant `obj_ambient_color`. -/
def obj_ambient_color : Vec4 (Dbl K) := ⟨Dbl.fin 0, Dbl.fin (1 / 2), Dbl.fin 0, Dbl.fin 0⟩

/-- The constant `obj_diffuse_color`. -/
def obj_diffuse_color : Vec4 (Dbl K) :=
  ⟨Dbl.fin (1 / 2), Dbl.fin (1 / 2), Dbl.fin (1 / 2), Dbl.fin 0⟩

/-- The constant `obj_specular_color`. -/
def obj_specular_color : Vec4 (Dbl K) :=
  ⟨Dbl.fin (1 / 5), Dbl.fin (1 / 5), Dbl.fin (1 / 5), Dbl.fin 0⟩

/-- The constant `obj_reflection_color`. -/
def obj_reflection_color : Vec4 (Dbl K) :=
  ⟨Dbl.fin (7 / 10), Dbl.fin (7 / 10), Dbl.fin (7 / 10), Dbl.fin 0⟩

/-- The constant `ambient_light`. -/
def ambient_light : Vec4 (Dbl K) :=
  ⟨Dbl.fin (1 / 5), Dbl.fin (1 / 5), Dbl.fin (1 / 5), Dbl.fin 0⟩

/-! ## BVH Code -/

/-- An `Eigen::AlignedBox3d`: its least and its greatest corner. -/
structure AlignedBox3d (K : Type) where
  min : Vec3 (Dbl K)
  max : Vec3 (Dbl K)

/-- The box that the default constructor of `AlignedBox3d` builds (`setEmpty`): the least
corner at the highest double, the greatest corner at the lowest one. -/
def AlignedBox3d.empty : AlignedBox3d K :=
  ⟨⟨Dbl.DBL_MAX, Dbl.DBL_MAX, Dbl.DBL_MAX⟩, ⟨-Dbl.DBL_MAX, -Dbl.DBL_MAX, -Dbl.DBL_MAX⟩⟩

/-- The member `box.extend(p)`. -/
def AlignedBox3d.extend (box : AlignedBox3d K) (p : Vec3 (Dbl K)) : AlignedBox3d K :=
  ⟨box.min.cwiseMin p, box.max.cwiseMax p⟩

/-- The function `bbox_from_triangle` (main.cpp, lines 165-172). -/
def bbox_from_triangle (a b c : Vec3 (Dbl K)) : AlignedBox3d K :=
  let box : AlignedBox3d K := AlignedBox3d.empty
  let box := box.extend a
  let box := box.extend b
  let box := box.extend c
  box

/-! ## Intersection code -/

/-- The matrix `scale` that both planar tests fill: its columns are the two edge vectors and
the negated ray direction. -/
def scale_matrix {α : Type} [Neg α] (pgram_u pgram_v ray_direction : Vec3 α) : Mat3 α :=
  ⟨pgram_u.x, pgram_v.x, -ray_direction.x,
   pgram_u.y, pgram_v.y, -ray_direction.y,
   pgram_u.z, pgram_v.z, -ray_direction.z⟩

/-- The function `ray_triangle_intersection` (main.cpp, lines 198-226).  The result is the
returned double and the contents of `p` and `N` after the call. -/
def ray_triangle_intersection (sqrt : K → K) (ray_origin ray_direction a b c : Vec3 (Dbl K))
    (p N : Vec3 (Dbl K)) : Dbl K × Vec3 (Dbl K) × Vec3 (Dbl K) :=
  let tri_origin := a
  let pgram_u := b - tri_origin
  let pgram_v := c - tri_origin
  let scale := scale_matrix pgram_u pgram_v ray_direction
  let y_position := ray_origin - tri_origin
  let radius := scale.inverse.mulVec y_position
  if Dbl.le (Dbl.fin 0) radius.x && Dbl.le radius.x (Dbl.fin 1)
      && Dbl.le (Dbl.fin 0) radius.y && Dbl.le radius.y (Dbl.fin 1)
      && Dbl.le (radius.x + radius.y) (Dbl.fin 1) then
    let x := Dbl.fin (-1) * radius.z
    let p := ray_origin + (ray_direction.muls (Dbl.fin (-1))).muls x
    let normal_vector := Vec3.smul (Dbl.fin (-1)) (pgram_u.cross pgram_v)
    let N := normal_vector.normalized sqrt
    (-x, p, N)
  else
    (Dbl.fin (-1), p, N)

/-- The initialiser of the local `delta` of `ray_sphere_intersection` (main.cpp, line 235);
`pow(x, 2)` is `x * x`. -/
def sphere_discriminant (ray_origin ray_direction sphere_center : Vec3 (Dbl K))
    (sphere_radius : Dbl K) : Dbl K :=
  let oc := (ray_origin - sphere_center).dot ray_direction
  Dbl.fin 4 * (oc * oc)
    - Dbl.fin 4 * ray_direction.squaredNorm
        * ((ray_origin - sphere_center).squaredNorm - sphere_radius * sphere_radius)

/-- The function `ray_sphere_intersection` (main.cpp, lines 228-250). -/
def ray_sphere_intersection (sqrt : K → K) (scene : Scene (Dbl K))
    (ray_origin ray_direction : Vec3 (Dbl K)) (index : Nat) (p N : Vec3 (Dbl K)) :
    Dbl K × Vec3 (Dbl K) × Vec3 (Dbl K) :=
  let sphere_center := scene.sphere_centers.getD index default
  let sphere_radius := scene.sphere_radii.getD index default
  let delta := sphere_discriminant ray_origin ray_direction sphere_center sphere_radius
  if Dbl.lt delta (Dbl.fin 0) then
    (Dbl.fin (-1), p, N)
  else
    let t := (Dbl.fin (-2) * (ray_origin - sphere_center).dot ray_direction
        - Dbl.sqrt sqrt delta) / (Dbl.fin 2 * ray_direction.squaredNorm)
    let p := ray_origin + Vec3.smul t ray_direction
    let N := (p - sphere_center).normalized sqrt
    (t, p, N)

/-- The function `ray_parallelogram_intersection` (main.cpp, lines 252-282). -/
def ray_parallelogram_intersection (sqrt : K → K) (scene : Scene (Dbl K))
    (ray_origin ray_direction : Vec3 (Dbl K)) (index : Nat) (p N : Vec3 (Dbl K)) :
    Dbl K × Vec3 (Dbl K) × Vec3 (Dbl K) :=
  let pgram_origin := (scene.parallelograms.getD index default).col0
  let A := (scene.parallelograms.getD index default).col1
  let B := (scene.parallelograms.getD index default).col2
  let pgram_u := A - pgram_origin
  let pgram_v := B - pgram_origin
  let scale := scale_matrix pgram_u pgram_v ray_direction
  let y_position := ray_origin - pgram_origin
  let radius := scale.inverse.mulVec y_position
  if Dbl.le (Dbl.fin 0) radius.x && Dbl.le radius.x (Dbl.fin 1)
      && Dbl.le (Dbl.fin 0) radius.y && Dbl.le radius.y (Dbl.fin 1) then
    let x := Dbl.fin (-1) * radius.z
    let p := ray_origin + (ray_direction.muls (Dbl.fin (-1))).muls x
    let normal_vector := Vec3.smul (Dbl.fin (-1)) (pgram_u.cross pgram_v)
    let N := normal_vector.normalized sqrt
    (-x, p, N)
  else
    (Dbl.fin (-1), p, N)

/-- The function `ray_box_intersection` (main.cpp, lines 284-290); the box is not read. -/
def ray_box_intersection (_ray_origin _ray_direction : Vec3 (Dbl K))
    (_box : AlignedBox3d K) : Bool :=
  false

/-- The local variables of `find_nearest_object` that its three loops update. -/
structure NearestState (K : Type) where
  closest_index : Int
  closest_t : Dbl K
  p : Vec3 (Dbl K)
  N : Vec3 (Dbl K)
  tmp_p : Vec3 (Dbl K)
  tmp_N : Vec3 (Dbl K)

/-- The statements that follow the intersection call in each of the three loops: the call
returned `r.1` and left `r.2` in `tmp_p`, `tmp_N`; `index` is the value the loop would store
in `closest_index`. -/
def NearestState.record (st : NearestState K) (index : Int)
    (r : Dbl K × Vec3 (Dbl K) × Vec3 (Dbl K)) : NearestState K :=
  let t := r.1
  if Dbl.ge t (Dbl.fin 0) then
    if Dbl.lt t st.closest_t then
      ⟨index, t, r.2.1, r.2.2, r.2.1, r.2.2⟩
    else
      ⟨st.closest_index, st.closest_t, st.p, st.N, r.2.1, r.2.2⟩
  else
    ⟨st.closest_index, st.closest_t, st.p, st.N, r.2.1, r.2.2⟩

/-- The vertices `X`, `Y`, `Z` that the first loop gathers for the facet of row `i`. -/
def facet_vertices (scene : Scene (Dbl K)) (i : Nat) :
    Vec3 (Dbl K) × Vec3 (Dbl K) × Vec3 (Dbl K) :=
  let f := scene.facets.getD i (0, 0, 0)
  (scene.vertices.getD f.1 default, scene.vertices.getD f.2.1 default,
   scene.vertices.getD f.2.2 default)

/-- One iteration of the loop over the facets. -/
def triangle_step (sqrt : K → K) (scene : Scene (Dbl K)) (ray_origin ray_direction : Vec3 (Dbl K))
    (st : NearestState K) (i : Nat) : NearestState K :=
  let XYZ := facet_vertices scene i
  st.record (Int.ofNat i)
    (ray_triangle_intersection sqrt ray_origin ray_direction XYZ.1 XYZ.2.1 XYZ.2.2
      st.tmp_p st.tmp_N)

/-- One iteration of the loop over the spheres. -/
def sphere_step (sqrt : K → K) (scene : Scene (Dbl K)) (ray_origin ray_direction : Vec3 (Dbl K))
    (st : NearestState K) (i : Nat) : NearestState K :=
  st.record (Int.ofNat i)
    (ray_sphere_intersection sqrt scene ray_origin ray_direction i st.tmp_p st.tmp_N)

/-- One iteration of the loop over the parallelograms. -/
def parallelogram_step (sqrt : K → K) (scene : Scene (Dbl K))
    (ray_origin ray_direction : Vec3 (Dbl K)) (st : NearestState K) (i : Nat) :
    NearestState K :=
  st.record (Int.ofNat (scene.sphere_centers.length + i))
    (ray_parallelogram_intersection sqrt scene ray_origin ray_direction i st.tmp_p st.tmp_N)

/-- The state of `find_nearest_object` after its three loops. -/
def find_nearest_state (sqrt : K → K) (scene : Scene (Dbl K))
    (ray_origin ray_direction : Vec3 (Dbl K)) (p N : Vec3 (Dbl K)) : NearestState K :=
  let st0 : NearestState K := ⟨-1, Dbl.DBL_MAX, p, N, Vec3.uninit, Vec3.uninit⟩
  let st1 := (List.range scene.facets.length).foldl
    (triangle_step sqrt scene ray_origin ray_direction) st0
  let st2 := (List.range scene.sphere_centers.length).foldl
    (sphere_step sqrt scene ray_origin ray_direction) st1
  (List.range scene.parallelograms.length).foldl
    (parallelogram_step sqrt scene ray_origin ray_direction) st2

/-- The function `find_nearest_object` (main.cpp, lines 294-373): the returned flag and the
contents of `p` and `N` after the call. -/
def find_nearest_object (sqrt : K → K) (scene : Scene (Dbl K))
    (ray_origin ray_direction : Vec3 (Dbl K)) (p N : Vec3 (Dbl K)) :
    Bool × Vec3 (Dbl K) × Vec3 (Dbl K) :=
  let st := find_nearest_state sqrt scene ray_origin ray_direction p N
  if st.closest_index = -1 then (false, st.p, st.N) else (true, st.p, st.N)

/-! ## Raytracer code -/

/-- The function `is_light_visible` (main.cpp, lines 382-399). -/
def is_light_visible (sqrt : K → K) (scene : Scene (Dbl K))
    (ray_origin ray_direction _light_position : Vec3 (Dbl K)) : Bool :=
  let result := (find_nearest_object sqrt scene ray_origin ray_direction
    Vec3.uninit Vec3.uninit).1
  if result != true then true else false

/-- One iteration of the loop over the lights in `shoot_ray`: the new `lights_color`. -/
def light_step (sqrt : K → K) (scene : Scene (Dbl K)) (ray_direction p N : Vec3 (Dbl K))
    (lights_color : Vec4 (Dbl K)) (i : Nat) : Vec4 (Dbl K) :=
  let light_position := scene.light_positions.getD i default
  let light_color := scene.light_colors.getD i default
  let diff_color : Vec4 (Dbl K) := obj_diffuse_color
  let Li := (light_position - p).normalized sqrt
  let diffuse := diff_color.muls (Dbl.max (Li.dot N) (Dbl.fin 0))
  if is_light_visible sqrt scene (p + Vec3.smul (Dbl.fin (1 / 10000)) Li) Li light_position
      == false then
    lights_color
  else
    let Hi := (Li - ray_direction).normalized sqrt
    let specular := (obj_specular_color : Vec4 (Dbl K)).muls
      (Dbl.pow256 (Dbl.max (N.dot Hi) (Dbl.fin 0)))
    let D := light_position - p
    lights_color + ((diffuse + specular).cwiseProduct light_color).divs D.squaredNorm

/-- The last statements of `shoot_ray`: the rendering equation, then alpha set to 1. -/
def compose_color (ambient_color lights_color reflection_color : Vec4 (Dbl K)) : Vec4 (Dbl K) :=
  let C := ambient_color + lights_color + reflection_color
  ⟨C.r, C.g, C.b, Dbl.fin 1⟩

/-- The function `shoot_ray` (main.cpp, lines 401-462).  The C++ function calls itself with
the same `max_bounce`, so the model takes the number of nested calls it may make as its
first argument and returns `none` when that number does not suffice. -/
def shoot_ray (sqrt : K → K) (scene : Scene (Dbl K)) :
    Nat → Vec3 (Dbl K) → Vec3 (Dbl K) → Int → Option (Vec4 (Dbl K))
  | 0, _, _, _ => none
  | fuel + 1, ray_origin, ray_direction, max_bounce =>
    let found := find_nearest_object sqrt scene ray_origin ray_direction Vec3.uninit Vec3.uninit
    let nearest_object := found.1
    let p := found.2.1
    let N := found.2.2
    if !nearest_object then
      some ⟨Dbl.fin 0, Dbl.fin 0, Dbl.fin 0, Dbl.fin 0⟩
    else
      let ambient_color := (obj_ambient_color : Vec4 (Dbl K)).cwiseProduct ambient_light
      let lights_color := (List.range scene.light_positions.length).foldl
        (light_step sqrt scene ray_direction p N)
        ⟨Dbl.fin 0, Dbl.fin 0, Dbl.fin 0, Dbl.fin 0⟩
      let refl_color : Vec4 (Dbl K) := obj_reflection_color
      let reflection_color : Vec4 (Dbl K) :=
        ⟨Dbl.fin (1 / 10), Dbl.fin (1 / 10), Dbl.fin (1 / 10), Dbl.fin (1 / 10)⟩
      if max_bounce < 0 || max_bounce > 0 then
        let v := Vec3.smul (Dbl.fin (-1)) (ray_direction.normalized sqrt)
        let reflection_direction := ((Vec3.smul (Dbl.fin 2) N).muls (N.dot v)) - v
        match shoot_ray sqrt scene fuel
            (p + Vec3.smul (Dbl.fin (1 / 100000)) reflection_direction)
            reflection_direction max_bounce with
        | none => none
        | some colors =>
          some (compose_color ambient_color lights_color (refl_color.cwiseProduct colors))
      else
        some (compose_color ambient_color lights_color reflection_color)

end Code

/-! ## Notions used to state the properties -/

section Notions

variable {K : Type} [LinearOrderedField K]

/-- The value of the local `delta` of `ray_sphere_intersection` for a finite ray and a finite
sphere of centre `C` and radius `r`. -/
def sphere_delta (O D C : Vec3 K) (r : K) : K :=
  4 * ((O - C).dot D * (O - C).dot D) - 4 * D.squaredNorm * ((O - C).squaredNorm - r * r)

/-- The value of the local `t` of `ray_sphere_intersection` for a finite ray and a finite
sphere. -/
def sphere_t (sqrt : K → K) (O D C : Vec3 K) (r : K) : K :=
  (-2 * (O - C).dot D - sqrt (sphere_delta O D C r)) / (2 * D.squaredNorm)

/-- The point of the ray at parameter `t` lies on the sphere: `|O + t D - C|^2 = r^2`. -/
def OnSphere (O D C : Vec3 K) (r t : K) : Prop :=
  (O + Vec3.smul t D - C).squaredNorm = r * r

end Notions

section ScanOrder

variable {K : Type} [LinearOrderedField K]

/-- A primitive of the scene: the triangle of facet `i`, the sphere `i` or the
parallelogram `i`. -/
inductive Primitive where
  | triangle (i : Nat)
  | sphere (i : Nat)
  | parallelogram (i : Nat)
  deriving DecidableEq

/-- The primitives of the scene in the order in which `find_nearest_object` scans them:
the triangles, then the spheres, then the parallelograms. -/
def scene_primitives {α : Type} (scene : Scene α) : List Primitive :=
  (List.range scene.facets.length).map Primitive.triangle
    ++ (List.range scene.sphere_centers.length).map Primitive.sphere
    ++ (List.range scene.parallelograms.length).map Primitive.parallelogram

/-- The call that `find_nearest_object` makes for a primitive: the returned double and the
contents of `tmp_p` and `tmp_N` after the call, from their contents `p`, `N` before it. -/
def primitive_report (sqrt : K → K) (scene : Scene (Dbl K))
    (ray_origin ray_direction : Vec3 (Dbl K)) (q : Primitive) (p N : Vec3 (Dbl K)) :
    Dbl K × Vec3 (Dbl K) × Vec3 (Dbl K) :=
  match q with
  | Primitive.triangle i =>
    ray_triangle_intersection sqrt ray_origin ray_direction (facet_vertices scene i).1
      (facet_vertices scene i).2.1 (facet_vertices scene i).2.2 p N
  | Primitive.sphere i => ray_sphere_intersection sqrt scene ray_origin ray_direction i p N
  | Primitive.parallelogram i =>
    ray_parallelogram_intersection sqrt scene ray_origin ray_direction i p N

/-- The value that `find_nearest_object` stores in `closest_index` for a primitive. -/
def primitive_index {α : Type} (scene : Scene α) : Primitive → Int
  | Primitive.triangle i => Int.ofNat i
  | Primitive.sphere i => Int.ofNat i
  | Primitive.parallelogram i => Int.ofNat (scene.sphere_centers.length + i)

/-- The primitive reports a hit that `find_nearest_object` can record: the double `t` it
returns satisfies `t >= 0` and `t < std::numeric_limits<double>::max()`. -/
def RecordableHit (sqrt : K → K) (scene : Scene (Dbl K))
    (ray_origin ray_direction : Vec3 (Dbl K)) (q : Primitive) : Prop :=
  Dbl.ge (primitive_report sqrt scene ray_origin ray_direction q Vec3.uninit Vec3.uninit).1
      (Dbl.fin 0) = true
  ∧ Dbl.lt (primitive_report sqrt scene ray_origin ray_direction q Vec3.uninit Vec3.uninit).1
      Dbl.DBL_MAX = true

/-- The three loops of `find_nearest_object` as one loop over a list of calls, each with the
value to store in `closest_index`. -/
def run_calls (st : NearestState K)
    (calls : List (Int × (Vec3 (Dbl K) → Vec3 (Dbl K) → Dbl K × Vec3 (Dbl K) × Vec3 (Dbl K)))) :
    NearestState K :=
  calls.foldl (fun st c => st.record c.1 (c.2 st.tmp_p st.tmp_N)) st

end ScanOrder

section LoopNotions

variable {K : Type} [LinearOrderedField K]

/-- A call whose returned double does not depend on the contents of `p` and `N` before it,
and that overwrites both whenever it returns a value `>= 0`. -/
def StableCall (f : Vec3 (Dbl K) → Vec3 (Dbl K) → Dbl K × Vec3 (Dbl K) × Vec3 (Dbl K)) : Prop :=
  ∀ p N : Vec3 (Dbl K), (f p N).1 = (f Vec3.uninit Vec3.uninit).1
    ∧ (Dbl.ge (f p N).1 (Dbl.fin 0) = true → (f p N).2 = (f Vec3.uninit Vec3.uninit).2)

/-- A call that returns a double `t` with `t >= 0` and `t < DBL_MAX`. -/
def RecordableCall (f : Vec3 (Dbl K) → Vec3 (Dbl K) → Dbl K × Vec3 (Dbl K) × Vec3 (Dbl K)) :
    Prop :=
  Dbl.ge (f Vec3.uninit Vec3.uninit).1 (Dbl.fin 0) = true
    ∧ Dbl.lt (f Vec3.uninit Vec3.uninit).1 Dbl.DBL_MAX = true

/-- The invariant of the loops of `find_nearest_object` after the calls `L`, from the
contents `p0`, `N0` of `p` and `N` on entry: either no call was recordable and nothing was
written, or the state holds the result of the first call with the least recordable `t`. -/
def LoopInv (p0 N0 : Vec3 (Dbl K))
    (L : List (Int × (Vec3 (Dbl K) → Vec3 (Dbl K) → Dbl K × Vec3 (Dbl K) × Vec3 (Dbl K))))
    (st : NearestState K) : Prop :=
  ((∀ c ∈ L, ¬ RecordableCall c.2) ∧ st.closest_index = -1 ∧ st.closest_t = Dbl.DBL_MAX
      ∧ st.p = p0 ∧ st.N = N0)
  ∨ (∃ pre c post, L = pre ++ c :: post ∧ RecordableCall c.2 ∧ st.closest_index = c.1
      ∧ st.closest_t = (c.2 Vec3.uninit Vec3.uninit).1
      ∧ (st.p, st.N) = (c.2 Vec3.uninit Vec3.uninit).2
      ∧ (∀ j ∈ pre, RecordableCall j.2 →
          Dbl.lt (c.2 Vec3.uninit Vec3.uninit).1 (j.2 Vec3.uninit Vec3.uninit).1 = true)
      ∧ (∀ j ∈ post, RecordableCall j.2 →
          Dbl.le (c.2 Vec3.uninit Vec3.uninit).1 (j.2 Vec3.uninit Vec3.uninit).1 = true))

end LoopNotions

section Boxes

variable {K : Type} [LinearOrderedField K]

/-- The point `x` lies in the axis-aligned box of corners `lo` and `hi`. -/
def InBox (lo hi x : Vec3 K) : Prop :=
  lo.x ≤ x.x ∧ x.x ≤ hi.x ∧ lo.y ≤ x.y ∧ x.y ≤ hi.y ∧ lo.z ≤ x.z ∧ x.z ≤ hi.z

/-- The ray meets the axis-aligned box of corners `lo` and `hi` at a parameter `t >= 0`. -/
def RayMeetsBox (O D lo hi : Vec3 K) : Prop :=
  ∃ t : K, 0 ≤ t ∧ InBox lo hi (O + Vec3.smul t D)

/-- The axis-aligned bounding box of the three vertices of a finite triangle: its least and
its greatest corner.  It is the box that `bbox_from_triangle` returns when no coordinate
exceeds the largest double (`bbox_from_triangle_lift`). -/
def triangle_box (a b c : Vec3 K) : Vec3 K × Vec3 K :=
  (a.cwiseMin (b.cwiseMin c), a.cwiseMax (b.cwiseMax c))

/-- No coordinate of the finite vector exceeds the largest double in absolute value. -/
def Vec3.InDoubleRange (v : Vec3 K) : Prop :=
  (-(2 ^ 1024 - 2 ^ 971) ≤ v.x ∧ v.x ≤ 2 ^ 1024 - 2 ^ 971)
  ∧ (-(2 ^ 1024 - 2 ^ 971) ≤ v.y ∧ v.y ≤ 2 ^ 1024 - 2 ^ 971)
  ∧ (-(2 ^ 1024 - 2 ^ 971) ≤ v.z ∧ v.z ≤ 2 ^ 1024 - 2 ^ 971)

/-- The axis-aligned bounding box of the sphere of centre `C` and radius `r`. -/
def sphere_box (C : Vec3 K) (r : K) : Vec3 K × Vec3 K :=
  (C - ⟨|r|, |r|, |r|⟩, C + ⟨|r|, |r|, |r|⟩)

/-- The axis-aligned bounding box of the four corners of the parallelogram `M`: its origin
`M.col0`, the corners `M.col1` and `M.col2`, and the corner opposite to the origin. -/
def parallelogram_box (M : Mat3 K) : Vec3 K × Vec3 K :=
  ((M.col0.cwiseMin M.col1).cwiseMin (M.col2.cwiseMin (M.col1 + M.col2 - M.col0)),
   (M.col0.cwiseMax M.col1).cwiseMax (M.col2.cwiseMax (M.col1 + M.col2 - M.col0)))

/-- The ray meets the bounding box of no primitive of the finite scene at a parameter
`t >= 0`: of no triangle whose three vertices exist, of no sphere that has a centre and a
radius, of no parallelogram. -/
def RayMissesBoxes (scene : Scene K) (O D : Vec3 K) : Prop :=
  (∀ (i : Nat) (f : Nat × Nat × Nat) (a b c : Vec3 K), scene.facets[i]? = some f →
      scene.vertices[f.1]? = some a → scene.vertices[f.2.1]? = some b →
      scene.vertices[f.2.2]? = some c →
      ¬ RayMeetsBox O D (triangle_box a b c).1 (triangle_box a b c).2)
  ∧ (∀ (i : Nat) (C : Vec3 K) (r : K), scene.sphere_centers[i]? = some C →
      scene.sphere_radii[i]? = some r →
      ¬ RayMeetsBox O D (sphere_box C r).1 (sphere_box C r).2)
  ∧ (∀ M ∈ scene.parallelograms,
      ¬ RayMeetsBox O D (parallelogram_box M).1 (parallelogram_box M).2)

end Boxes

/-! ## The tree of bounding boxes and the shading terms -/

section TreeAndShading

variable {K : Type} [LinearOrderedField K]

/-- The class `AABBTree::Node` (main.cpp, lines 27-35): `-1` stands for no parent, no child,
no triangle. -/
structure AABBTree.Node (K : Type) where
  bbox : AlignedBox3d K
  parent : Int
  left : Int
  right : Int
  triangle : Int

/-- The class `AABBTree` (main.cpp, lines 24-42).  The member `root` is an `int` without
initialiser: it is `none` as long as no statement has written it. -/
structure AABBTree (K : Type) where
  nodes : List (AABBTree.Node K)
  root : Option Int

/-- The row of `centroids` that the constructor of `AABBTree` computes for the facet `f`:
the three vertices are added to a zero row, which is then divided by `F.cols()`. -/
def triangle_centroid (V : List (Vec3 (Dbl K))) (f : Nat × Nat × Nat) : Vec3 (Dbl K) :=
  ((((⟨Dbl.fin 0, Dbl.fin 0, Dbl.fin 0⟩ : Vec3 (Dbl K)) + V.getD f.1 default)
    + V.getD f.2.1 default) + V.getD f.2.2 default).divs (Dbl.fin 3)

/-- The constructor `AABBTree::AABBTree(V, F)` (main.cpp, lines 174-192): it computes the
centroids of the triangles and ends there, on a `TODO`; it adds no node and does not write
`root`. -/
def AABBTree.build (V : List (Vec3 (Dbl K))) (F : List (Nat × Nat × Nat)) : AABBTree K :=
  let _centroids := F.map (triangle_centroid V)
  ⟨[], none⟩

/-- The node is a leaf: it has no child. -/
def AABBTree.Node.IsLeaf (node : AABBTree.Node K) : Prop :=
  node.left = -1 ∧ node.right = -1

/-- The local `v` of `shoot_ray` (main.cpp, line 449): the reversed, normalised ray
direction. -/
def view_direction (sqrt : K → K) (ray_direction : Vec3 (Dbl K)) : Vec3 (Dbl K) :=
  Vec3.smul (Dbl.fin (-1)) (ray_direction.normalized sqrt)

/-- The local `reflection_direction` of `shoot_ray` (main.cpp, line 450), for the normal `N`
that `find_nearest_object` wrote. -/
def reflection_direction (sqrt : K → K) (N ray_direction : Vec3 (Dbl K)) : Vec3 (Dbl K) :=
  ((Vec3.smul (Dbl.fin 2) N).muls (N.dot (view_direction sqrt ray_direction)))
    - view_direction sqrt ray_direction

/-- The local `ambient_color` of `shoot_ray` (main.cpp, line 415). -/
def ambient_color : Vec4 (Dbl K) :=
  (obj_ambient_color : Vec4 (Dbl K)).cwiseProduct ambient_light

/-- The local `lights_color` of `shoot_ray` after the loop over the lights (main.cpp, lines
418-442), for the point `p` and the normal `N` that `find_nearest_object` wrote. -/
def lights_color (sqrt : K → K) (scene : Scene (Dbl K)) (ray_direction p N : Vec3 (Dbl K)) :
    Vec4 (Dbl K) :=
  (List.range scene.light_positions.length).foldl (light_step sqrt scene ray_direction p N)
    ⟨Dbl.fin 0, Dbl.fin 0, Dbl.fin 0, Dbl.fin 0⟩

/-- The initial value of the local `reflection_color` of `shoot_ray` (main.cpp, line 446). -/
def initial_reflection_color : Vec4 (Dbl K) :=
  ⟨Dbl.fin (1 / 10), Dbl.fin (1 / 10), Dbl.fin (1 / 10), Dbl.fin (1 / 10)⟩

end TreeAndShading

section ExampleScenes

variable {K : Type} [LinearOrderedField K]

/-- An example scene: the parallelogram of origin `(0,0,0)` and corners `(1,0,0)`, `(0,1,0)`,
and no light. -/
def floor_scene : Scene (Dbl K) :=
  ⟨[], [], [], [], [Mat3.lift ⟨0, 1, 0, 0, 0, 1, 0, 0, 0⟩], [], []⟩

/-- An example scene: two facing unit squares, the parallelogram of `floor_scene` and its
copy at height `1` (origin `(0,0,1)`, corners `(1,0,1)`, `(0,1,1)`), and no light. -/
def mirror_scene : Scene (Dbl K) :=
  ⟨[], [], [], [],
    [Mat3.lift ⟨0, 1, 0, 0, 0, 1, 0, 0, 0⟩, Mat3.lift ⟨0, 1, 0, 0, 0, 1, 1, 1, 1⟩], [], []⟩

end ExampleScenes

section NestedCalls

variable {K : Type} [LinearOrderedField K]

/-- The arguments of the call that `shoot_ray` makes on itself (main.cpp, lines 448-451):
the ray from `p + 1e-5 * reflection_direction` along `reflection_direction`, with the bounce
count `max_bounce` it was given; `none` when `shoot_ray` makes no such call. -/
def nested_call (sqrt : K → K) (scene : Scene (Dbl K)) (ray_origin ray_direction : Vec3 (Dbl K))
    (max_bounce : Int) : Option (Vec3 (Dbl K) × Vec3 (Dbl K) × Int) :=
  let found := find_nearest_object sqrt scene ray_origin ray_direction Vec3.uninit Vec3.uninit
  let nearest_object := found.1
  let p := found.2.1
  let N := found.2.2
  if !nearest_object then
    none
  else
    if max_bounce < 0 || max_bounce > 0 then
      let v := Vec3.smul (Dbl.fin (-1)) (ray_direction.normalized sqrt)
      let reflection_direction := ((Vec3.smul (Dbl.fin 2) N).muls (N.dot v)) - v
      some (p + Vec3.smul (Dbl.fin (1 / 100000)) reflection_direction, reflection_direction,
        max_bounce)
    else
      none

/-- The chain of nested calls of `shoot_ray` that starts with the call on
`(ray_origin, ray_direction, max_bounce)`, cut after `k + 1` calls. -/
def call_chain (sqrt : K → K) (scene : Scene (Dbl K)) :
    Nat → Vec3 (Dbl K) → Vec3 (Dbl K) → Int → List (Vec3 (Dbl K) × Vec3 (Dbl K) × Int)
  | 0, ray_origin, ray_direction, max_bounce => [(ray_origin, ray_direction, max_bounce)]
  | k + 1, ray_origin, ray_direction, max_bounce =>
    (ray_origin, ray_direction, max_bounce) ::
      match nested_call sqrt scene ray_origin ray_direction max_bounce with
      | none => []
      | some c => call_chain sqrt scene k c.1 c.2.1 c.2.2

end NestedCalls

/-! ## Double arithmetic with rounding

The definitions above compute the finite values exactly.  The definitions of this part
follow the same source lines with the arithmetic of the machine: the result of every
`+`, `-`, `*`, `/` and `sqrt` on doubles is the exact result rounded by a function `rnd`,
which is `round53` for IEEE-754 doubles in the default rounding mode.  Every operation is
rounded on its own (no fused multiply-add), the exponent range is not bounded (a finite
result stays finite), unary minus and the comparisons are exact.  A sum of three terms is
added from left to right; Eigen's unrolled reductions may add the last two terms first, and
the inputs on which the definitions are evaluated below have a zero term in every such sum,
so that both orders give the same doubles. -/

section Rounding

/-- The number of binary digits of `n`, found by halving `n` at most `fuel` times;
`bit_length n n` is the number of binary digits of `n`. -/
def bit_length : Nat → Nat → Nat
  | 0, _ => 0
  | fuel + 1, n => if n = 0 then 0 else bit_length fuel (n / 2) + 1

/-- The power `2 ^ k` of an integer `k`. -/
def pow2 (k : Int) : ℚ :=
  if 0 ≤ k then ((2 ^ k.toNat : Nat) : ℚ) else 1 / ((2 ^ (-k).toNat : Nat) : ℚ)

/-- The binary exponent of `q ≠ 0`: the integer `e` with `2 ^ e ≤ |q| < 2 ^ (e + 1)`. -/
def binade (q : ℚ) : Int :=
  let n := q.num.natAbs
  let e0 : Int := (bit_length n n : Int) - (bit_length q.den q.den : Int)
  if (if 0 ≤ e0 then q.den * 2 ^ e0.toNat ≤ n else q.den ≤ n * 2 ^ (-e0).toNat) then e0
  else e0 - 1

/-- The integer nearest to `q`, the even one of the two when `q` lies half-way between two
integers. -/
def round_half_even (q : ℚ) : Int :=
  let f : Int := q.num / (q.den : Int)
  let r : ℚ := q - (f : ℚ)
  if r < 1 / 2 then f else if 1 / 2 < r then f + 1 else if f % 2 = 0 then f else f + 1

/-- The double nearest to the rational `q` (round to nearest, ties to even): `q` rounded to
53 significant binary digits. -/
def round53 (q : ℚ) : ℚ :=
  if q = 0 then 0
  else
    let s := pow2 (52 - binade q)
    (round_half_even (q * s) : ℚ) / s

variable {K : Type} [LinearOrderedField K]

/-- The double `x` after rounding by `rnd`: a finite value is rounded, an infinity and NaN
are kept. -/
def Dbl.round (rnd : K → K) : Dbl K → Dbl K
  | Dbl.fin x => Dbl.fin (rnd x)
  | Dbl.pinf => Dbl.pinf
  | Dbl.ninf => Dbl.ninf
  | Dbl.nan => Dbl.nan

/-- A double of the arithmetic that rounds by `rnd`: the values are those of `Dbl K`, the
operations round their result. -/
structure RDbl (K : Type) (rnd : K → K) where
  val : Dbl K
  deriving DecidableEq

namespace RDbl

variable {rnd : K → K}

instance : Add (RDbl K rnd) := ⟨fun a b => ⟨(a.val + b.val).round rnd⟩⟩
instance : Sub (RDbl K rnd) := ⟨fun a b => ⟨(a.val - b.val).round rnd⟩⟩
instance : Mul (RDbl K rnd) := ⟨fun a b => ⟨(a.val * b.val).round rnd⟩⟩
instance : Div (RDbl K rnd) := ⟨fun a b => ⟨(a.val / b.val).round rnd⟩⟩
instance : Neg (RDbl K rnd) := ⟨fun a => ⟨-a.val⟩⟩
instance : One (RDbl K rnd) := ⟨⟨Dbl.fin 1⟩⟩
instance : Inhabited (RDbl K rnd) := ⟨⟨Dbl.nan⟩⟩

/-- The finite double of value `x`. -/
def fin (x : K) : RDbl K rnd := ⟨Dbl.fin x⟩

/-- The libm `sqrt`, rounded. -/
def sqrt (sqrt : K → K) (a : RDbl K rnd) : RDbl K rnd := ⟨(Dbl.sqrt sqrt a.val).round rnd⟩

/-- The comparison `a <= b`. -/
def le (a b : RDbl K rnd) : Bool := Dbl.le a.val b.val

/-- The comparison `a < b`. -/
def lt (a b : RDbl K rnd) : Bool := Dbl.lt a.val b.val

/-- The comparison `a >= b`. -/
def ge (a b : RDbl K rnd) : Bool := le b a

/-- The comparison `a > b`. -/
def gt (a b : RDbl K rnd) : Bool := lt b a

/-- The constant `std::numeric_limits<double>::max()`. -/
def DBL_MAX : RDbl K rnd := ⟨Dbl.DBL_MAX⟩

/-- The double is a finite value. -/
def isFinite (a : RDbl K rnd) : Bool := Dbl.isFinite a.val

end RDbl

/-- A vector of finite doubles of the arithmetic that rounds. -/
def Vec3.rlift (rnd : K → K) (v : Vec3 K) : Vec3 (RDbl K rnd) :=
  ⟨RDbl.fin v.x, RDbl.fin v.y, RDbl.fin v.z⟩

/-- A matrix of finite doubles of the arithmetic that rounds. -/
def Mat3.rlift (rnd : K → K) (m : Mat3 K) : Mat3 (RDbl K rnd) :=
  ⟨RDbl.fin m.m00, RDbl.fin m.m01, RDbl.fin m.m02,
   RDbl.fin m.m10, RDbl.fin m.m11, RDbl.fin m.m12,
   RDbl.fin m.m20, RDbl.fin m.m21, RDbl.fin m.m22⟩

/-- A colour of finite doubles of the arithmetic that rounds. -/
def Vec4.rlift (rnd : K → K) (v : Vec4 K) : Vec4 (RDbl K rnd) :=
  ⟨RDbl.fin v.r, RDbl.fin v.g, RDbl.fin v.b, RDbl.fin v.a⟩

/-- A scene of finite doubles of the arithmetic that rounds. -/
def Scene.rlift (rnd : K → K) (s : Scene K) : Scene (RDbl K rnd) :=
  ⟨s.vertices.map (Vec3.rlift rnd), s.facets, s.sphere_centers.map (Vec3.rlift rnd),
   s.sphere_radii.map RDbl.fin, s.parallelograms.map (Mat3.rlift rnd),
   s.light_positions.map (Vec3.rlift rnd), s.light_colors.map (Vec4.rlift rnd)⟩

instance {rnd : K → K} : Inhabited (Vec3 (RDbl K rnd)) := ⟨⟨default, default, default⟩⟩

instance {rnd : K → K} : Inhabited (Mat3 (RDbl K rnd)) :=
  ⟨⟨default, default, default, default, default, default, default, default, default⟩⟩

variable {rnd : K → K}

/-- The member `n.normalized()`, as `Vec3.normalized`, in the arithmetic that rounds. -/
def Vec3.normalized_rounded (sqrt : K → K) (n : Vec3 (RDbl K rnd)) : Vec3 (RDbl K rnd) :=
  let z := n.squaredNorm
  if RDbl.gt z (RDbl.fin 0) then n.divs (RDbl.sqrt sqrt z) else n

/-- The function `ray_triangle_intersection` (main.cpp, lines 198-226) in the arithmetic
that rounds. -/
def ray_triangle_intersection_rounded (sqrt : K → K)
    (ray_origin ray_direction a b c : Vec3 (RDbl K rnd)) (p N : Vec3 (RDbl K rnd)) :
    RDbl K rnd × Vec3 (RDbl K rnd) × Vec3 (RDbl K rnd) :=
  let tri_origin := a
  let pgram_u := b - tri_origin
  let pgram_v := c - tri_origin
  let scale := scale_matrix pgram_u pgram_v ray_direction
  let y_position := ray_origin - tri_origin
  let radius := scale.inverse.mulVec y_position
  if RDbl.le (RDbl.fin 0) radius.x && RDbl.le radius.x (RDbl.fin 1)
      && RDbl.le (RDbl.fin 0) radius.y && RDbl.le radius.y (RDbl.fin 1)
      && RDbl.le (radius.x + radius.y) (RDbl.fin 1) then
    let x := RDbl.fin (-1) * radius.z
    let p := ray_origin + (ray_direction.muls (RDbl.fin (-1))).muls x
    let normal_vector := Vec3.smul (RDbl.fin (-1)) (pgram_u.cross pgram_v)
    let N := normal_vector.normalized_rounded sqrt
    (-x, p, N)
  else
    (RDbl.fin (-1), p, N)

/-- The initialiser of the local `delta` of `ray_sphere_intersection` (main.cpp, line 235) in
the arithmetic that rounds. -/
def sphere_discriminant_rounded (ray_origin ray_direction sphere_center : Vec3 (RDbl K rnd))
    (sphere_radius : RDbl K rnd) : RDbl K rnd :=
  let oc := (ray_origin - sphere_center).dot ray_direction
  RDbl.fin 4 * (oc * oc)
    - RDbl.fin 4 * ray_direction.squaredNorm
        * ((ray_origin - sphere_center).squaredNorm - sphere_radius * sphere_radius)

/-- The function `ray_sphere_intersection` (main.cpp, lines 228-250) in the arithmetic that
rounds. -/
def ray_sphere_intersection_rounded (sqrt : K → K) (scene : Scene (RDbl K rnd))
    (ray_origin ray_direction : Vec3 (RDbl K rnd)) (index : Nat) (p N : Vec3 (RDbl K rnd)) :
    RDbl K rnd × Vec3 (RDbl K rnd) × Vec3 (RDbl K rnd) :=
  let sphere_center := scene.sphere_centers.getD index default
  let sphere_radius := scene.sphere_radii.getD index default
  let delta := sphere_discriminant_rounded ray_origin ray_direction sphere_center sphere_radius
  if RDbl.lt delta (RDbl.fin 0) then
    (RDbl.fin (-1), p, N)
  else
    let t := (RDbl.fin (-2) * (ray_origin - sphere_center).dot ray_direction
        - RDbl.sqrt sqrt delta) / (RDbl.fin 2 * ray_direction.squaredNorm)
    let p := ray_origin + Vec3.smul t ray_direction
    let N := (p - sphere_center).normalized_rounded sqrt
    (t, p, N)

/-- The function `ray_parallelogram_intersection` (main.cpp, lines 252-282) in the
arithmetic that rounds. -/
def ray_parallelogram_intersection_rounded (sqrt : K → K) (scene : Scene (RDbl K rnd))
    (ray_origin ray_direction : Vec3 (RDbl K rnd)) (index : Nat) (p N : Vec3 (RDbl K rnd)) :
    RDbl K rnd × Vec3 (RDbl K rnd) × Vec3 (RDbl K rnd) :=
  let pgram_origin := (scene.parallelograms.getD index default).col0
  let A := (scene.parallelograms.getD index default).col1
  let B := (scene.parallelograms.getD index default).col2
  let pgram_u := A - pgram_origin
  let pgram_v := B - pgram_origin
  let scale := scale_matrix pgram_u pgram_v ray_direction
  let y_position := ray_origin - pgram_origin
  let radius := scale.inverse.mulVec y_position
  if RDbl.le (RDbl.fin 0) radius.x && RDbl.le radius.x (RDbl.fin 1)
      && RDbl.le (RDbl.fin 0) radius.y && RDbl.le radius.y (RDbl.fin 1) then
    let x := RDbl.fin (-1) * radius.z
    let p := ray_origin + (ray_direction.muls (RDbl.fin (-1))).muls x
    let normal_vector := Vec3.smul (RDbl.fin (-1)) (pgram_u.cross pgram_v)
    let N := normal_vector.normalized_rounded sqrt
    (-x, p, N)
  else
    (RDbl.fin (-1), p, N)

/-- The local variables of `find_nearest_object` that its three loops update, in the
arithmetic that rounds. -/
structure NearestStateRounded (K : Type) (rnd : K → K) where
  closest_index : Int
  closest_t : RDbl K rnd
  p : Vec3 (RDbl K rnd)
  N : Vec3 (RDbl K rnd)
  tmp_p : Vec3 (RDbl K rnd)
  tmp_N : Vec3 (RDbl K rnd)

/-- The statements that follow the intersection call in each of the three loops, as
`NearestState.record`. -/
def NearestStateRounded.record (st : NearestStateRounded K rnd) (index : Int)
    (r : RDbl K rnd × Vec3 (RDbl K rnd) × Vec3 (RDbl K rnd)) : NearestStateRounded K rnd :=
  let t := r.1
  if RDbl.ge t (RDbl.fin 0) then
    if RDbl.lt t st.closest_t then
      ⟨index, t, r.2.1, r.2.2, r.2.1, r.2.2⟩
    else
      ⟨st.closest_index, st.closest_t, st.p, st.N, r.2.1, r.2.2⟩
  else
    ⟨st.closest_index, st.closest_t, st.p, st.N, r.2.1, r.2.2⟩

/-- The vertices `X`, `Y`, `Z` that the first loop gathers for the facet of row `i`. -/
def facet_vertices_rounded (scene : Scene (RDbl K rnd)) (i : Nat) :
    Vec3 (RDbl K rnd) × Vec3 (RDbl K rnd) × Vec3 (RDbl K rnd) :=
  let f := scene.facets.getD i (0, 0, 0)
  (scene.vertices.getD f.1 default, scene.vertices.getD f.2.1 default,
   scene.vertices.getD f.2.2 default)

/-- One iteration of the loop over the facets. -/
def triangle_step_rounded (sqrt : K → K) (scene : Scene (RDbl K rnd))
    (ray_origin ray_direction : Vec3 (RDbl K rnd)) (st : NearestStateRounded K rnd) (i : Nat) :
    NearestStateRounded K rnd :=
  let XYZ := facet_vertices_rounded scene i
  st.record (Int.ofNat i)
    (ray_triangle_intersection_rounded sqrt ray_origin ray_direction XYZ.1 XYZ.2.1 XYZ.2.2
      st.tmp_p st.tmp_N)

/-- One iteration of the loop over the spheres. -/
def sphere_step_rounded (sqrt : K → K) (scene : Scene (RDbl K rnd))
    (ray_origin ray_direction : Vec3 (RDbl K rnd)) (st : NearestStateRounded K rnd) (i : Nat) :
    NearestStateRounded K rnd :=
  st.record (Int.ofNat i)
    (ray_sphere_intersection_rounded sqrt scene ray_origin ray_direction i st.tmp_p st.tmp_N)

/-- One iteration of the loop over the parallelograms. -/
def parallelogram_step_rounded (sqrt : K → K) (scene : Scene (RDbl K rnd))
    (ray_origin ray_direction : Vec3 (RDbl K rnd)) (st : NearestStateRounded K rnd) (i : Nat) :
    NearestStateRounded K rnd :=
  st.record (Int.ofNat (scene.sphere_centers.length + i))
    (ray_parallelogram_intersection_rounded sqrt scene ray_origin ray_direction i
      st.tmp_p st.tmp_N)

/-- The state of `find_nearest_object` after its three loops. -/
def find_nearest_state_rounded (sqrt : K → K) (scene : Scene (RDbl K rnd))
    (ray_origin ray_direction : Vec3 (RDbl K rnd)) (p N : Vec3 (RDbl K rnd)) :
    NearestStateRounded K rnd :=
  let st0 : NearestStateRounded K rnd := ⟨-1, RDbl.DBL_MAX, p, N, default, default⟩
  let st1 := (List.range scene.facets.length).foldl
    (triangle_step_rounded sqrt scene ray_origin ray_direction) st0
  let st2 := (List.range scene.sphere_centers.length).foldl
    (sphere_step_rounded sqrt scene ray_origin ray_direction) st1
  (List.range scene.parallelograms.length).foldl
    (parallelogram_step_rounded sqrt scene ray_origin ray_direction) st2

/-- The function `find_nearest_object` (main.cpp, lines 294-373) in the arithmetic that
rounds: the returned flag and the contents of `p` and `N` after the call. -/
def find_nearest_object_rounded (sqrt : K → K) (scene : Scene (RDbl K rnd))
    (ray_origin ray_direction : Vec3 (RDbl K rnd)) (p N : Vec3 (RDbl K rnd)) :
    Bool × Vec3 (RDbl K rnd) × Vec3 (RDbl K rnd) :=
  let st := find_nearest_state_rounded sqrt scene ray_origin ray_direction p N
  if st.closest_index = -1 then (false, st.p, st.N) else (true, st.p, st.N)

/-- An example scene: the parallelogram of origin `(0, 0, 0)` and corners `(1, 0.1, 0.3)`,
`(3, 0.2, 0.6)`, each decimal being the double nearest to it, and nothing else.  Its plane
contains the first axis. -/
def slanted_scene : Scene ℚ :=
  ⟨[], [], [], [],
    [⟨0, 1, 3,
      0, round53 (1 / 10), round53 (2 / 10),
      0, round53 (3 / 10), round53 (6 / 10)⟩], [], []⟩

end Rounding

section RoundingValues

variable {K : Type} {rnd : K → K}

/-- The vector of the values of the components of `v`. -/
def Vec3.vals (v : Vec3 (RDbl K rnd)) : Vec3 (Dbl K) := ⟨v.x.val, v.y.val, v.z.val⟩

/-- The colour of the values of the components of `v`. -/
def Vec4.vals (v : Vec4 (RDbl K rnd)) : Vec4 (Dbl K) := ⟨v.r.val, v.g.val, v.b.val, v.a.val⟩

/-- The matrix of the values of the entries of `m`. -/
def Mat3.vals (m : Mat3 (RDbl K rnd)) : Mat3 (Dbl K) :=
  ⟨m.m00.val, m.m01.val, m.m02.val, m.m10.val, m.m11.val, m.m12.val,
   m.m20.val, m.m21.val, m.m22.val⟩

/-- The scene of the values of the doubles of `s`. -/
def Scene.vals (s : Scene (RDbl K rnd)) : Scene (Dbl K) :=
  ⟨s.vertices.map Vec3.vals, s.facets, s.sphere_centers.map Vec3.vals,
   s.sphere_radii.map RDbl.val, s.parallelograms.map Mat3.vals,
   s.light_positions.map Vec3.vals, s.light_colors.map Vec4.vals⟩

/-- The values of the local variables of `find_nearest_object`. -/
def NearestStateRounded.vals (st : NearestStateRounded K rnd) : NearestState K :=
  ⟨st.closest_index, st.closest_t.val, st.p.vals, st.N.vals, st.tmp_p.vals, st.tmp_N.vals⟩

/-- The values of the result of an intersection function. -/
def report_vals (r : RDbl K rnd × Vec3 (RDbl K rnd) × Vec3 (RDbl K rnd)) :
    Dbl K × Vec3 (Dbl K) × Vec3 (Dbl K) :=
  (r.1.val, r.2.1.vals, r.2.2.vals)

end RoundingValues

/-! ## Arithmetic of finite doubles -/

namespace Dbl

variable {K : Type} [LinearOrderedField K]

@[simp] theorem fin_add_fin (a b : K) : (fin a + fin b : Dbl K) = fin (a + b) := rfl

@[simp] theorem fin_mul_fin (a b : K) : (fin a * fin b : Dbl K) = fin (a * b) := rfl

@[simp] theorem neg_fin (a : K) : (-(fin a) : Dbl K) = fin (-a) := rfl

@[simp] theorem fin_sub_fin (a b : K) : (fin a - fin b : Dbl K) = fin (a - b) := by
  show add (fin a) (neg (fin b)) = fin (a - b)
  simp [add, neg, sub_eq_add_neg]

theorem fin_div_fin (a : K) {b : K} (h : b ≠ 0) : (fin a / fin b : Dbl K) = fin (a / b) := by
  show div (fin a) (fin b) = fin (a / b)
  simp [div, h]

theorem fin_div_fin_eq (a b : K) :
    (fin a / fin b : Dbl K) = if b = 0 then scaleInf a pinf else fin (a / b) := rfl

@[simp] theorem one_eq : (1 : Dbl K) = fin 1 := rfl

theorem one_div_fin (b : K) :
    ((1 : Dbl K) / fin b) = if b = 0 then pinf else fin (1 / b) := by
  show div (fin 1) (fin b) = _
  simp [div, scaleInf]

@[simp] theorem le_fin_fin (a b : K) : le (fin a) (fin b) = decide (a ≤ b) := rfl

@[simp] theorem lt_fin_fin (a b : K) : lt (fin a) (fin b) = decide (a < b) := rfl

@[simp] theorem ge_fin_fin (a b : K) : ge (fin a) (fin b) = decide (b ≤ a) := rfl

@[simp] theorem gt_fin_fin (a b : K) : gt (fin a) (fin b) = decide (b < a) := rfl

theorem sqrt_fin (sq : K → K) {a : K} (h : 0 ≤ a) : sqrt sq (fin a) = fin (sq a) := by
  simp [sqrt, not_lt.mpr h]

@[simp] theorem fin_mul_pinf (a : K) : (fin a * pinf : Dbl K) = scaleInf a pinf := rfl

@[simp] theorem fin_mul_ninf (a : K) : (fin a * ninf : Dbl K) = scaleInf a ninf := rfl

@[simp] theorem pinf_mul_fin (a : K) : (pinf * fin a : Dbl K) = scaleInf a pinf := rfl

@[simp] theorem ninf_mul_fin (a : K) : (ninf * fin a : Dbl K) = scaleInf a ninf := rfl

@[simp] theorem nan_mul (x : Dbl K) : (nan * x : Dbl K) = nan := by
  show mul nan x = nan
  cases x <;> rfl

@[simp] theorem mul_nan (x : Dbl K) : (x * nan : Dbl K) = nan := by
  show mul x nan = nan
  cases x <;> rfl

@[simp] theorem nan_add (x : Dbl K) : (nan + x : Dbl K) = nan := by
  show add nan x = nan
  cases x <;> rfl

@[simp] theorem add_nan (x : Dbl K) : (x + nan : Dbl K) = nan := by
  show add x nan = nan
  cases x <;> rfl

@[simp] theorem nan_sub (x : Dbl K) : (nan - x : Dbl K) = nan := by
  show add nan (neg x) = nan
  cases x <;> rfl

@[simp] theorem sub_nan (x : Dbl K) : (x - nan : Dbl K) = nan := by
  show add x (neg nan) = nan
  cases x <;> rfl

@[simp] theorem neg_nan : (-(nan : Dbl K)) = nan := rfl

@[simp] theorem nan_div (x : Dbl K) : (nan / x : Dbl K) = nan := by
  show div nan x = nan
  cases x <;> rfl

@[simp] theorem div_nan (x : Dbl K) : (x / nan : Dbl K) = nan := by
  show div x nan = nan
  cases x <;> rfl

@[simp] theorem le_nan (x : Dbl K) : le x nan = false := by
  cases x <;> rfl

@[simp] theorem nan_le (x : Dbl K) : le nan x = false := by
  cases x <;> rfl

@[simp] theorem lt_nan (x : Dbl K) : lt x nan = false := by
  cases x <;> rfl

@[simp] theorem nan_lt (x : Dbl K) : lt nan x = false := by
  cases x <;> rfl

@[simp] theorem ge_nan (x : Dbl K) : ge nan x = false := le_nan x

@[simp] theorem sqrt_nan (sq : K → K) : sqrt sq (nan : Dbl K) = nan := rfl

end Dbl

namespace Vec3

variable {K : Type} [LinearOrderedField K]

@[simp] theorem add_x {α : Type} [Add α] (a b : Vec3 α) : (a + b).x = a.x + b.x := rfl
@[simp] theorem add_y {α : Type} [Add α] (a b : Vec3 α) : (a + b).y = a.y + b.y := rfl
@[simp] theorem add_z {α : Type} [Add α] (a b : Vec3 α) : (a + b).z = a.z + b.z := rfl
@[simp] theorem sub_x {α : Type} [Sub α] (a b : Vec3 α) : (a - b).x = a.x - b.x := rfl
@[simp] theorem sub_y {α : Type} [Sub α] (a b : Vec3 α) : (a - b).y = a.y - b.y := rfl
@[simp] theorem sub_z {α : Type} [Sub α] (a b : Vec3 α) : (a - b).z = a.z - b.z := rfl

@[simp] theorem neg_x {α : Type} [Neg α] (a : Vec3 α) : (-a).x = -a.x := rfl
@[simp] theorem neg_y {α : Type} [Neg α] (a : Vec3 α) : (-a).y = -a.y := rfl
@[simp] theorem neg_z {α : Type} [Neg α] (a : Vec3 α) : (-a).z = -a.z := rfl

@[simp] theorem neg_lift (a : Vec3 K) : -a.lift = (-a).lift := by
  ext <;> simp [lift]

@[simp] theorem lift_add (a b : Vec3 K) : a.lift + b.lift = (a + b).lift := by
  ext <;> simp [lift]

@[simp] theorem lift_sub (a b : Vec3 K) : a.lift - b.lift = (a - b).lift := by
  ext <;> simp [lift]

@[simp] theorem smul_lift (s : K) (v : Vec3 K) : smul (Dbl.fin s) v.lift = (smul s v).lift := by
  ext <;> simp [lift, smul]

@[simp] theorem muls_lift (v : Vec3 K) (s : K) : muls v.lift (Dbl.fin s) = (muls v s).lift := by
  ext <;> simp [lift, muls]

@[simp] theorem dot_lift (a b : Vec3 K) : dot a.lift b.lift = Dbl.fin (dot a b) := by
  simp [lift, dot]

@[simp] theorem cross_lift (a b : Vec3 K) : cross a.lift b.lift = (cross a b).lift := by
  ext <;> simp [lift, cross]

@[simp] theorem squaredNorm_lift (a : Vec3 K) : squaredNorm a.lift = Dbl.fin (squaredNorm a) := by
  simp [lift, squaredNorm]

theorem lift_injective {L : Type} {a b : Vec3 L} (h : a.lift = b.lift) : a = b := by
  have hx := congrArg Vec3.x h
  have hy := congrArg Vec3.y h
  have hz := congrArg Vec3.z h
  simp only [lift, Dbl.fin.injEq] at hx hy hz
  ext <;> assumption

end Vec3

namespace Mat3

variable {K : Type} [LinearOrderedField K]

@[simp] theorem det_lift (m : Mat3 K) : det m.lift = Dbl.fin (det m) := by
  simp [lift, det]

@[simp] theorem mulVec_lift (m : Mat3 K) (v : Vec3 K) :
    mulVec m.lift v.lift = (mulVec m v).lift := by
  ext <;> simp [lift, mulVec, Vec3.lift]

theorem inverse_lift (m : Mat3 K) (h : det m ≠ 0) : inverse m.lift = (inverse m).lift := by
  have hd : (1 : Dbl K) / det m.lift = Dbl.fin (1 / det m) := by
    rw [det_lift, Dbl.one_eq, Dbl.fin_div_fin 1 h]
  unfold inverse
  simp only [hd]
  ext <;> simp [lift]

/-- For an invertible matrix, `inverse` is a right inverse. -/
theorem mulVec_inverse_mulVec (m : Mat3 K) (h : det m ≠ 0) (y : Vec3 K) :
    mulVec m (mulVec (inverse m) y) = y := by
  have h2 := h
  simp only [det] at h2
  ext <;> simp only [mulVec, inverse, det] <;> field_simp <;> ring

/-- For an invertible matrix, `inverse` is a left inverse. -/
theorem inverse_mulVec_mulVec (m : Mat3 K) (h : det m ≠ 0) (x : Vec3 K) :
    mulVec (inverse m) (mulVec m x) = x := by
  have h2 := h
  simp only [det] at h2
  ext <;> simp only [mulVec, inverse, det] <;> field_simp <;> ring

end Mat3

@[simp] theorem scale_matrix_lift {K : Type} [LinearOrderedField K] (u v d : Vec3 K) :
    scale_matrix u.lift v.lift d.lift = (scale_matrix u v d).lift := by
  ext <;> simp [scale_matrix, Mat3.lift, Vec3.lift]

/-! ## The planar tests on finite inputs -/

section Planar

variable {K : Type} [LinearOrderedField K]

/-- The linear system of both planar tests: `scale * (u, v, t) = ray_origin - o` says that the
point of the ray at parameter `t` is the point of the plane with coordinates `(u, v)`. -/
theorem scale_mulVec_eq_iff (O D o eu ev x : Vec3 K) :
    (scale_matrix eu ev D).mulVec x = O - o
      ↔ O + Vec3.smul x.z D = o + Vec3.smul x.x eu + Vec3.smul x.y ev := by
  constructor
  · intro h
    have hx := congrArg Vec3.x h
    have hy := congrArg Vec3.y h
    have hz := congrArg Vec3.z h
    simp only [Mat3.mulVec, scale_matrix, Vec3.sub_x, Vec3.sub_y, Vec3.sub_z] at hx hy hz
    ext
    · simp only [Vec3.add_x, Vec3.smul]; linear_combination -hx
    · simp only [Vec3.add_y, Vec3.smul]; linear_combination -hy
    · simp only [Vec3.add_z, Vec3.smul]; linear_combination -hz
  · intro h
    have hx := congrArg Vec3.x h
    have hy := congrArg Vec3.y h
    have hz := congrArg Vec3.z h
    simp only [Vec3.add_x, Vec3.add_y, Vec3.add_z, Vec3.smul] at hx hy hz
    ext
    · simp only [Mat3.mulVec, scale_matrix, Vec3.sub_x]; linear_combination -hx
    · simp only [Mat3.mulVec, scale_matrix, Vec3.sub_y]; linear_combination -hy
    · simp only [Mat3.mulVec, scale_matrix, Vec3.sub_z]; linear_combination -hz

/-- With an invertible system, the solution of the linear system is the vector `radius`
that the code computes. -/
theorem solution_unique (O D o eu ev : Vec3 K) (h : (scale_matrix eu ev D).det ≠ 0)
    (u v t : K) :
    O + Vec3.smul t D = o + Vec3.smul u eu + Vec3.smul v ev
      ↔ (⟨u, v, t⟩ : Vec3 K) = (scale_matrix eu ev D).inverse.mulVec (O - o) := by
  rw [← scale_mulVec_eq_iff O D o eu ev ⟨u, v, t⟩]
  constructor
  · intro h1
    rw [← h1, Mat3.inverse_mulVec_mulVec _ h]
  · intro h1
    rw [h1, Mat3.mulVec_inverse_mulVec _ h]

/-- The value of `ray_triangle_intersection` on finite inputs with an invertible system. -/
theorem ray_triangle_intersection_lift (sqrt : K → K) (O D a b c : Vec3 K)
    (p N : Vec3 (Dbl K)) (h : (scale_matrix (b - a) (c - a) D).det ≠ 0) :
    ray_triangle_intersection sqrt O.lift D.lift a.lift b.lift c.lift p N
      = if 0 ≤ ((scale_matrix (b - a) (c - a) D).inverse.mulVec (O - a)).x
            ∧ ((scale_matrix (b - a) (c - a) D).inverse.mulVec (O - a)).x ≤ 1
            ∧ 0 ≤ ((scale_matrix (b - a) (c - a) D).inverse.mulVec (O - a)).y
            ∧ ((scale_matrix (b - a) (c - a) D).inverse.mulVec (O - a)).y ≤ 1
            ∧ ((scale_matrix (b - a) (c - a) D).inverse.mulVec (O - a)).x
                + ((scale_matrix (b - a) (c - a) D).inverse.mulVec (O - a)).y ≤ 1 then
          (Dbl.fin ((scale_matrix (b - a) (c - a) D).inverse.mulVec (O - a)).z,
           (O + Vec3.smul ((scale_matrix (b - a) (c - a) D).inverse.mulVec (O - a)).z D).lift,
           (Vec3.smul (-1) ((b - a).cross (c - a))).lift.normalized sqrt)
        else (Dbl.fin (-1), p, N) := by
  unfold ray_triangle_intersection
  simp only [Vec3.lift_sub, scale_matrix_lift, Mat3.inverse_lift _ h, Mat3.mulVec_lift,
    Vec3.cross_lift, Vec3.smul_lift, Vec3.muls_lift]
  generalize (scale_matrix (b - a) (c - a) D).inverse.mulVec (O - a) = r
  by_cases hc : 0 ≤ r.x ∧ r.x ≤ 1 ∧ 0 ≤ r.y ∧ r.y ≤ 1 ∧ r.x + r.y ≤ 1
  · rw [if_pos hc]
    obtain ⟨h1, h2, h3, h4, h5⟩ := hc
    simp [Vec3.lift, h1, h2, h3, h4, h5, Vec3.muls, Vec3.smul]
    ext <;> simp <;> ring
  · rw [if_neg hc]
    simp only [Vec3.lift, Dbl.le_fin_fin, Dbl.fin_add_fin]
    rw [if_neg]
    simpa [and_assoc] using hc

end Planar

section ClaimC2

variable {K : Type} [LinearOrderedField K]

/-- With an invertible system and the solution `(u, v, t)` in range, the triangle test
returns `t` (of either sign) and writes the point of the ray at `t` and the normal. -/
theorem triangle_value_of_solution (sqrt : K → K) (O D a b c : Vec3 K)
    (p N : Vec3 (Dbl K)) (hdet : (scale_matrix (b - a) (c - a) D).det ≠ 0) (u v t : K)
    (heq : O + Vec3.smul t D = a + Vec3.smul u (b - a) + Vec3.smul v (c - a))
    (hu : 0 ≤ u) (hv : 0 ≤ v) (huv : u + v ≤ 1) :
    ray_triangle_intersection sqrt O.lift D.lift a.lift b.lift c.lift p N
      = (Dbl.fin t, (O + Vec3.smul t D).lift,
          (Vec3.smul (-1) ((b - a).cross (c - a))).lift.normalized sqrt) := by
  rw [ray_triangle_intersection_lift sqrt O D a b c p N hdet]
  have hr := (solution_unique O D a (b - a) (c - a) hdet u v t).mp heq
  rw [← hr]
  have hc : 0 ≤ u ∧ u ≤ 1 ∧ 0 ≤ v ∧ v ≤ 1 ∧ u + v ≤ 1 :=
    ⟨hu, by linarith, hv, by linarith, huv⟩
  rw [if_pos hc]

/-- With an invertible system and the solution `(u, v, t)` out of range, the triangle test
returns `-1` and leaves `p` and `N` untouched. -/
theorem triangle_value_of_bad_solution (sqrt : K → K) (O D a b c : Vec3 K)
    (p N : Vec3 (Dbl K)) (hdet : (scale_matrix (b - a) (c - a) D).det ≠ 0) (u v t : K)
    (heq : O + Vec3.smul t D = a + Vec3.smul u (b - a) + Vec3.smul v (c - a))
    (hbad : ¬ (0 ≤ u ∧ 0 ≤ v ∧ u + v ≤ 1)) :
    ray_triangle_intersection sqrt O.lift D.lift a.lift b.lift c.lift p N
      = (Dbl.fin (-1), p, N) := by
  rw [ray_triangle_intersection_lift sqrt O D a b c p N hdet]
  have hr := (solution_unique O D a (b - a) (c - a) hdet u v t).mp heq
  rw [← hr]
  rw [if_neg]
  exact fun hc => hbad ⟨hc.1, hc.2.2.1, hc.2.2.2.2⟩

/-- With an invertible system, a returned value `>= 0` comes from a point of the triangle
at a parameter `t >= 0` of the ray. -/
theorem triangle_hit_exists (sqrt : K → K) (O D a b c : Vec3 K)
    (p N : Vec3 (Dbl K)) (hdet : (scale_matrix (b - a) (c - a) D).det ≠ 0)
    (hit : Dbl.ge (ray_triangle_intersection sqrt O.lift D.lift a.lift b.lift c.lift p N).1
      (Dbl.fin 0) = true) :
    ∃ u v t : K, O + Vec3.smul t D = a + Vec3.smul u (b - a) + Vec3.smul v (c - a)
      ∧ 0 ≤ u ∧ 0 ≤ v ∧ u + v ≤ 1 ∧ 0 ≤ t := by
  rw [ray_triangle_intersection_lift sqrt O D a b c p N hdet] at hit
  have huniq := solution_unique O D a (b - a) (c - a) hdet
  generalize (scale_matrix (b - a) (c - a) D).inverse.mulVec (O - a) = r at huniq hit
  have hsol : O + Vec3.smul r.z D = a + Vec3.smul r.x (b - a) + Vec3.smul r.y (c - a) :=
    (huniq r.x r.y r.z).mpr rfl
  by_cases hc : 0 ≤ r.x ∧ r.x ≤ 1 ∧ 0 ≤ r.y ∧ r.y ≤ 1 ∧ r.x + r.y ≤ 1
  · rw [if_pos hc] at hit
    simp only [Dbl.ge_fin_fin, decide_eq_true_eq] at hit
    exact ⟨r.x, r.y, r.z, hsol, hc.1, hc.2.2.1, hc.2.2.2.2, hit⟩
  · rw [if_neg hc] at hit
    simp only [Dbl.ge_fin_fin, decide_eq_true_eq] at hit
    linarith

/-- C2: for a triangle `(a, b, c)` and a ray whose direction forms an invertible system with
the two edge vectors, `ray_triangle_intersection` returns a value `>= 0` exactly when the ray
meets the triangle at a parameter `t >= 0` (`u >= 0`, `v >= 0`, `u + v <= 1`); it then returns
that `t` and writes `ray_origin + t * ray_direction` into `p`; and when the solution of the
system has `t < 0` or `(u, v)` out of range, the returned value is negative. -/
theorem ray_triangle_intersection_spec (sqrt : K → K) (O D a b c : Vec3 K)
    (p N : Vec3 (Dbl K)) (hdet : (scale_matrix (b - a) (c - a) D).det ≠ 0) :
    (Dbl.ge (ray_triangle_intersection sqrt O.lift D.lift a.lift b.lift c.lift p N).1
        (Dbl.fin 0) = true
      ↔ ∃ u v t : K, O + Vec3.smul t D = a + Vec3.smul u (b - a) + Vec3.smul v (c - a)
          ∧ 0 ≤ u ∧ 0 ≤ v ∧ u + v ≤ 1 ∧ 0 ≤ t)
    ∧ (∀ u v t : K, O + Vec3.smul t D = a + Vec3.smul u (b - a) + Vec3.smul v (c - a) →
        0 ≤ u → 0 ≤ v → u + v ≤ 1 → 0 ≤ t →
        (ray_triangle_intersection sqrt O.lift D.lift a.lift b.lift c.lift p N).1 = Dbl.fin t
        ∧ (ray_triangle_intersection sqrt O.lift D.lift a.lift b.lift c.lift p N).2.1
            = (O + Vec3.smul t D).lift)
    ∧ (∀ u v t : K, O + Vec3.smul t D = a + Vec3.smul u (b - a) + Vec3.smul v (c - a) →
        (t < 0 ∨ ¬ (0 ≤ u ∧ 0 ≤ v ∧ u + v ≤ 1)) →
        Dbl.lt (ray_triangle_intersection sqrt O.lift D.lift a.lift b.lift c.lift p N).1
          (Dbl.fin 0) = true) := by
  refine ⟨⟨triangle_hit_exists sqrt O D a b c p N hdet, ?_⟩, ?_, ?_⟩
  · rintro ⟨u, v, t, heq, hu, hv, huv, ht⟩
    rw [triangle_value_of_solution sqrt O D a b c p N hdet u v t heq hu hv huv]
    simpa using ht
  · intro u v t heq hu hv huv _
    rw [triangle_value_of_solution sqrt O D a b c p N hdet u v t heq hu hv huv]
    exact ⟨rfl, rfl⟩
  · intro u v t heq hbad
    by_cases hc : 0 ≤ u ∧ 0 ≤ v ∧ u + v ≤ 1
    · rw [triangle_value_of_solution sqrt O D a b c p N hdet u v t heq hc.1 hc.2.1 hc.2.2]
      rcases hbad with ht | hn
      · simpa using ht
      · exact absurd hc hn
    · rw [triangle_value_of_bad_solution sqrt O D a b c p N hdet u v t heq hc]
      simp

end ClaimC2

/-! ## The planar tests on a singular system -/

namespace Dbl

variable {K : Type} [LinearOrderedField K]

theorem one_div_zero : (1 : Dbl K) / fin 0 = pinf := by
  show div (fin 1) (fin 0) = pinf
  simp [div, scaleInf]

theorem isFinite_fin_mul_pinf (c : K) : isFinite (fin c * pinf : Dbl K) = false := by
  show isFinite (mul (fin c) pinf) = false
  simp only [mul, scaleInf]
  split_ifs <;> rfl

theorem isFinite_mul_fin {x : Dbl K} (h : isFinite x = false) (y : K) :
    isFinite (x * fin y) = false := by
  show isFinite (mul x (fin y)) = false
  cases x with
  | fin a => simp [isFinite] at h
  | pinf => simp only [mul, scaleInf]; split_ifs <;> rfl
  | ninf => simp only [mul, scaleInf]; split_ifs <;> rfl
  | nan => rfl

theorem isFinite_add {x y : Dbl K} (hx : isFinite x = false) (hy : isFinite y = false) :
    isFinite (x + y) = false := by
  show isFinite (add x y) = false
  cases x <;> cases y <;> simp_all [isFinite, add]

theorem range_test_false {x : Dbl K} (h : isFinite x = false) :
    (le (fin 0) x && le x (fin 1)) = false := by
  cases x <;> simp_all [isFinite, le]

end Dbl

section Singular

variable {K : Type} [LinearOrderedField K]

/-- With a zero determinant, the first component of `scale.inverse() * y_position` is not a
finite double: every entry of the inverse is a cofactor times `1 / 0`. -/
theorem radius_x_not_finite (m : Mat3 K) (h : m.det = 0) (y : Vec3 K) :
    Dbl.isFinite (m.lift.inverse.mulVec y.lift).x = false := by
  have hd : (1 : Dbl K) / Mat3.det m.lift = Dbl.pinf := by
    rw [Mat3.det_lift, h, Dbl.one_div_zero]
  unfold Mat3.inverse
  simp only [hd]
  simp only [Mat3.mulVec, Mat3.lift, Vec3.lift, Dbl.fin_mul_fin, Dbl.fin_sub_fin]
  exact Dbl.isFinite_add
    (Dbl.isFinite_add (Dbl.isFinite_mul_fin (Dbl.isFinite_fin_mul_pinf _) _)
      (Dbl.isFinite_mul_fin (Dbl.isFinite_fin_mul_pinf _) _))
    (Dbl.isFinite_mul_fin (Dbl.isFinite_fin_mul_pinf _) _)

/-- On finite inputs with a singular system, `ray_triangle_intersection` takes its last
`return -1` and leaves `p` and `N` as they were. -/
theorem ray_triangle_intersection_singular (sqrt : K → K) (O D a b c : Vec3 K)
    (p N : Vec3 (Dbl K)) (h : (scale_matrix (b - a) (c - a) D).det = 0) :
    ray_triangle_intersection sqrt O.lift D.lift a.lift b.lift c.lift p N
      = (Dbl.fin (-1), p, N) := by
  unfold ray_triangle_intersection
  simp only [Vec3.lift_sub, scale_matrix_lift]
  have hx := Dbl.range_test_false (radius_x_not_finite _ h (O - a))
  rw [if_neg]
  simp only [hx, Bool.false_and]
  exact Bool.false_ne_true

end Singular

/-! ## The parallelogram test on finite inputs -/

namespace Mat3

@[simp] theorem col0_lift {L : Type} (m : Mat3 L) : m.lift.col0 = m.col0.lift := rfl
@[simp] theorem col1_lift {L : Type} (m : Mat3 L) : m.lift.col1 = m.col1.lift := rfl
@[simp] theorem col2_lift {L : Type} (m : Mat3 L) : m.lift.col2 = m.col2.lift := rfl

end Mat3

section Parallelogram

variable {K : Type} [LinearOrderedField K]

/-- The value of `ray_parallelogram_intersection` on finite inputs with an invertible
system, for the parallelogram `M` stored at `index`. -/
theorem ray_parallelogram_intersection_lift (sqrt : K → K) (scene : Scene (Dbl K))
    (index : Nat) (M : Mat3 K) (hM : scene.parallelograms.getD index default = M.lift)
    (O D : Vec3 K) (p N : Vec3 (Dbl K))
    (h : (scale_matrix (M.col1 - M.col0) (M.col2 - M.col0) D).det ≠ 0) :
    ray_parallelogram_intersection sqrt scene O.lift D.lift index p N
      = if 0 ≤ ((scale_matrix (M.col1 - M.col0) (M.col2 - M.col0) D).inverse.mulVec
                (O - M.col0)).x
            ∧ ((scale_matrix (M.col1 - M.col0) (M.col2 - M.col0) D).inverse.mulVec
                (O - M.col0)).x ≤ 1
            ∧ 0 ≤ ((scale_matrix (M.col1 - M.col0) (M.col2 - M.col0) D).inverse.mulVec
                (O - M.col0)).y
            ∧ ((scale_matrix (M.col1 - M.col0) (M.col2 - M.col0) D).inverse.mulVec
                (O - M.col0)).y ≤ 1 then
          (Dbl.fin ((scale_matrix (M.col1 - M.col0) (M.col2 - M.col0) D).inverse.mulVec
              (O - M.col0)).z,
           (O + Vec3.smul ((scale_matrix (M.col1 - M.col0) (M.col2 - M.col0) D).inverse.mulVec
              (O - M.col0)).z D).lift,
           (Vec3.smul (-1) ((M.col1 - M.col0).cross (M.col2 - M.col0))).lift.normalized sqrt)
        else (Dbl.fin (-1), p, N) := by
  unfold ray_parallelogram_intersection
  simp only [hM, Mat3.col0_lift, Mat3.col1_lift, Mat3.col2_lift, Vec3.lift_sub,
    scale_matrix_lift, Mat3.inverse_lift _ h, Mat3.mulVec_lift,
    Vec3.cross_lift, Vec3.smul_lift, Vec3.muls_lift]
  generalize (scale_matrix (M.col1 - M.col0) (M.col2 - M.col0) D).inverse.mulVec
    (O - M.col0) = r
  by_cases hc : 0 ≤ r.x ∧ r.x ≤ 1 ∧ 0 ≤ r.y ∧ r.y ≤ 1
  · rw [if_pos hc]
    obtain ⟨h1, h2, h3, h4⟩ := hc
    simp [Vec3.lift, h1, h2, h3, h4, Vec3.muls, Vec3.smul]
    ext <;> simp <;> ring
  · rw [if_neg hc]
    simp only [Vec3.lift, Dbl.le_fin_fin]
    rw [if_neg]
    simpa [and_assoc] using hc

/-- On finite inputs with a singular system, `ray_parallelogram_intersection` takes its last
`return -1` and leaves `p` and `N` as they were. -/
theorem ray_parallelogram_intersection_singular (sqrt : K → K) (scene : Scene (Dbl K))
    (index : Nat) (M : Mat3 K) (hM : scene.parallelograms.getD index default = M.lift)
    (O D : Vec3 K) (p N : Vec3 (Dbl K))
    (h : (scale_matrix (M.col1 - M.col0) (M.col2 - M.col0) D).det = 0) :
    ray_parallelogram_intersection sqrt scene O.lift D.lift index p N
      = (Dbl.fin (-1), p, N) := by
  unfold ray_parallelogram_intersection
  simp only [hM, Mat3.col0_lift, Mat3.col1_lift, Mat3.col2_lift, Vec3.lift_sub,
    scale_matrix_lift]
  have hx := Dbl.range_test_false (radius_x_not_finite _ h (O - M.col0))
  rw [if_neg]
  simp only [hx, Bool.false_and]
  exact Bool.false_ne_true

end Parallelogram

/-! ## Normals -/

section Normals

variable {K : Type} [LinearOrderedField K]

theorem IsSqrt.pos {sqrt : K → K} (hs : IsSqrt sqrt) {x : K} (hx : 0 < x) : 0 < sqrt x := by
  obtain ⟨h0, h1⟩ := hs x hx.le
  rcases h0.lt_or_eq with h | h
  · exact h
  · rw [← h] at h1
    simp at h1
    exact absurd h1.symm hx.ne'

/-- The member `normalized()` on a finite vector that is not zero. -/
theorem normalized_lift {sqrt : K → K} (hs : IsSqrt sqrt) (n : Vec3 K)
    (hn : 0 < n.squaredNorm) :
    n.lift.normalized sqrt = (n.divs (sqrt n.squaredNorm)).lift := by
  have hpos := hs.pos hn
  unfold Vec3.normalized
  simp only [Vec3.squaredNorm_lift, Dbl.gt_fin_fin, hn, decide_True, if_true,
    Dbl.sqrt_fin sqrt hn.le]
  ext <;> simp [Vec3.divs, Vec3.lift, Dbl.fin_div_fin _ hpos.ne']

/-- The determinant of the system is minus the triple product of the two edges and the ray
direction. -/
theorem det_scale_matrix (eu ev D : Vec3 K) :
    (scale_matrix eu ev D).det = -((eu.cross ev).dot D) := by
  simp only [scale_matrix, Mat3.det, Vec3.cross, Vec3.dot]
  ring

theorem squaredNorm_cross_pos (eu ev D : Vec3 K) (h : (scale_matrix eu ev D).det ≠ 0) :
    0 < (Vec3.smul (-1) (eu.cross ev)).squaredNorm := by
  rw [det_scale_matrix] at h
  have h0 : 0 ≤ (Vec3.smul (-1) (eu.cross ev)).squaredNorm := by
    simp only [Vec3.squaredNorm, Vec3.smul]
    nlinarith [mul_self_nonneg (eu.cross ev).x, mul_self_nonneg (eu.cross ev).y,
      mul_self_nonneg (eu.cross ev).z]
  rcases h0.lt_or_eq with h1 | h1
  · exact h1
  · exfalso
    apply h
    simp only [Vec3.squaredNorm, Vec3.smul] at h1
    have hx : (eu.cross ev).x = 0 := by
      nlinarith [mul_self_nonneg (eu.cross ev).x, mul_self_nonneg (eu.cross ev).y,
        mul_self_nonneg (eu.cross ev).z]
    have hy : (eu.cross ev).y = 0 := by
      nlinarith [mul_self_nonneg (eu.cross ev).x, mul_self_nonneg (eu.cross ev).y,
        mul_self_nonneg (eu.cross ev).z]
    have hz : (eu.cross ev).z = 0 := by
      nlinarith [mul_self_nonneg (eu.cross ev).x, mul_self_nonneg (eu.cross ev).y,
        mul_self_nonneg (eu.cross ev).z]
    simp [Vec3.dot, hx, hy, hz]

/-- The normal that both planar tests write: its product with the reversed ray direction has
the sign of the triple product of the two edges and the ray direction. -/
theorem planar_normal_dot {sqrt : K → K} (hs : IsSqrt sqrt) (eu ev D : Vec3 K)
    (h : (scale_matrix eu ev D).det ≠ 0) :
    Dbl.ge (((Vec3.smul (-1) (eu.cross ev)).lift.normalized sqrt).dot (-D.lift)) (Dbl.fin 0)
      = true ↔ 0 ≤ (eu.cross ev).dot D := by
  have hn := squaredNorm_cross_pos eu ev D h
  have hpos := hs.pos hn
  rw [normalized_lift hs _ hn, Vec3.neg_lift, Vec3.dot_lift]
  simp only [Dbl.ge_fin_fin, decide_eq_true_eq]
  generalize sqrt (Vec3.smul (-1) (eu.cross ev)).squaredNorm = s at hpos
  have key : (Vec3.divs (Vec3.smul (-1) (eu.cross ev)) s).dot (-D)
      = (eu.cross ev).dot D / s := by
    simp only [Vec3.divs, Vec3.smul, Vec3.dot, Vec3.neg_x, Vec3.neg_y, Vec3.neg_z]
    field_simp
  rw [key]
  constructor
  · intro h1
    by_contra h2
    push_neg at h2
    have := div_neg_of_neg_of_pos h2 hpos
    linarith
  · intro h1
    exact div_nonneg h1 hpos.le

end Normals

section ClaimsPlanar

variable {K : Type} [LinearOrderedField K]

/-- Witness of C2: the triangle `(0,0,0), (1,0,0), (0,1,0)` and the ray from `(1/4, 1/4, 1)`
along `(0, 0, -1)` form an invertible system; the test returns `t = 1`. -/
theorem ray_triangle_intersection_spec_witness :
    (scale_matrix ((⟨1, 0, 0⟩ : Vec3 ℝ) - ⟨0, 0, 0⟩) ((⟨0, 1, 0⟩ : Vec3 ℝ) - ⟨0, 0, 0⟩)
        (⟨0, 0, -1⟩ : Vec3 ℝ)).det ≠ 0
    ∧ (ray_triangle_intersection Real.sqrt (Vec3.lift (⟨1 / 4, 1 / 4, 1⟩ : Vec3 ℝ))
        (Vec3.lift ⟨0, 0, -1⟩) (Vec3.lift ⟨0, 0, 0⟩) (Vec3.lift ⟨1, 0, 0⟩)
        (Vec3.lift ⟨0, 1, 0⟩) Vec3.uninit Vec3.uninit).1 = Dbl.fin 1 :=
  have hdet : (scale_matrix ((⟨1, 0, 0⟩ : Vec3 ℝ) - ⟨0, 0, 0⟩)
      ((⟨0, 1, 0⟩ : Vec3 ℝ) - ⟨0, 0, 0⟩) (⟨0, 0, -1⟩ : Vec3 ℝ)).det ≠ 0 := by
    norm_num [scale_matrix, Mat3.det]
  ⟨hdet, ((ray_triangle_intersection_spec Real.sqrt ⟨1 / 4, 1 / 4, 1⟩ ⟨0, 0, -1⟩ ⟨0, 0, 0⟩
    ⟨1, 0, 0⟩ ⟨0, 1, 0⟩ Vec3.uninit Vec3.uninit hdet).2.1 (1 / 4) (1 / 4) 1
      (by ext <;> norm_num [Vec3.smul]) (by norm_num) (by norm_num) (by norm_num)
      (by norm_num)).1⟩

/-- The part of C3 that holds: for a parallelogram `M` (origin `M.col0`, corners `M.col1` and
`M.col2`) and a ray that form an invertible system, `ray_parallelogram_intersection` returns
a value `>= 0` exactly when the ray meets the parallelogram at a parameter `t >= 0`; it then
returns that `t` and writes `ray_origin + t * ray_direction`; otherwise the returned value is
negative (`-1` out of range, the negative `t` itself in range). -/
theorem ray_parallelogram_intersection_spec (sqrt : K → K) (scene : Scene (Dbl K))
    (index : Nat) (M : Mat3 K) (hM : scene.parallelograms.getD index default = M.lift)
    (O D : Vec3 K) (p N : Vec3 (Dbl K))
    (hdet : (scale_matrix (M.col1 - M.col0) (M.col2 - M.col0) D).det ≠ 0) :
    (Dbl.ge (ray_parallelogram_intersection sqrt scene O.lift D.lift index p N).1
        (Dbl.fin 0) = true
      ↔ ∃ u v t : K, O + Vec3.smul t D
            = M.col0 + Vec3.smul u (M.col1 - M.col0) + Vec3.smul v (M.col2 - M.col0)
          ∧ 0 ≤ u ∧ u ≤ 1 ∧ 0 ≤ v ∧ v ≤ 1 ∧ 0 ≤ t)
    ∧ (∀ u v t : K, O + Vec3.smul t D
            = M.col0 + Vec3.smul u (M.col1 - M.col0) + Vec3.smul v (M.col2 - M.col0) →
        (0 ≤ u ∧ u ≤ 1 ∧ 0 ≤ v ∧ v ≤ 1 →
          ray_parallelogram_intersection sqrt scene O.lift D.lift index p N
            = (Dbl.fin t, (O + Vec3.smul t D).lift,
                (Vec3.smul (-1) ((M.col1 - M.col0).cross (M.col2 - M.col0))).lift.normalized
                  sqrt))
        ∧ (¬ (0 ≤ u ∧ u ≤ 1 ∧ 0 ≤ v ∧ v ≤ 1) →
          ray_parallelogram_intersection sqrt scene O.lift D.lift index p N
            = (Dbl.fin (-1), p, N))) := by
  rw [ray_parallelogram_intersection_lift sqrt scene index M hM O D p N hdet]
  have huniq := solution_unique O D M.col0 (M.col1 - M.col0) (M.col2 - M.col0) hdet
  generalize (scale_matrix (M.col1 - M.col0) (M.col2 - M.col0) D).inverse.mulVec
    (O - M.col0) = r at huniq ⊢
  have hsol : O + Vec3.smul r.z D
      = M.col0 + Vec3.smul r.x (M.col1 - M.col0) + Vec3.smul r.y (M.col2 - M.col0) :=
    (huniq r.x r.y r.z).mpr rfl
  refine ⟨?_, ?_⟩
  · constructor
    · intro h
      by_cases hc : 0 ≤ r.x ∧ r.x ≤ 1 ∧ 0 ≤ r.y ∧ r.y ≤ 1
      · rw [if_pos hc] at h
        simp only [Dbl.ge_fin_fin, decide_eq_true_eq] at h
        exact ⟨r.x, r.y, r.z, hsol, hc.1, hc.2.1, hc.2.2.1, hc.2.2.2, h⟩
      · rw [if_neg hc] at h
        simp only [Dbl.ge_fin_fin, decide_eq_true_eq] at h
        linarith
    · rintro ⟨u, v, t, heq, hu, hu1, hv, hv1, ht⟩
      have hr := (huniq u v t).mp heq
      subst hr
      rw [if_pos ⟨hu, hu1, hv, hv1⟩]
      simpa using ht
  · intro u v t heq
    have hr := (huniq u v t).mp heq
    subst hr
    exact ⟨fun hc => by rw [if_pos hc], fun hc => by rw [if_neg hc]⟩

/-- C3 (defect of the code): the parallelogram with origin `(0,0,0)` and corners `(1,0,0)`,
`(0,1,0)` lies behind the ray from `(1/4, 1/4, 2)` along `(0, 0, 1)`: the plane is met at
`t = -2`, inside the parallelogram.  There is no intersection, and the function returns `-2`
and overwrites `p` and `N`, where its comment promises `-1`. -/
theorem ray_parallelogram_intersection_behind :
    ray_parallelogram_intersection Real.sqrt
      (⟨[], [], [], [], [Mat3.lift (⟨0, 1, 0, 0, 0, 1, 0, 0, 0⟩ : Mat3 ℝ)], [], []⟩ :
        Scene (Dbl ℝ))
      (Vec3.lift ⟨1 / 4, 1 / 4, 2⟩) (Vec3.lift ⟨0, 0, 1⟩) 0 Vec3.uninit Vec3.uninit
      = (Dbl.fin (-2), Vec3.lift ⟨1 / 4, 1 / 4, 0⟩, Vec3.lift ⟨0, 0, -1⟩) := by
  norm_num [ray_parallelogram_intersection, scale_matrix, Mat3.det, Mat3.inverse, Mat3.mulVec,
    Mat3.col0, Mat3.col1, Mat3.col2, Mat3.lift,
    Vec3.smul, Vec3.muls, Vec3.cross, Vec3.normalized, Vec3.lift, Vec3.squaredNorm, Vec3.divs,
    Dbl.sqrt, Dbl.fin_div_fin_eq, Dbl.one_div_fin]
  ext <;> norm_num

/-- Counterexample to C4: the triangle `(0,0,0), (1,0,0), (0,1,0)` is hit at `t = 1` by the ray
from `(1/4, 1/4, 1)` along `(0, 0, -1)`; the normal written is `(0, 0, -1)`, whose product with
the reversed direction `(0, 0, 1)` is `-1`, not `>= 0`. -/
theorem normal_faces_away_from_ray :
    Dbl.ge (ray_triangle_intersection Real.sqrt (Vec3.lift (⟨1 / 4, 1 / 4, 1⟩ : Vec3 ℝ))
        (Vec3.lift ⟨0, 0, -1⟩) (Vec3.lift ⟨0, 0, 0⟩) (Vec3.lift ⟨1, 0, 0⟩)
        (Vec3.lift ⟨0, 1, 0⟩) Vec3.uninit Vec3.uninit).1 (Dbl.fin 0) = true
    ∧ Vec3.dot (ray_triangle_intersection Real.sqrt (Vec3.lift (⟨1 / 4, 1 / 4, 1⟩ : Vec3 ℝ))
        (Vec3.lift ⟨0, 0, -1⟩) (Vec3.lift ⟨0, 0, 0⟩) (Vec3.lift ⟨1, 0, 0⟩)
        (Vec3.lift ⟨0, 1, 0⟩) Vec3.uninit Vec3.uninit).2.2
        (-(Vec3.lift (⟨0, 0, -1⟩ : Vec3 ℝ))) = Dbl.fin (-1)
    ∧ ¬ (Dbl.ge (Vec3.dot (ray_triangle_intersection Real.sqrt
        (Vec3.lift (⟨1 / 4, 1 / 4, 1⟩ : Vec3 ℝ))
        (Vec3.lift ⟨0, 0, -1⟩) (Vec3.lift ⟨0, 0, 0⟩) (Vec3.lift ⟨1, 0, 0⟩)
        (Vec3.lift ⟨0, 1, 0⟩) Vec3.uninit Vec3.uninit).2.2
        (-(Vec3.lift (⟨0, 0, -1⟩ : Vec3 ℝ)))) (Dbl.fin 0) = true) := by
  have h : ray_triangle_intersection Real.sqrt (Vec3.lift (⟨1 / 4, 1 / 4, 1⟩ : Vec3 ℝ))
        (Vec3.lift ⟨0, 0, -1⟩) (Vec3.lift ⟨0, 0, 0⟩) (Vec3.lift ⟨1, 0, 0⟩)
        (Vec3.lift ⟨0, 1, 0⟩) Vec3.uninit Vec3.uninit
      = (Dbl.fin 1, Vec3.lift ⟨1 / 4, 1 / 4, 0⟩, Vec3.lift ⟨0, 0, -1⟩) := by
    norm_num [ray_triangle_intersection, scale_matrix, Mat3.det, Mat3.inverse, Mat3.mulVec,
      Vec3.smul, Vec3.muls, Vec3.cross, Vec3.normalized, Vec3.lift, Vec3.squaredNorm,
      Vec3.divs, Dbl.sqrt, Dbl.fin_div_fin_eq, Dbl.one_div_fin]
    ext <;> norm_num
  rw [h]
  norm_num [Vec3.dot, Vec3.lift]

/-- C4, amended: with an exact square root, for every hit reported by
`ray_triangle_intersection` or `ray_parallelogram_intersection` on finite inputs, the normal
written is the normalised `-(e1 x e2)` of the two edge vectors, whatever the ray, and
`N . (-ray_direction) >= 0` holds exactly when `(e1 x e2) . ray_direction >= 0`: the
orientation depends on the winding order of the vertices. -/
theorem planar_normal_orientation (sqrt : K → K) (hs : IsSqrt sqrt) (O D : Vec3 K) :
    (∀ (a b c : Vec3 K) (p N : Vec3 (Dbl K)),
      Dbl.ge (ray_triangle_intersection sqrt O.lift D.lift a.lift b.lift c.lift p N).1
        (Dbl.fin 0) = true →
      (ray_triangle_intersection sqrt O.lift D.lift a.lift b.lift c.lift p N).2.2
        = (Vec3.smul (-1) ((b - a).cross (c - a))).lift.normalized sqrt
      ∧ (Dbl.ge (Vec3.dot
            (ray_triangle_intersection sqrt O.lift D.lift a.lift b.lift c.lift p N).2.2
            (-D.lift)) (Dbl.fin 0) = true
          ↔ 0 ≤ ((b - a).cross (c - a)).dot D))
    ∧ (∀ (scene : Scene (Dbl K)) (index : Nat) (M : Mat3 K) (p N : Vec3 (Dbl K)),
      scene.parallelograms.getD index default = M.lift →
      Dbl.ge (ray_parallelogram_intersection sqrt scene O.lift D.lift index p N).1
        (Dbl.fin 0) = true →
      (ray_parallelogram_intersection sqrt scene O.lift D.lift index p N).2.2
        = (Vec3.smul (-1) ((M.col1 - M.col0).cross (M.col2 - M.col0))).lift.normalized sqrt
      ∧ (Dbl.ge (Vec3.dot
            (ray_parallelogram_intersection sqrt scene O.lift D.lift index p N).2.2
            (-D.lift)) (Dbl.fin 0) = true
          ↔ 0 ≤ ((M.col1 - M.col0).cross (M.col2 - M.col0)).dot D)) := by
  constructor
  · intro a b c p N hit
    by_cases hdet : (scale_matrix (b - a) (c - a) D).det = 0
    · rw [ray_triangle_intersection_singular sqrt O D a b c p N hdet] at hit
      simp at hit
      linarith
    · rw [ray_triangle_intersection_lift sqrt O D a b c p N hdet] at hit ⊢
      split_ifs at hit ⊢ with hc
      · exact ⟨rfl, planar_normal_dot hs _ _ D hdet⟩
      · simp at hit
        linarith
  · intro scene index M p N hM hit
    by_cases hdet : (scale_matrix (M.col1 - M.col0) (M.col2 - M.col0) D).det = 0
    · rw [ray_parallelogram_intersection_singular sqrt scene index M hM O D p N hdet] at hit
      simp at hit
      linarith
    · rw [ray_parallelogram_intersection_lift sqrt scene index M hM O D p N hdet] at hit ⊢
      split_ifs at hit ⊢ with hc
      · exact ⟨rfl, planar_normal_dot hs _ _ D hdet⟩
      · simp at hit
        linarith

end ClaimsPlanar

section ClaimsSingular

variable {K : Type} [LinearOrderedField K]

theorem real_isSqrt : IsSqrt Real.sqrt :=
  fun x hx => ⟨Real.sqrt_nonneg x, Real.mul_self_sqrt hx⟩

/-- Witness of the amended C4: the triangle `(0,0,0), (1,0,0), (0,1,0)` seen from below, by
the ray from `(1/4, 1/4, -1)` along `(0, 0, 1)`, is hit and its normal faces the ray. -/
theorem planar_normal_orientation_witness :
    IsSqrt Real.sqrt
    ∧ Dbl.ge (Vec3.dot
        (ray_triangle_intersection Real.sqrt (Vec3.lift (⟨1 / 4, 1 / 4, -1⟩ : Vec3 ℝ))
          (Vec3.lift ⟨0, 0, 1⟩) (Vec3.lift ⟨0, 0, 0⟩) (Vec3.lift ⟨1, 0, 0⟩)
          (Vec3.lift ⟨0, 1, 0⟩) Vec3.uninit Vec3.uninit).2.2
        (-(Vec3.lift (⟨0, 0, 1⟩ : Vec3 ℝ)))) (Dbl.fin 0) = true :=
  ⟨real_isSqrt,
    (((planar_normal_orientation Real.sqrt real_isSqrt ⟨1 / 4, 1 / 4, -1⟩ ⟨0, 0, 1⟩).1
      ⟨0, 0, 0⟩ ⟨1, 0, 0⟩ ⟨0, 1, 0⟩ Vec3.uninit Vec3.uninit
      (by
        norm_num [ray_triangle_intersection, scale_matrix, Mat3.det, Mat3.inverse,
          Mat3.mulVec, Vec3.lift, Dbl.fin_div_fin_eq, Dbl.one_div_fin])).2).mpr
      (by norm_num [Vec3.cross, Vec3.dot])⟩

/-- The inversion of a singular system: the ray from `(1/4, 1/4, 1)` along `(1, 0, 0)` is
parallel to the plane of the triangle `(0,0,0), (1,0,0), (0,1,0)`, the determinant of the
system is `0`, and the function does invert the matrix: `1 / det` is `+inf`, the entries of `scale.inverse()`
are infinite or NaN, and the three components of `radius` are NaN. -/
theorem singular_system_is_inverted :
    (scale_matrix ((⟨1, 0, 0⟩ : Vec3 ℝ) - ⟨0, 0, 0⟩) ((⟨0, 1, 0⟩ : Vec3 ℝ) - ⟨0, 0, 0⟩)
        (⟨1, 0, 0⟩ : Vec3 ℝ)).det = 0
    ∧ (1 : Dbl ℝ) / (scale_matrix (Vec3.lift (⟨1, 0, 0⟩ : Vec3 ℝ) - Vec3.lift ⟨0, 0, 0⟩)
        (Vec3.lift ⟨0, 1, 0⟩ - Vec3.lift ⟨0, 0, 0⟩) (Vec3.lift ⟨1, 0, 0⟩)).det = Dbl.pinf
    ∧ (scale_matrix (Vec3.lift (⟨1, 0, 0⟩ : Vec3 ℝ) - Vec3.lift ⟨0, 0, 0⟩)
        (Vec3.lift ⟨0, 1, 0⟩ - Vec3.lift ⟨0, 0, 0⟩) (Vec3.lift ⟨1, 0, 0⟩)).inverse
      = ⟨Dbl.nan, Dbl.nan, Dbl.pinf, Dbl.nan, Dbl.nan, Dbl.nan, Dbl.nan, Dbl.nan, Dbl.pinf⟩
    ∧ (scale_matrix (Vec3.lift (⟨1, 0, 0⟩ : Vec3 ℝ) - Vec3.lift ⟨0, 0, 0⟩)
        (Vec3.lift ⟨0, 1, 0⟩ - Vec3.lift ⟨0, 0, 0⟩) (Vec3.lift ⟨1, 0, 0⟩)).inverse.mulVec
        (Vec3.lift (⟨1 / 4, 1 / 4, 1⟩ : Vec3 ℝ) - Vec3.lift ⟨0, 0, 0⟩)
      = ⟨Dbl.nan, Dbl.nan, Dbl.nan⟩ := by
  refine ⟨?_, ?_, ?_, ?_⟩
  · norm_num [scale_matrix, Mat3.det]
  · norm_num [scale_matrix, Mat3.det, Vec3.lift, Dbl.one_div_fin]
  · norm_num [scale_matrix, Mat3.inverse, Mat3.det, Vec3.lift, Dbl.one_div_fin, Dbl.scaleInf]
  · norm_num [scale_matrix, Mat3.inverse, Mat3.det, Mat3.mulVec, Vec3.lift, Dbl.one_div_fin,
      Dbl.scaleInf]

/-- Singular systems in the arithmetic without rounding: on finite inputs whose system is
singular (the ray direction is parallel to the plane of the primitive),
`ray_triangle_intersection` and `ray_parallelogram_intersection` have no test on the
determinant: they invert the matrix, the first component of `radius` is
then infinite or NaN, the range test fails, and they return `-1` (no intersection) and leave
`p` and `N` untouched. -/
theorem singular_system_no_intersection (sqrt : K → K) (O D : Vec3 K) :
    (∀ (a b c : Vec3 K) (p N : Vec3 (Dbl K)),
      (scale_matrix (b - a) (c - a) D).det = 0 →
      Dbl.isFinite ((scale_matrix (b.lift - a.lift) (c.lift - a.lift) D.lift).inverse.mulVec
          (O.lift - a.lift)).x = false
      ∧ ray_triangle_intersection sqrt O.lift D.lift a.lift b.lift c.lift p N
          = (Dbl.fin (-1), p, N))
    ∧ (∀ (scene : Scene (Dbl K)) (index : Nat) (M : Mat3 K) (p N : Vec3 (Dbl K)),
      scene.parallelograms.getD index default = M.lift →
      (scale_matrix (M.col1 - M.col0) (M.col2 - M.col0) D).det = 0 →
      Dbl.isFinite ((scale_matrix (M.lift.col1 - M.lift.col0) (M.lift.col2 - M.lift.col0)
          D.lift).inverse.mulVec (O.lift - M.lift.col0)).x = false
      ∧ ray_parallelogram_intersection sqrt scene O.lift D.lift index p N
          = (Dbl.fin (-1), p, N)) := by
  constructor
  · intro a b c p N hdet
    refine ⟨?_, ray_triangle_intersection_singular sqrt O D a b c p N hdet⟩
    simp only [Vec3.lift_sub, scale_matrix_lift]
    exact radius_x_not_finite _ hdet _
  · intro scene index M p N hM hdet
    refine ⟨?_, ray_parallelogram_intersection_singular sqrt scene index M hM O D p N hdet⟩
    simp only [Mat3.col0_lift, Mat3.col1_lift, Mat3.col2_lift, Vec3.lift_sub,
      scale_matrix_lift]
    exact radius_x_not_finite _ hdet _

/-- An instance of `singular_system_no_intersection`: the ray from `(1/4, 1/4, 1)` along
`(1, 0, 0)`, parallel to the
plane of the triangle `(0,0,0), (1,0,0), (0,1,0)`. -/
theorem singular_system_no_intersection_witness :
    (scale_matrix ((⟨1, 0, 0⟩ : Vec3 ℝ) - ⟨0, 0, 0⟩) ((⟨0, 1, 0⟩ : Vec3 ℝ) - ⟨0, 0, 0⟩)
        (⟨1, 0, 0⟩ : Vec3 ℝ)).det = 0
    ∧ ray_triangle_intersection Real.sqrt (Vec3.lift (⟨1 / 4, 1 / 4, 1⟩ : Vec3 ℝ))
        (Vec3.lift ⟨1, 0, 0⟩) (Vec3.lift ⟨0, 0, 0⟩) (Vec3.lift ⟨1, 0, 0⟩)
        (Vec3.lift ⟨0, 1, 0⟩) Vec3.uninit Vec3.uninit
      = (Dbl.fin (-1), Vec3.uninit, Vec3.uninit) :=
  have hdet : (scale_matrix ((⟨1, 0, 0⟩ : Vec3 ℝ) - ⟨0, 0, 0⟩)
      ((⟨0, 1, 0⟩ : Vec3 ℝ) - ⟨0, 0, 0⟩) (⟨1, 0, 0⟩ : Vec3 ℝ)).det = 0 := by
    norm_num [scale_matrix, Mat3.det]
  ⟨hdet, ((singular_system_no_intersection Real.sqrt ⟨1 / 4, 1 / 4, 1⟩ ⟨1, 0, 0⟩).1
    ⟨0, 0, 0⟩ ⟨1, 0, 0⟩ ⟨0, 1, 0⟩ Vec3.uninit Vec3.uninit hdet).2⟩

end ClaimsSingular

/-! ## The sphere test on finite inputs -/

section Sphere

variable {K : Type} [LinearOrderedField K]

theorem squaredNorm_pos {D : Vec3 K} (hD : D ≠ ⟨0, 0, 0⟩) : 0 < D.squaredNorm := by
  have h0 : 0 ≤ D.squaredNorm := by
    simp only [Vec3.squaredNorm]
    nlinarith [mul_self_nonneg D.x, mul_self_nonneg D.y, mul_self_nonneg D.z]
  rcases h0.lt_or_eq with h | h
  · exact h
  · exfalso
    apply hD
    simp only [Vec3.squaredNorm] at h
    have hx : D.x = 0 := by
      nlinarith [mul_self_nonneg D.x, mul_self_nonneg D.y, mul_self_nonneg D.z]
    have hy : D.y = 0 := by
      nlinarith [mul_self_nonneg D.x, mul_self_nonneg D.y, mul_self_nonneg D.z]
    have hz : D.z = 0 := by
      nlinarith [mul_self_nonneg D.x, mul_self_nonneg D.y, mul_self_nonneg D.z]
    ext <;> assumption

/-- The quadratic in `t` that `OnSphere` states, in terms of the quantities of the code. -/
theorem onSphere_iff (O D C : Vec3 K) (r t : K) :
    OnSphere O D C r t
      ↔ D.squaredNorm * t * t + 2 * (O - C).dot D * t + ((O - C).squaredNorm - r * r) = 0 := by
  unfold OnSphere
  simp only [Vec3.squaredNorm, Vec3.dot, Vec3.smul, Vec3.add_x, Vec3.add_y, Vec3.add_z,
    Vec3.sub_x, Vec3.sub_y, Vec3.sub_z]
  constructor <;> intro h <;> linear_combination h

/-- Completing the square: at a point of the sphere, `(2 a t + b)^2 = delta`. -/
theorem onSphere_sq (O D C : Vec3 K) (r t : K) (h : OnSphere O D C r t) :
    (2 * D.squaredNorm * t + 2 * (O - C).dot D) * (2 * D.squaredNorm * t + 2 * (O - C).dot D)
      = sphere_delta O D C r := by
  rw [onSphere_iff] at h
  unfold sphere_delta
  linear_combination (4 * D.squaredNorm) * h

/-- A negative discriminant leaves no point of the line on the sphere. -/
theorem not_onSphere_of_delta_neg (O D C : Vec3 K) (r : K) (h : sphere_delta O D C r < 0)
    (t : K) : ¬ OnSphere O D C r t := by
  intro ht
  have h1 := onSphere_sq O D C r t ht
  have h2 := mul_self_nonneg (2 * D.squaredNorm * t + 2 * (O - C).dot D)
  linarith

/-- With an exact square root and a non-negative discriminant, the `t` of the code is a
point of the sphere. -/
theorem onSphere_sphere_t {sqrt : K → K} (hs : IsSqrt sqrt) (O D C : Vec3 K) (r : K)
    (hD : D ≠ ⟨0, 0, 0⟩) (h : 0 ≤ sphere_delta O D C r) :
    OnSphere O D C r (sphere_t sqrt O D C r) := by
  have ha := squaredNorm_pos hD
  obtain ⟨-, hsq⟩ := hs _ h
  rw [onSphere_iff]
  have ht : 2 * D.squaredNorm * sphere_t sqrt O D C r
      = -2 * (O - C).dot D - sqrt (sphere_delta O D C r) := by
    unfold sphere_t
    field_simp
  generalize sqrt (sphere_delta O D C r) = s at hsq ht
  generalize sphere_t sqrt O D C r = t at ht
  unfold sphere_delta at hsq
  have h4 : 4 * D.squaredNorm * (D.squaredNorm * t * t + 2 * (O - C).dot D * t
      + ((O - C).squaredNorm - r * r)) = 0 := by
    linear_combination (2 * D.squaredNorm * t + 2 * (O - C).dot D - s) * ht + hsq
  have h4a : (4 : K) * D.squaredNorm ≠ 0 := by positivity
  exact (mul_eq_zero.mp h4).resolve_left h4a

/-- With an exact square root, the `t` of the code is the smallest parameter of the line on
the sphere. -/
theorem sphere_t_le {sqrt : K → K} (hs : IsSqrt sqrt) (O D C : Vec3 K) (r : K)
    (hD : D ≠ ⟨0, 0, 0⟩) (t : K) (ht : OnSphere O D C r t) :
    sphere_t sqrt O D C r ≤ t := by
  have ha := squaredNorm_pos hD
  have h1 := onSphere_sq O D C r t ht
  have hdelta : 0 ≤ sphere_delta O D C r := by
    rw [← h1]
    exact mul_self_nonneg _
  obtain ⟨hs0, hsq⟩ := hs _ hdelta
  unfold sphere_t
  generalize sqrt (sphere_delta O D C r) = s at hs0 hsq
  rw [div_le_iff₀ (by linarith)]
  have h2 : -s ≤ 2 * D.squaredNorm * t + 2 * (O - C).dot D := by
    by_contra hlt
    push_neg at hlt
    nlinarith
  linarith

/-- The local `delta` of `ray_sphere_intersection` on finite inputs. -/
theorem sphere_discriminant_lift (O D C : Vec3 K) (r : K) :
    sphere_discriminant O.lift D.lift C.lift (Dbl.fin r) = Dbl.fin (sphere_delta O D C r) := by
  simp only [sphere_discriminant, sphere_delta, Vec3.lift_sub, Vec3.dot_lift,
    Vec3.squaredNorm_lift, Dbl.fin_mul_fin, Dbl.fin_sub_fin]

/-- The value of `ray_sphere_intersection` on a finite ray with a direction that is not zero
and the finite sphere stored at `index`. -/
theorem ray_sphere_intersection_lift (sqrt : K → K) (scene : Scene (Dbl K)) (index : Nat)
    (C : Vec3 K) (r : K) (hC : scene.sphere_centers.getD index default = C.lift)
    (hr : scene.sphere_radii.getD index default = Dbl.fin r)
    (O D : Vec3 K) (hD : D ≠ ⟨0, 0, 0⟩) (p N : Vec3 (Dbl K)) :
    ray_sphere_intersection sqrt scene O.lift D.lift index p N
      = if sphere_delta O D C r < 0 then (Dbl.fin (-1), p, N)
        else (Dbl.fin (sphere_t sqrt O D C r), (O + Vec3.smul (sphere_t sqrt O D C r) D).lift,
          (O + Vec3.smul (sphere_t sqrt O D C r) D - C).lift.normalized sqrt) := by
  have ha := squaredNorm_pos hD
  unfold ray_sphere_intersection
  simp only [hC, hr, sphere_discriminant_lift, Vec3.lift_sub, Vec3.dot_lift,
    Vec3.squaredNorm_lift, Dbl.fin_mul_fin, Dbl.lt_fin_fin, decide_eq_true_eq]
  by_cases h : sphere_delta O D C r < 0
  · rw [if_pos h, if_pos h]
  · rw [if_neg h, if_neg h]
    have h2 : (2 : K) * D.squaredNorm ≠ 0 := by positivity
    simp only [Dbl.sqrt_fin sqrt (not_lt.mp h), Dbl.fin_sub_fin, Dbl.fin_div_fin _ h2]
    have ht : (-2 * (O - C).dot D - sqrt (sphere_delta O D C r)) / (2 * D.squaredNorm)
        = sphere_t sqrt O D C r := rfl
    rw [ht]
    simp only [Vec3.smul_lift, Vec3.lift_add, Vec3.lift_sub]

end Sphere

section ClaimsSphere

variable {K : Type} [LinearOrderedField K]

theorem IsSqrt.sqrt_mul_self {sqrt : K → K} (hs : IsSqrt sqrt) {x : K} (hx : 0 ≤ x) :
    sqrt (x * x) = x := by
  obtain ⟨h0, h1⟩ := hs (x * x) (mul_self_nonneg x)
  exact (mul_self_inj h0 hx).mp h1

/-- Counterexample to C6: the ray starts at the centre of the sphere of radius `2`; the line
meets the sphere at `t = -2` and at `t = 2`, the smaller root is negative and the larger one
is not, and the function returns `-2` (no hit), not the larger root `2`. -/
theorem ray_sphere_intersection_from_inside :
    OnSphere (⟨0, 0, 0⟩ : Vec3 ℝ) ⟨1, 0, 0⟩ ⟨0, 0, 0⟩ 2 (-2)
    ∧ OnSphere (⟨0, 0, 0⟩ : Vec3 ℝ) ⟨1, 0, 0⟩ ⟨0, 0, 0⟩ 2 2
    ∧ (ray_sphere_intersection Real.sqrt
        (⟨[], [], [Vec3.lift (⟨0, 0, 0⟩ : Vec3 ℝ)], [Dbl.fin 2], [], [], []⟩ : Scene (Dbl ℝ))
        (Vec3.lift ⟨0, 0, 0⟩) (Vec3.lift ⟨1, 0, 0⟩) 0 Vec3.uninit Vec3.uninit).1
      = Dbl.fin (-2)
    ∧ (ray_sphere_intersection Real.sqrt
        (⟨[], [], [Vec3.lift (⟨0, 0, 0⟩ : Vec3 ℝ)], [Dbl.fin 2], [], [], []⟩ : Scene (Dbl ℝ))
        (Vec3.lift ⟨0, 0, 0⟩) (Vec3.lift ⟨1, 0, 0⟩) 0 Vec3.uninit Vec3.uninit).1
      ≠ Dbl.fin 2 := by
  have hsq : Real.sqrt 16 = 4 := by
    rw [show (16 : ℝ) = 4 * 4 by norm_num]
    exact Real.sqrt_mul_self (by norm_num)
  have ht : sphere_t Real.sqrt (⟨0, 0, 0⟩ : Vec3 ℝ) ⟨1, 0, 0⟩ ⟨0, 0, 0⟩ 2 = -2 := by
    have hd : sphere_delta (⟨0, 0, 0⟩ : Vec3 ℝ) ⟨1, 0, 0⟩ ⟨0, 0, 0⟩ 2 = 16 := by
      norm_num [sphere_delta, Vec3.dot, Vec3.squaredNorm]
    rw [sphere_t, hd, hsq]
    norm_num [Vec3.dot, Vec3.squaredNorm]
  have hval := ray_sphere_intersection_lift Real.sqrt
    (⟨[], [], [Vec3.lift (⟨0, 0, 0⟩ : Vec3 ℝ)], [Dbl.fin 2], [], [], []⟩ : Scene (Dbl ℝ))
    0 ⟨0, 0, 0⟩ 2 rfl rfl ⟨0, 0, 0⟩ ⟨1, 0, 0⟩ (by simp) Vec3.uninit Vec3.uninit
  rw [if_neg (by norm_num [sphere_delta, Vec3.dot, Vec3.squaredNorm]), ht] at hval
  refine ⟨?_, ?_, ?_, ?_⟩
  · norm_num [OnSphere, Vec3.squaredNorm, Vec3.smul]
  · norm_num [OnSphere, Vec3.squaredNorm, Vec3.smul]
  · rw [hval]
  · rw [hval]
    simp only [ne_eq, Dbl.fin.injEq]
    norm_num

/-- C6, amended: with an exact square root, for a finite sphere and a finite ray with a
direction that is not zero whose line meets the sphere, `ray_sphere_intersection` returns the
smaller of the two roots in every case (also when it is negative), writes the point of the
ray at that root, and so reports a hit (`t >= 0`) exactly when no root is negative. -/
theorem ray_sphere_intersection_smaller_root (sqrt : K → K) (hs : IsSqrt sqrt)
    (scene : Scene (Dbl K)) (index : Nat) (C : Vec3 K) (r : K)
    (hC : scene.sphere_centers.getD index default = C.lift)
    (hr : scene.sphere_radii.getD index default = Dbl.fin r)
    (O D : Vec3 K) (hD : D ≠ ⟨0, 0, 0⟩) (p N : Vec3 (Dbl K))
    (hroot : ∃ t : K, OnSphere O D C r t) :
    (∃ t : K, OnSphere O D C r t ∧ (∀ s : K, OnSphere O D C r s → t ≤ s)
      ∧ ray_sphere_intersection sqrt scene O.lift D.lift index p N
          = (Dbl.fin t, (O + Vec3.smul t D).lift,
              (O + Vec3.smul t D - C).lift.normalized sqrt))
    ∧ (Dbl.ge (ray_sphere_intersection sqrt scene O.lift D.lift index p N).1 (Dbl.fin 0) = true
        ↔ ∀ s : K, OnSphere O D C r s → 0 ≤ s) := by
  obtain ⟨t0, ht0⟩ := hroot
  have hdelta : ¬ sphere_delta O D C r < 0 := fun h =>
    not_onSphere_of_delta_neg O D C r h t0 ht0
  have hval := ray_sphere_intersection_lift sqrt scene index C r hC hr O D hD p N
  rw [if_neg hdelta] at hval
  have hon := onSphere_sphere_t hs O D C r hD (not_lt.mp hdelta)
  have hmin := sphere_t_le hs O D C r hD
  refine ⟨⟨sphere_t sqrt O D C r, hon, hmin, hval⟩, ?_⟩
  rw [hval]
  simp only [Dbl.ge_fin_fin, decide_eq_true_eq]
  exact ⟨fun h s hs' => le_trans h (hmin s hs'), fun h => h _ hon⟩

/-- Witness of the amended C6: the sphere of radius `2` around the origin and the ray from
its centre along `(1, 0, 0)`; the line meets the sphere at `t = 2`. -/
theorem ray_sphere_intersection_smaller_root_witness :
    IsSqrt Real.sqrt ∧ (⟨1, 0, 0⟩ : Vec3 ℝ) ≠ ⟨0, 0, 0⟩
    ∧ (∃ t : ℝ, OnSphere (⟨0, 0, 0⟩ : Vec3 ℝ) ⟨1, 0, 0⟩ ⟨0, 0, 0⟩ 2 t)
    ∧ ¬ (Dbl.ge (ray_sphere_intersection Real.sqrt
        (⟨[], [], [Vec3.lift (⟨0, 0, 0⟩ : Vec3 ℝ)], [Dbl.fin 2], [], [], []⟩ : Scene (Dbl ℝ))
        (Vec3.lift ⟨0, 0, 0⟩) (Vec3.lift ⟨1, 0, 0⟩) 0 Vec3.uninit Vec3.uninit).1
          (Dbl.fin 0) = true) :=
  have hne : (⟨1, 0, 0⟩ : Vec3 ℝ) ≠ ⟨0, 0, 0⟩ := by simp
  have hroot : ∃ t : ℝ, OnSphere (⟨0, 0, 0⟩ : Vec3 ℝ) ⟨1, 0, 0⟩ ⟨0, 0, 0⟩ 2 t :=
    ⟨2, by norm_num [OnSphere, Vec3.squaredNorm, Vec3.smul]⟩
  ⟨real_isSqrt, hne, hroot, fun h =>
    absurd ((ray_sphere_intersection_smaller_root Real.sqrt real_isSqrt
      (⟨[], [], [Vec3.lift (⟨0, 0, 0⟩ : Vec3 ℝ)], [Dbl.fin 2], [], [], []⟩ : Scene (Dbl ℝ))
      0 ⟨0, 0, 0⟩ 2 rfl rfl ⟨0, 0, 0⟩ ⟨1, 0, 0⟩ hne Vec3.uninit Vec3.uninit hroot).2.mp h (-2)
        (by norm_num [OnSphere, Vec3.squaredNorm, Vec3.smul]))
      (by norm_num)⟩

/-- C7: with an exact square root, for a ray of origin `O` and unit direction `D`, a radius
`r > 0` and a distance `d > r`, the test against the sphere of radius `r` centred at
`O + d * D` returns `t = d - r`, writes the point `O + (d - r) * D` and the normal `-D`;
the returned value is a hit (`t >= 0`). -/
theorem ray_sphere_intersection_front_hit (sqrt : K → K) (hs : IsSqrt sqrt)
    (scene : Scene (Dbl K)) (index : Nat) (O D : Vec3 K) (r d : K)
    (hunit : D.squaredNorm = 1) (hr : 0 < r) (hd : r < d)
    (hC : scene.sphere_centers.getD index default = (O + Vec3.smul d D).lift)
    (hrad : scene.sphere_radii.getD index default = Dbl.fin r) (p N : Vec3 (Dbl K)) :
    ray_sphere_intersection sqrt scene O.lift D.lift index p N
      = (Dbl.fin (d - r), (O + Vec3.smul (d - r) D).lift, (-D).lift)
    ∧ Dbl.ge (ray_sphere_intersection sqrt scene O.lift D.lift index p N).1 (Dbl.fin 0)
      = true := by
  suffices hmain : ray_sphere_intersection sqrt scene O.lift D.lift index p N
      = (Dbl.fin (d - r), (O + Vec3.smul (d - r) D).lift, (-D).lift) by
    refine ⟨hmain, ?_⟩
    rw [hmain]
    simpa using hd.le
  have hD : D ≠ ⟨0, 0, 0⟩ := by
    intro h
    rw [h] at hunit
    simp [Vec3.squaredNorm] at hunit
  have hunit2 := hunit
  simp only [Vec3.squaredNorm] at hunit2
  have hdot : (O - (O + Vec3.smul d D)).dot D = -d := by
    simp only [Vec3.dot, Vec3.smul, Vec3.sub_x, Vec3.sub_y, Vec3.sub_z, Vec3.add_x,
      Vec3.add_y, Vec3.add_z]
    linear_combination (-d) * hunit2
  have hsqn : (O - (O + Vec3.smul d D)).squaredNorm = d * d := by
    simp only [Vec3.squaredNorm, Vec3.smul, Vec3.sub_x, Vec3.sub_y, Vec3.sub_z, Vec3.add_x,
      Vec3.add_y, Vec3.add_z]
    linear_combination (d * d) * hunit2
  have hdelta : sphere_delta O D (O + Vec3.smul d D) r = (2 * r) * (2 * r) := by
    rw [sphere_delta, hdot, hsqn, hunit]
    ring
  have ht : sphere_t sqrt O D (O + Vec3.smul d D) r = d - r := by
    rw [sphere_t, hdelta, hs.sqrt_mul_self (by linarith), hdot, hunit]
    ring
  have hval := ray_sphere_intersection_lift sqrt scene index (O + Vec3.smul d D) r hC hrad
    O D hD p N
  rw [if_neg (by rw [hdelta]; exact not_lt.mpr (mul_self_nonneg _)), ht] at hval
  rw [hval]
  have hn : (O + Vec3.smul (d - r) D - (O + Vec3.smul d D)).squaredNorm = r * r := by
    simp only [Vec3.squaredNorm, Vec3.smul, Vec3.sub_x, Vec3.sub_y, Vec3.sub_z, Vec3.add_x,
      Vec3.add_y, Vec3.add_z]
    linear_combination (r * r) * hunit2
  rw [normalized_lift hs _ (by rw [hn]; positivity), hn, hs.sqrt_mul_self hr.le]
  have hdiv : (O + Vec3.smul (d - r) D - (O + Vec3.smul d D)).divs r = -D := by
    ext <;> simp only [Vec3.divs, Vec3.smul, Vec3.sub_x, Vec3.sub_y, Vec3.sub_z, Vec3.add_x,
      Vec3.add_y, Vec3.add_z, Vec3.neg_x, Vec3.neg_y, Vec3.neg_z] <;> field_simp <;> ring
  rw [hdiv]

/-- Witness of C7: the sphere of radius `1` centred at `(3, 0, 0)` and the ray from the origin
along `(1, 0, 0)`: the test returns `t = 2`, the point `(2, 0, 0)` and the normal `(-1, 0, 0)`. -/
theorem ray_sphere_intersection_front_hit_witness :
    IsSqrt Real.sqrt ∧ (⟨1, 0, 0⟩ : Vec3 ℝ).squaredNorm = 1 ∧ (0 : ℝ) < 1 ∧ (1 : ℝ) < 3
    ∧ ray_sphere_intersection Real.sqrt
        (⟨[], [], [((⟨0, 0, 0⟩ : Vec3 ℝ) + Vec3.smul 3 ⟨1, 0, 0⟩).lift], [Dbl.fin 1], [], [],
          []⟩ : Scene (Dbl ℝ))
        (Vec3.lift ⟨0, 0, 0⟩) (Vec3.lift ⟨1, 0, 0⟩) 0 Vec3.uninit Vec3.uninit
      = (Dbl.fin (3 - 1), ((⟨0, 0, 0⟩ : Vec3 ℝ) + Vec3.smul (3 - 1) ⟨1, 0, 0⟩).lift,
          (-(⟨1, 0, 0⟩ : Vec3 ℝ)).lift) := by
  have hunit : (⟨1, 0, 0⟩ : Vec3 ℝ).squaredNorm = 1 := by norm_num [Vec3.squaredNorm]
  have h01 : (0 : ℝ) < 1 := by norm_num
  have h13 : (1 : ℝ) < 3 := by norm_num
  have hC : (⟨[], [], [((⟨0, 0, 0⟩ : Vec3 ℝ) + Vec3.smul 3 ⟨1, 0, 0⟩).lift], [Dbl.fin 1], [],
      [], []⟩ : Scene (Dbl ℝ)).sphere_centers.getD 0 default
      = ((⟨0, 0, 0⟩ : Vec3 ℝ) + Vec3.smul 3 ⟨1, 0, 0⟩).lift := rfl
  have hrad : (⟨[], [], [((⟨0, 0, 0⟩ : Vec3 ℝ) + Vec3.smul 3 ⟨1, 0, 0⟩).lift], [Dbl.fin 1],
      [], [], []⟩ : Scene (Dbl ℝ)).sphere_radii.getD 0 default = Dbl.fin 1 := rfl
  exact ⟨real_isSqrt, hunit, h01, h13,
    (ray_sphere_intersection_front_hit Real.sqrt real_isSqrt _ 0 ⟨0, 0, 0⟩ ⟨1, 0, 0⟩ 1 3
      hunit h01 h13 hC hrad Vec3.uninit Vec3.uninit).1⟩

/-- C8: with an exact square root, for a finite sphere and a finite ray with a direction that
is not zero, `ray_sphere_intersection` returns `-1` and leaves `p` and `N` untouched, whatever
they hold, if and only if no parameter `t` puts the point of the line on the sphere; its test
`delta < 0` succeeds exactly in that case; and when some point of the line is on the sphere
the function returns the parameter of such a point and writes that point into `p`. -/
theorem ray_sphere_intersection_no_root (sqrt : K → K) (hs : IsSqrt sqrt)
    (scene : Scene (Dbl K)) (index : Nat) (C : Vec3 K) (r : K)
    (hC : scene.sphere_centers.getD index default = C.lift)
    (hr : scene.sphere_radii.getD index default = Dbl.fin r)
    (O D : Vec3 K) (hD : D ≠ ⟨0, 0, 0⟩) :
    ((∀ t : K, ¬ OnSphere O D C r t)
      ↔ ∀ p N : Vec3 (Dbl K),
          ray_sphere_intersection sqrt scene O.lift D.lift index p N = (Dbl.fin (-1), p, N))
    ∧ (Dbl.lt (sphere_discriminant O.lift D.lift C.lift (Dbl.fin r)) (Dbl.fin 0) = true
      ↔ ∀ t : K, ¬ OnSphere O D C r t)
    ∧ ((∃ t : K, OnSphere O D C r t) → ∀ p N : Vec3 (Dbl K),
        OnSphere O D C r (sphere_t sqrt O D C r)
        ∧ ray_sphere_intersection sqrt scene O.lift D.lift index p N
          = (Dbl.fin (sphere_t sqrt O D C r),
              (O + Vec3.smul (sphere_t sqrt O D C r) D).lift,
              (O + Vec3.smul (sphere_t sqrt O D C r) D - C).lift.normalized sqrt)) := by
  have hiff : sphere_delta O D C r < 0 ↔ ∀ t : K, ¬ OnSphere O D C r t := by
    constructor
    · exact fun h t => not_onSphere_of_delta_neg O D C r h t
    · intro h
      by_contra hn
      exact h _ (onSphere_sphere_t hs O D C r hD (not_lt.mp hn))
  have hroot : (∃ t : K, OnSphere O D C r t) → ∀ p N : Vec3 (Dbl K),
      OnSphere O D C r (sphere_t sqrt O D C r)
      ∧ ray_sphere_intersection sqrt scene O.lift D.lift index p N
        = (Dbl.fin (sphere_t sqrt O D C r),
            (O + Vec3.smul (sphere_t sqrt O D C r) D).lift,
            (O + Vec3.smul (sphere_t sqrt O D C r) D - C).lift.normalized sqrt) := by
    rintro ⟨t, ht⟩ p N
    have hn : ¬ sphere_delta O D C r < 0 := fun h => hiff.mp h t ht
    refine ⟨onSphere_sphere_t hs O D C r hD (not_lt.mp hn), ?_⟩
    rw [ray_sphere_intersection_lift sqrt scene index C r hC hr O D hD p N, if_neg hn]
  refine ⟨⟨?_, ?_⟩, ?_, hroot⟩
  · intro h p N
    rw [ray_sphere_intersection_lift sqrt scene index C r hC hr O D hD p N,
      if_pos (hiff.mpr h)]
  · intro h t ht
    have h1 := (hroot ⟨t, ht⟩ Vec3.uninit Vec3.uninit).2
    rw [h Vec3.uninit Vec3.uninit] at h1
    have h2 := congrArg (fun q => q.2.1.x) h1
    simp [Vec3.uninit, Vec3.lift] at h2
  · rw [sphere_discriminant_lift]
    simpa using hiff

/-- Witness of C8: the ray from the origin along `(1, 0, 0)` passes at distance `3` from the
centre `(0, 3, 0)` of a sphere of radius `1`; the function returns `-1`. -/
theorem ray_sphere_intersection_no_root_witness :
    IsSqrt Real.sqrt ∧ (⟨1, 0, 0⟩ : Vec3 ℝ) ≠ ⟨0, 0, 0⟩
    ∧ (∀ t : ℝ, ¬ OnSphere (⟨0, 0, 0⟩ : Vec3 ℝ) ⟨1, 0, 0⟩ ⟨0, 3, 0⟩ 1 t)
    ∧ ray_sphere_intersection Real.sqrt
        (⟨[], [], [Vec3.lift (⟨0, 3, 0⟩ : Vec3 ℝ)], [Dbl.fin 1], [], [], []⟩ : Scene (Dbl ℝ))
        (Vec3.lift ⟨0, 0, 0⟩) (Vec3.lift ⟨1, 0, 0⟩) 0 Vec3.uninit Vec3.uninit
      = (Dbl.fin (-1), Vec3.uninit, Vec3.uninit) :=
  have hne : (⟨1, 0, 0⟩ : Vec3 ℝ) ≠ ⟨0, 0, 0⟩ := by simp
  have hno : ∀ t : ℝ, ¬ OnSphere (⟨0, 0, 0⟩ : Vec3 ℝ) ⟨1, 0, 0⟩ ⟨0, 3, 0⟩ 1 t := by
    intro t h
    simp only [OnSphere, Vec3.squaredNorm, Vec3.smul, Vec3.sub_x, Vec3.sub_y, Vec3.sub_z,
      Vec3.add_x, Vec3.add_y, Vec3.add_z] at h
    nlinarith [mul_self_nonneg t]
  ⟨real_isSqrt, hne, hno,
    (ray_sphere_intersection_no_root Real.sqrt real_isSqrt
      (⟨[], [], [Vec3.lift (⟨0, 3, 0⟩ : Vec3 ℝ)], [Dbl.fin 1], [], [], []⟩ : Scene (Dbl ℝ))
      0 ⟨0, 3, 0⟩ 1 rfl rfl ⟨0, 0, 0⟩ ⟨1, 0, 0⟩ hne).1.mp hno Vec3.uninit Vec3.uninit⟩

end ClaimsSphere

/-! ## The loops of `find_nearest_object` -/

namespace Dbl

variable {K : Type} [LinearOrderedField K]

theorem lt_trans {a b c : Dbl K} (h1 : lt a b = true) (h2 : lt b c = true) :
    lt a c = true := by
  cases a <;> cases b <;> cases c <;> simp_all [lt]
  exact LT.lt.trans h1 h2

theorem lt_of_lt_of_le {a b c : Dbl K} (h1 : lt a b = true) (h2 : le b c = true) :
    lt a c = true := by
  cases a <;> cases b <;> cases c <;> simp_all [lt, le]
  exact LT.lt.trans_le h1 h2

theorem le_of_lt {a b : Dbl K} (h1 : lt a b = true) : le a b = true := by
  cases a <;> cases b <;> simp_all [lt, le]
  exact LT.lt.le h1

/-- Between a double that is `>= 0` and a double below `DBL_MAX`, `a < b` fails only when
`b <= a`. -/
theorem le_of_not_lt {a b : Dbl K} (ha : ge a (fin 0) = true) (hb : lt b DBL_MAX = true)
    (h : lt a b = false) : le b a = true := by
  cases a <;> cases b <;> simp_all [lt, le, ge, DBL_MAX]

end Dbl

section Loops

variable {K : Type} [LinearOrderedField K]

theorem run_calls_append (st : NearestState K)
    (L : List (Int × (Vec3 (Dbl K) → Vec3 (Dbl K) → Dbl K × Vec3 (Dbl K) × Vec3 (Dbl K))))
    (c : Int × (Vec3 (Dbl K) → Vec3 (Dbl K) → Dbl K × Vec3 (Dbl K) × Vec3 (Dbl K))) :
    run_calls st (L ++ [c])
      = (run_calls st L).record c.1 (c.2 (run_calls st L).tmp_p (run_calls st L).tmp_N) := by
  simp [run_calls, List.foldl_append]

/-- The invariant holds after every list of stable calls. -/
theorem run_calls_inv (p0 N0 tp tN : Vec3 (Dbl K))
    (L : List (Int × (Vec3 (Dbl K) → Vec3 (Dbl K) → Dbl K × Vec3 (Dbl K) × Vec3 (Dbl K))))
    (hstable : ∀ c ∈ L, StableCall c.2) :
    LoopInv p0 N0 L (run_calls ⟨-1, Dbl.DBL_MAX, p0, N0, tp, tN⟩ L) := by
  induction L using List.reverseRecOn with
  | nil =>
    left
    simp [run_calls]
  | append_singleton L c ih =>
    have ihL := ih (fun c hc => hstable c (List.mem_append_left _ hc))
    have hc := hstable c (List.mem_append_right _ (List.mem_singleton_self c))
    rw [run_calls_append]
    generalize run_calls ⟨-1, Dbl.DBL_MAX, p0, N0, tp, tN⟩ L = st at ihL
    obtain ⟨ht, hpn⟩ := hc st.tmp_p st.tmp_N
    unfold NearestState.record
    simp only [ht]
    rcases ihL with ⟨hnone, hidx, hct, hp, hN⟩ | ⟨pre, k, post, hL, hk, hidx, hct, hpN, hpre, hpost⟩
    · by_cases h0 : Dbl.ge (c.2 Vec3.uninit Vec3.uninit).1 (Dbl.fin 0) = true
      · by_cases h1 : Dbl.lt (c.2 Vec3.uninit Vec3.uninit).1 st.closest_t = true
        · rw [if_pos h0, if_pos h1]
          right
          refine ⟨L, c, [], rfl, ⟨h0, hct ▸ h1⟩, rfl, rfl, ?_, ?_, ?_⟩
          · exact (hpn (ht ▸ h0))
          · intro j hj hjv
            exact absurd hjv (hnone j hj)
          · intro j hj
            simp at hj
        · rw [if_pos h0, if_neg h1]
          left
          refine ⟨?_, hidx, hct, hp, hN⟩
          intro j hj
          rcases List.mem_append.mp hj with hj | hj
          · exact hnone j hj
          · rw [List.mem_singleton.mp hj]
            intro hv
            exact h1 (hct ▸ hv.2)
      · rw [if_neg h0]
        left
        refine ⟨?_, hidx, hct, hp, hN⟩
        intro j hj
        rcases List.mem_append.mp hj with hj | hj
        · exact hnone j hj
        · rw [List.mem_singleton.mp hj]
          intro hv
          exact h0 hv.1
    · by_cases h0 : Dbl.ge (c.2 Vec3.uninit Vec3.uninit).1 (Dbl.fin 0) = true
      · by_cases h1 : Dbl.lt (c.2 Vec3.uninit Vec3.uninit).1 st.closest_t = true
        · rw [if_pos h0, if_pos h1]
          right
          rw [hct] at h1
          refine ⟨L, c, [], rfl, ⟨h0, Dbl.lt_trans h1 hk.2⟩, rfl, rfl, ?_, ?_, ?_⟩
          · exact (hpn (ht ▸ h0))
          · intro j hj hjv
            rw [hL] at hj
            rcases List.mem_append.mp hj with hj | hj
            · exact Dbl.lt_trans h1 (hpre j hj hjv)
            · rcases List.mem_cons.mp hj with hj | hj
              · rw [hj]
                exact h1
              · exact Dbl.lt_of_lt_of_le h1 (hpost j hj hjv)
          · intro j hj
            simp at hj
        · rw [if_pos h0, if_neg h1]
          right
          refine ⟨pre, k, post ++ [c], by rw [hL]; simp, hk, hidx, hct, hpN, hpre, ?_⟩
          intro j hj hjv
          rcases List.mem_append.mp hj with hj | hj
          · exact hpost j hj hjv
          · rw [List.mem_singleton.mp hj]
            rw [hct] at h1
            exact Dbl.le_of_not_lt h0 hk.2 (by simpa using h1)
      · rw [if_neg h0]
        right
        refine ⟨pre, k, post ++ [c], by rw [hL]; simp, hk, hidx, hct, hpN, hpre, ?_⟩
        intro j hj hjv
        rcases List.mem_append.mp hj with hj | hj
        · exact hpost j hj hjv
        · rw [List.mem_singleton.mp hj] at hjv
          exact absurd hjv.1 h0

end Loops

section Nearest

variable {K : Type} [LinearOrderedField K]

theorem stableCall_of_ite (c : Bool) (X : Dbl K × Vec3 (Dbl K) × Vec3 (Dbl K)) :
    StableCall (fun p N => if c = true then X else (Dbl.fin (-1), p, N)) := by
  intro p N
  cases c
  · simp
  · simp

theorem stableCall_of_ite_not (c : Bool) (X : Dbl K × Vec3 (Dbl K) × Vec3 (Dbl K)) :
    StableCall (fun p N => if c = true then (Dbl.fin (-1), p, N) else X) := by
  intro p N
  cases c
  · simp
  · simp

/-- Each of the three intersection functions is a stable call. -/
theorem primitive_report_stable (sqrt : K → K) (scene : Scene (Dbl K)) (O D : Vec3 (Dbl K))
    (q : Primitive) : StableCall (primitive_report sqrt scene O D q) := by
  cases q with
  | triangle i => exact stableCall_of_ite _ _
  | sphere i => exact stableCall_of_ite_not _ _
  | parallelogram i => exact stableCall_of_ite _ _

/-- The three loops of `find_nearest_object` are one loop over the primitives in scan
order. -/
theorem find_nearest_state_eq (sqrt : K → K) (scene : Scene (Dbl K)) (O D p N : Vec3 (Dbl K)) :
    find_nearest_state sqrt scene O D p N
      = run_calls ⟨-1, Dbl.DBL_MAX, p, N, Vec3.uninit, Vec3.uninit⟩
          ((scene_primitives scene).map
            (fun q => (primitive_index scene q, primitive_report sqrt scene O D q))) := by
  simp only [find_nearest_state, run_calls, scene_primitives, List.map_append,
    List.foldl_append, List.foldl_map, List.map_map]
  rfl

theorem primitive_index_ne {α : Type} (scene : Scene α) (q : Primitive) :
    primitive_index scene q ≠ -1 := by
  cases q <;> simp only [primitive_index, Int.ofNat_eq_coe] <;> omega

end Nearest

section ClaimC1

variable {K : Type} [LinearOrderedField K]

/-- Counterexample to C1: the only primitive is the triangle `(0,0,0), (1,0,0), (0,1,0)`;
the ray from `(1/4, 1/4, -2^100)` along `(0, 0, 2^-1000)` meets it at `t = 2^1100`, so
`ray_triangle_intersection` reports a value `t >= 0`, and `find_nearest_object` returns
false, because that `t` is not below the initial `closest_t`,
`std::numeric_limits<double>::max()`.  (All inputs are doubles; in double arithmetic this
`t` overflows to `+inf`, which is `>= 0` and not below `closest_t` either.) -/
theorem far_hit_is_not_recorded :
    Dbl.ge (ray_triangle_intersection Real.sqrt
        (Vec3.lift (⟨1 / 4, 1 / 4, -2 ^ 100⟩ : Vec3 ℝ)) (Vec3.lift ⟨0, 0, 1 / 2 ^ 1000⟩)
        (Vec3.lift ⟨0, 0, 0⟩) (Vec3.lift ⟨1, 0, 0⟩) (Vec3.lift ⟨0, 1, 0⟩)
        Vec3.uninit Vec3.uninit).1 (Dbl.fin 0) = true
    ∧ (find_nearest_object Real.sqrt
        (⟨[Vec3.lift (⟨0, 0, 0⟩ : Vec3 ℝ), Vec3.lift ⟨1, 0, 0⟩, Vec3.lift ⟨0, 1, 0⟩],
          [(0, 1, 2)], [], [], [], [], []⟩ : Scene (Dbl ℝ))
        (Vec3.lift ⟨1 / 4, 1 / 4, -2 ^ 100⟩) (Vec3.lift ⟨0, 0, 1 / 2 ^ 1000⟩)
        Vec3.uninit Vec3.uninit).1 = false := by
  have hdet : (scale_matrix ((⟨1, 0, 0⟩ : Vec3 ℝ) - ⟨0, 0, 0⟩) ((⟨0, 1, 0⟩ : Vec3 ℝ) - ⟨0, 0, 0⟩)
      (⟨0, 0, 1 / 2 ^ 1000⟩ : Vec3 ℝ)).det ≠ 0 := by
    norm_num [scale_matrix, Mat3.det]
  have hrep := triangle_value_of_solution Real.sqrt ⟨1 / 4, 1 / 4, -2 ^ 100⟩
    ⟨0, 0, 1 / 2 ^ 1000⟩ ⟨0, 0, 0⟩ ⟨1, 0, 0⟩ ⟨0, 1, 0⟩ Vec3.uninit Vec3.uninit hdet
    (1 / 4) (1 / 4) (2 ^ 1100) (by ext <;> norm_num [Vec3.smul]) (by norm_num) (by norm_num)
    (by norm_num)
  refine ⟨?_, ?_⟩
  · rw [hrep]
    simp
  · have hstate : find_nearest_state Real.sqrt
        (⟨[Vec3.lift (⟨0, 0, 0⟩ : Vec3 ℝ), Vec3.lift ⟨1, 0, 0⟩, Vec3.lift ⟨0, 1, 0⟩],
          [(0, 1, 2)], [], [], [], [], []⟩ : Scene (Dbl ℝ))
        (Vec3.lift ⟨1 / 4, 1 / 4, -2 ^ 100⟩) (Vec3.lift ⟨0, 0, 1 / 2 ^ 1000⟩)
        Vec3.uninit Vec3.uninit
        = (⟨-1, Dbl.DBL_MAX, Vec3.uninit, Vec3.uninit, Vec3.uninit, Vec3.uninit⟩ :
            NearestState ℝ).record (Int.ofNat 0)
          (ray_triangle_intersection Real.sqrt
            (Vec3.lift (⟨1 / 4, 1 / 4, -2 ^ 100⟩ : Vec3 ℝ)) (Vec3.lift ⟨0, 0, 1 / 2 ^ 1000⟩)
            (Vec3.lift ⟨0, 0, 0⟩) (Vec3.lift ⟨1, 0, 0⟩) (Vec3.lift ⟨0, 1, 0⟩)
            Vec3.uninit Vec3.uninit) := rfl
    have hmax : ¬ ((2 : ℝ) ^ 1100 < 2 ^ 1024 - 2 ^ 971) := by norm_num
    unfold find_nearest_object
    rw [hstate]
    unfold NearestState.record
    rw [hrep]
    simp [Dbl.DBL_MAX, hmax]

end ClaimC1

section ClaimC1Amended

variable {K : Type} [LinearOrderedField K]

/-- The invariant of the loops, for the state that `find_nearest_object` reads at its end. -/
theorem find_nearest_state_inv (sqrt : K → K) (scene : Scene (Dbl K)) (O D p N : Vec3 (Dbl K)) :
    LoopInv p N
      ((scene_primitives scene).map
        (fun q => (primitive_index scene q, primitive_report sqrt scene O D q)))
      (find_nearest_state sqrt scene O D p N) := by
  rw [find_nearest_state_eq]
  apply run_calls_inv
  intro c hc
  obtain ⟨q, -, rfl⟩ := List.mem_map.mp hc
  exact primitive_report_stable sqrt scene O D q

/-- The two outcomes of `find_nearest_object`: either no primitive reports a recordable
value (false is returned, `p` and `N` are untouched), or true is returned with the point and
normal of the first primitive among those with the least recordable value. -/
theorem find_nearest_object_cases (sqrt : K → K) (scene : Scene (Dbl K))
    (O D p N : Vec3 (Dbl K)) :
    ((∀ q ∈ scene_primitives scene, ¬ RecordableHit sqrt scene O D q)
      ∧ find_nearest_object sqrt scene O D p N = (false, p, N))
    ∨ (∃ pre q post, scene_primitives scene = pre ++ q :: post
        ∧ RecordableHit sqrt scene O D q
        ∧ find_nearest_object sqrt scene O D p N
            = (true, (primitive_report sqrt scene O D q Vec3.uninit Vec3.uninit).2)
        ∧ (∀ j ∈ pre, RecordableHit sqrt scene O D j →
            Dbl.lt (primitive_report sqrt scene O D q Vec3.uninit Vec3.uninit).1
              (primitive_report sqrt scene O D j Vec3.uninit Vec3.uninit).1 = true)
        ∧ (∀ j ∈ post, RecordableHit sqrt scene O D j →
            Dbl.le (primitive_report sqrt scene O D q Vec3.uninit Vec3.uninit).1
              (primitive_report sqrt scene O D j Vec3.uninit Vec3.uninit).1 = true)) := by
  have hinv := find_nearest_state_inv sqrt scene O D p N
  unfold find_nearest_object
  generalize find_nearest_state sqrt scene O D p N = st at hinv
  rcases hinv with ⟨hnone, hidx, -, hp, hN⟩ | ⟨pre, c, post, hL, hc, hidx, -, hpN, hpre, hpost⟩
  · left
    rw [if_pos hidx, hp, hN]
    exact ⟨fun q hq hv => hnone _ (List.mem_map.mpr ⟨q, hq, rfl⟩) hv, rfl⟩
  · right
    obtain ⟨pre2, rest, hsplit, hpre2, hrest⟩ := List.map_eq_append_iff.mp hL
    obtain ⟨q, post2, hrest2, hq, hpost2⟩ := List.map_eq_cons_iff.mp hrest
    subst hq hpre2 hpost2 hrest2
    have hne : st.closest_index ≠ -1 := by
      rw [hidx]
      exact primitive_index_ne scene q
    rw [if_neg hne, hpN]
    exact ⟨pre2, q, post2, hsplit, hc, rfl,
      fun j hj hjv => hpre _ (List.mem_map.mpr ⟨j, hj, rfl⟩) hjv,
      fun j hj hjv => hpost _ (List.mem_map.mpr ⟨j, hj, rfl⟩) hjv⟩

/-- C1, amended: `find_nearest_object` returns true exactly when some primitive of the scene
reports a value `t` with `t >= 0` and `t < std::numeric_limits<double>::max()`; it then
writes the point and the normal of the first primitive, in scan order (triangles, spheres,
parallelograms), whose `t` is the least of these values; when it returns false, `p` and `N`
are left as they were. -/
theorem find_nearest_object_spec (sqrt : K → K) (scene : Scene (Dbl K))
    (O D p N : Vec3 (Dbl K)) :
    ((find_nearest_object sqrt scene O D p N).1 = true
      ↔ ∃ q ∈ scene_primitives scene, RecordableHit sqrt scene O D q)
    ∧ ((find_nearest_object sqrt scene O D p N).1 = true →
        ∃ pre q post, scene_primitives scene = pre ++ q :: post
          ∧ RecordableHit sqrt scene O D q
          ∧ (find_nearest_object sqrt scene O D p N).2
              = (primitive_report sqrt scene O D q Vec3.uninit Vec3.uninit).2
          ∧ (∀ j ∈ pre, RecordableHit sqrt scene O D j →
              Dbl.lt (primitive_report sqrt scene O D q Vec3.uninit Vec3.uninit).1
                (primitive_report sqrt scene O D j Vec3.uninit Vec3.uninit).1 = true)
          ∧ (∀ j ∈ post, RecordableHit sqrt scene O D j →
              Dbl.le (primitive_report sqrt scene O D q Vec3.uninit Vec3.uninit).1
                (primitive_report sqrt scene O D j Vec3.uninit Vec3.uninit).1 = true))
    ∧ ((find_nearest_object sqrt scene O D p N).1 = false →
        (find_nearest_object sqrt scene O D p N).2 = (p, N)) := by
  rcases find_nearest_object_cases sqrt scene O D p N with
    ⟨hnone, hval⟩ | ⟨pre, q, post, hsplit, hq, hval, hpre, hpost⟩
  · rw [hval]
    refine ⟨⟨fun h => absurd h (by simp), ?_⟩, fun h => absurd h (by simp), fun _ => rfl⟩
    rintro ⟨q, hq, hv⟩
    exact absurd hv (hnone q hq)
  · rw [hval]
    have hqmem : q ∈ scene_primitives scene := by
      rw [hsplit]
      simp
    exact ⟨⟨fun _ => ⟨q, hqmem, hq⟩, fun _ => rfl⟩,
      fun _ => ⟨pre, q, post, hsplit, hq, rfl, hpre, hpost⟩,
      fun h => absurd h (by simp)⟩

end ClaimC1Amended

/-! ## Hits lie in the bounding box of the primitive -/

section BoxLemmas

variable {K : Type} [LinearOrderedField K]

/-- A triangle test on a vertex that was read out of range (NaN) reports no intersection. -/
theorem ray_triangle_intersection_uninit (sqrt : K → K) (O D a b c p N : Vec3 (Dbl K))
    (h : a = Vec3.uninit ∨ b = Vec3.uninit ∨ c = Vec3.uninit) :
    ray_triangle_intersection sqrt O D a b c p N = (Dbl.fin (-1), p, N) := by
  rcases h with h | h | h <;> subst h <;>
    simp [ray_triangle_intersection, scale_matrix, Mat3.inverse, Mat3.det, Mat3.mulVec,
      Vec3.uninit]

/-- A sphere test on a radius that was read out of range (NaN) returns NaN. -/
theorem ray_sphere_intersection_nan_radius (sqrt : K → K) (scene : Scene (Dbl K))
    (index : Nat) (hr : scene.sphere_radii.getD index default = Dbl.nan)
    (O D p N : Vec3 (Dbl K)) :
    (ray_sphere_intersection sqrt scene O D index p N).1 = Dbl.nan := by
  unfold ray_sphere_intersection
  simp only [hr]
  simp [sphere_discriminant]

/-- A sphere test on a finite ray with a zero direction returns NaN (`0 / 0`). -/
theorem ray_sphere_intersection_zero_direction {sqrt : K → K} (hs : IsSqrt sqrt)
    (scene : Scene (Dbl K)) (index : Nat) (C : Vec3 K) (r : K)
    (hC : scene.sphere_centers.getD index default = C.lift)
    (hr : scene.sphere_radii.getD index default = Dbl.fin r)
    (O : Vec3 K) (p N : Vec3 (Dbl K)) :
    (ray_sphere_intersection sqrt scene O.lift (Vec3.lift ⟨0, 0, 0⟩) index p N).1
      = Dbl.nan := by
  have h0 : sqrt 0 = 0 := by
    have := hs.sqrt_mul_self (le_refl (0 : K))
    simpa using this
  have hd : sphere_delta O ⟨0, 0, 0⟩ C r = 0 := by
    simp [sphere_delta, Vec3.dot, Vec3.squaredNorm]
  unfold ray_sphere_intersection
  simp only [hC, hr, sphere_discriminant_lift, hd, Dbl.lt_fin_fin, lt_self_iff_false,
    decide_False, Bool.false_eq_true, if_false, Dbl.sqrt_fin sqrt (le_refl (0 : K)), h0,
    Vec3.lift_sub, Vec3.dot_lift, Vec3.squaredNorm_lift, Dbl.fin_mul_fin, Dbl.fin_sub_fin]
  simp [Vec3.dot, Vec3.squaredNorm, Dbl.fin_div_fin_eq, Dbl.scaleInf]

theorem getD_map_lift {L : Type} (l : List (Vec3 L)) (i : Nat) :
    (l.map Vec3.lift).getD i default = (l[i]?.map Vec3.lift).getD Vec3.uninit := by
  rw [List.getD_eq_getElem?_getD, List.getElem?_map]
  rfl

/-- A convex combination of three numbers lies between their minimum and maximum. -/
theorem triangle_coord_bounds (a b c u v : K) (hu : 0 ≤ u) (hv : 0 ≤ v) (huv : u + v ≤ 1) :
    min a (min b c) ≤ a + u * (b - a) + v * (c - a)
      ∧ a + u * (b - a) + v * (c - a) ≤ max a (max b c) := by
  have h1 : min a (min b c) ≤ a := min_le_left _ _
  have h2 : min a (min b c) ≤ b := le_trans (min_le_right _ _) (min_le_left _ _)
  have h3 : min a (min b c) ≤ c := le_trans (min_le_right _ _) (min_le_right _ _)
  have h4 : a ≤ max a (max b c) := le_max_left _ _
  have h5 : b ≤ max a (max b c) := le_trans (le_max_left _ _) (le_max_right _ _)
  have h6 : c ≤ max a (max b c) := le_trans (le_max_right _ _) (le_max_right _ _)
  have hw : 0 ≤ 1 - u - v := by linarith
  constructor
  · nlinarith [mul_nonneg hu (sub_nonneg.mpr h2), mul_nonneg hv (sub_nonneg.mpr h3),
      mul_nonneg hw (sub_nonneg.mpr h1)]
  · nlinarith [mul_nonneg hu (sub_nonneg.mpr h5), mul_nonneg hv (sub_nonneg.mpr h6),
      mul_nonneg hw (sub_nonneg.mpr h4)]

/-- A point of a parallelogram lies between the minimum and maximum of its four corners. -/
theorem parallelogram_coord_bounds (o a b u v : K) (hu : 0 ≤ u) (hu1 : u ≤ 1) (hv : 0 ≤ v)
    (hv1 : v ≤ 1) :
    min (min o a) (min b (a + b - o)) ≤ o + u * (a - o) + v * (b - o)
      ∧ o + u * (a - o) + v * (b - o) ≤ max (max o a) (max b (a + b - o)) := by
  have h1 : min (min o a) (min b (a + b - o)) ≤ o :=
    le_trans (min_le_left _ _) (min_le_left _ _)
  have h2 : min (min o a) (min b (a + b - o)) ≤ a :=
    le_trans (min_le_left _ _) (min_le_right _ _)
  have h3 : min (min o a) (min b (a + b - o)) ≤ b :=
    le_trans (min_le_right _ _) (min_le_left _ _)
  have h4 : min (min o a) (min b (a + b - o)) ≤ a + b - o :=
    le_trans (min_le_right _ _) (min_le_right _ _)
  have h5 : o ≤ max (max o a) (max b (a + b - o)) :=
    le_trans (le_max_left _ _) (le_max_left _ _)
  have h6 : a ≤ max (max o a) (max b (a + b - o)) :=
    le_trans (le_max_right _ _) (le_max_left _ _)
  have h7 : b ≤ max (max o a) (max b (a + b - o)) :=
    le_trans (le_max_left _ _) (le_max_right _ _)
  have h8 : a + b - o ≤ max (max o a) (max b (a + b - o)) :=
    le_trans (le_max_right _ _) (le_max_right _ _)
  have hu' : 0 ≤ 1 - u := by linarith
  have hv' : 0 ≤ 1 - v := by linarith
  generalize min (min o a) (min b (a + b - o)) = m at h1 h2 h3 h4
  generalize max (max o a) (max b (a + b - o)) = M at h5 h6 h7 h8
  constructor
  · have e1 := mul_nonneg (mul_nonneg hu' hv') (sub_nonneg.mpr h1)
    have e2 := mul_nonneg (mul_nonneg hu hv') (sub_nonneg.mpr h2)
    have e3 := mul_nonneg (mul_nonneg hu' hv) (sub_nonneg.mpr h3)
    have e4 := mul_nonneg (mul_nonneg hu hv) (sub_nonneg.mpr h4)
    linarith
  · have e1 := mul_nonneg (mul_nonneg hu' hv') (sub_nonneg.mpr h5)
    have e2 := mul_nonneg (mul_nonneg hu hv') (sub_nonneg.mpr h6)
    have e3 := mul_nonneg (mul_nonneg hu' hv) (sub_nonneg.mpr h7)
    have e4 := mul_nonneg (mul_nonneg hu hv) (sub_nonneg.mpr h8)
    linarith

/-- A coordinate of a point of the sphere is within `|r|` of the coordinate of the centre. -/
theorem sphere_coord_bounds (x y z r : K) (h : x * x + y * y + z * z = r * r) :
    -|r| ≤ x ∧ x ≤ |r| := by
  have hx : x ^ 2 ≤ |r| ^ 2 := by
    rw [sq_abs]
    nlinarith [mul_self_nonneg y, mul_self_nonneg z]
  exact abs_le.mp (abs_le_of_sq_le_sq hx (abs_nonneg r))

end BoxLemmas

section HitsInBoxes

variable {K : Type} [LinearOrderedField K]

/-- A hit reported by the triangle test on finite inputs is a point of the ray, at a
parameter `t >= 0`, inside the bounding box of the three vertices. -/
theorem triangle_hit_in_box (sqrt : K → K) (O D a b c : Vec3 K) (p N : Vec3 (Dbl K))
    (hit : Dbl.ge (ray_triangle_intersection sqrt O.lift D.lift a.lift b.lift c.lift p N).1
      (Dbl.fin 0) = true) :
    RayMeetsBox O D (triangle_box a b c).1 (triangle_box a b c).2 := by
  by_cases hdet : (scale_matrix (b - a) (c - a) D).det = 0
  · rw [ray_triangle_intersection_singular sqrt O D a b c p N hdet] at hit
    simp at hit
    linarith
  · obtain ⟨u, v, t, heq, hu, hv, huv, ht⟩ := triangle_hit_exists sqrt O D a b c p N hdet hit
    refine ⟨t, ht, ?_⟩
    rw [heq]
    have hx := triangle_coord_bounds a.x b.x c.x u v hu hv huv
    have hy := triangle_coord_bounds a.y b.y c.y u v hu hv huv
    have hz := triangle_coord_bounds a.z b.z c.z u v hu hv huv
    exact ⟨hx.1, hx.2, hy.1, hy.2, hz.1, hz.2⟩

/-- A hit reported by the parallelogram test on finite inputs is a point of the ray, at a
parameter `t >= 0`, inside the bounding box of the four corners. -/
theorem parallelogram_hit_in_box (sqrt : K → K) (scene : Scene (Dbl K)) (index : Nat)
    (M : Mat3 K) (hM : scene.parallelograms.getD index default = M.lift) (O D : Vec3 K)
    (p N : Vec3 (Dbl K))
    (hit : Dbl.ge (ray_parallelogram_intersection sqrt scene O.lift D.lift index p N).1
      (Dbl.fin 0) = true) :
    RayMeetsBox O D (parallelogram_box M).1 (parallelogram_box M).2 := by
  by_cases hdet : (scale_matrix (M.col1 - M.col0) (M.col2 - M.col0) D).det = 0
  · rw [ray_parallelogram_intersection_singular sqrt scene index M hM O D p N hdet] at hit
    simp at hit
    linarith
  · obtain ⟨u, v, t, heq, hu, hu1, hv, hv1, ht⟩ :=
      (ray_parallelogram_intersection_spec sqrt scene index M hM O D p N hdet).1.mp hit
    refine ⟨t, ht, ?_⟩
    rw [heq]
    have hx := parallelogram_coord_bounds M.col0.x M.col1.x M.col2.x u v hu hu1 hv hv1
    have hy := parallelogram_coord_bounds M.col0.y M.col1.y M.col2.y u v hu hu1 hv hv1
    have hz := parallelogram_coord_bounds M.col0.z M.col1.z M.col2.z u v hu hu1 hv hv1
    exact ⟨hx.1, hx.2, hy.1, hy.2, hz.1, hz.2⟩

/-- A hit reported by the sphere test on finite inputs is a point of the ray, at a
parameter `t >= 0`, inside the bounding box of the sphere. -/
theorem sphere_hit_in_box {sqrt : K → K} (hs : IsSqrt sqrt) (scene : Scene (Dbl K))
    (index : Nat) (C : Vec3 K) (r : K)
    (hC : scene.sphere_centers.getD index default = C.lift)
    (hr : scene.sphere_radii.getD index default = Dbl.fin r) (O D : Vec3 K)
    (p N : Vec3 (Dbl K))
    (hit : Dbl.ge (ray_sphere_intersection sqrt scene O.lift D.lift index p N).1
      (Dbl.fin 0) = true) :
    RayMeetsBox O D (sphere_box C r).1 (sphere_box C r).2 := by
  by_cases hD : D = ⟨0, 0, 0⟩
  · subst hD
    rw [ray_sphere_intersection_zero_direction hs scene index C r hC hr O p N] at hit
    simp at hit
  · rw [ray_sphere_intersection_lift sqrt scene index C r hC hr O D hD p N] at hit
    by_cases hdelta : sphere_delta O D C r < 0
    · rw [if_pos hdelta] at hit
      simp at hit
      linarith
    · rw [if_neg hdelta] at hit
      simp only [Dbl.ge_fin_fin, decide_eq_true_eq] at hit
      have hon := onSphere_sphere_t hs O D C r hD (not_lt.mp hdelta)
      refine ⟨sphere_t sqrt O D C r, hit, ?_⟩
      generalize sphere_t sqrt O D C r = t at hon
      unfold OnSphere at hon
      simp only [Vec3.squaredNorm] at hon
      have hx := sphere_coord_bounds _ _ _ r hon
      have hy := sphere_coord_bounds _ _ _ r
        (show (O + Vec3.smul t D - C).y * (O + Vec3.smul t D - C).y
          + (O + Vec3.smul t D - C).z * (O + Vec3.smul t D - C).z
          + (O + Vec3.smul t D - C).x * (O + Vec3.smul t D - C).x = r * r by
            linear_combination hon)
      have hz := sphere_coord_bounds _ _ _ r
        (show (O + Vec3.smul t D - C).z * (O + Vec3.smul t D - C).z
          + (O + Vec3.smul t D - C).x * (O + Vec3.smul t D - C).x
          + (O + Vec3.smul t D - C).y * (O + Vec3.smul t D - C).y = r * r by
            linear_combination hon)
      simp only [Vec3.sub_x, Vec3.sub_y, Vec3.sub_z] at hx hy hz
      simp only [sphere_box, InBox, Vec3.sub_x, Vec3.sub_y, Vec3.sub_z, Vec3.add_x,
        Vec3.add_y, Vec3.add_z]
      simp only [Vec3.add_x, Vec3.add_y, Vec3.add_z] at hx hy hz
      refine ⟨?_, ?_, ?_, ?_, ?_, ?_⟩ <;> linarith [hx.1, hx.2, hy.1, hy.2, hz.1, hz.2]

end HitsInBoxes

section ClaimC9

variable {K : Type} [LinearOrderedField K]

theorem triangle_mem_scene_primitives {α : Type} (scene : Scene α) (i : Nat) :
    Primitive.triangle i ∈ scene_primitives scene ↔ i < scene.facets.length := by
  simp [scene_primitives]

theorem sphere_mem_scene_primitives {α : Type} (scene : Scene α) (i : Nat) :
    Primitive.sphere i ∈ scene_primitives scene ↔ i < scene.sphere_centers.length := by
  simp [scene_primitives]

theorem parallelogram_mem_scene_primitives {α : Type} (scene : Scene α) (i : Nat) :
    Primitive.parallelogram i ∈ scene_primitives scene ↔ i < scene.parallelograms.length := by
  simp [scene_primitives]

/-- In a finite scene whose bounding boxes the ray misses, no primitive reports a value
`t >= 0`. -/
theorem no_hit_of_misses {sqrt : K → K} (hs : IsSqrt sqrt) (scene : Scene K) (O D : Vec3 K)
    (hmiss : RayMissesBoxes scene O D) (q : Primitive) (hq : q ∈ scene_primitives scene.lift)
    (p N : Vec3 (Dbl K)) :
    ¬ (Dbl.ge (primitive_report sqrt scene.lift O.lift D.lift q p N).1 (Dbl.fin 0) = true) := by
  obtain ⟨htri, hsph, hpg⟩ := hmiss
  intro hit
  cases q with
  | triangle i =>
    simp only [primitive_report, facet_vertices, Scene.lift, getD_map_lift] at hit
    rcases ha : scene.vertices[(scene.facets.getD i (0, 0, 0)).1]? with _ | a
    · rw [ha] at hit
      simp only [Option.map_none', Option.getD_none] at hit
      rw [ray_triangle_intersection_uninit _ _ _ _ _ _ _ _ (Or.inl rfl)] at hit
      simp at hit
      linarith
    rcases hb : scene.vertices[(scene.facets.getD i (0, 0, 0)).2.1]? with _ | b
    · rw [hb] at hit
      simp only [Option.map_none', Option.getD_none] at hit
      rw [ray_triangle_intersection_uninit _ _ _ _ _ _ _ _ (Or.inr (Or.inl rfl))] at hit
      simp at hit
      linarith
    rcases hc : scene.vertices[(scene.facets.getD i (0, 0, 0)).2.2]? with _ | c
    · rw [hc] at hit
      simp only [Option.map_none', Option.getD_none] at hit
      rw [ray_triangle_intersection_uninit _ _ _ _ _ _ _ _ (Or.inr (Or.inr rfl))] at hit
      simp at hit
      linarith
    rw [ha, hb, hc] at hit
    simp only [Option.map_some', Option.getD_some] at hit
    have hi : i < scene.facets.length :=
      (triangle_mem_scene_primitives scene.lift i).mp hq
    have hf : scene.facets[i]? = some (scene.facets.getD i (0, 0, 0)) := by
      rw [List.getD_eq_getElem?_getD, List.getElem?_eq_getElem hi]
      rfl
    exact htri i _ a b c hf ha hb hc (triangle_hit_in_box sqrt O D a b c p N hit)
  | sphere i =>
    have hi : i < scene.sphere_centers.length := by
      have := (sphere_mem_scene_primitives scene.lift i).mp hq
      simpa [Scene.lift] using this
    have hC : scene.lift.sphere_centers.getD i default = (scene.sphere_centers[i]).lift := by
      simp only [Scene.lift, getD_map_lift, List.getElem?_eq_getElem hi, Option.map_some',
        Option.getD_some]
    simp only [primitive_report] at hit
    rcases hr : scene.sphere_radii[i]? with _ | r
    · have hnan : scene.lift.sphere_radii.getD i default = Dbl.nan := by
        simp only [Scene.lift, List.getD_eq_getElem?_getD, List.getElem?_map, hr]
        rfl
      rw [ray_sphere_intersection_nan_radius sqrt _ i hnan] at hit
      simp at hit
    · have hrad : scene.lift.sphere_radii.getD i default = Dbl.fin r := by
        simp only [Scene.lift, List.getD_eq_getElem?_getD, List.getElem?_map, hr]
        rfl
      exact hsph i _ r (List.getElem?_eq_getElem hi) hr
        (sphere_hit_in_box hs _ i _ r hC hrad O D p N hit)
  | parallelogram i =>
    have hi : i < scene.parallelograms.length := by
      have := (parallelogram_mem_scene_primitives scene.lift i).mp hq
      simpa [Scene.lift] using this
    have hM : scene.lift.parallelograms.getD i default = (scene.parallelograms[i]).lift := by
      simp only [Scene.lift, List.getD_eq_getElem?_getD, List.getElem?_map,
        List.getElem?_eq_getElem hi, Option.map_some', Option.getD_some]
    simp only [primitive_report] at hit
    exact hpg _ (List.getElem_mem hi) (parallelogram_hit_in_box sqrt _ i _ hM O D p N hit)

/-- Rays that miss every bounding box, in the arithmetic without rounding: with an exact
square root, for every finite scene and every finite ray that meets the
axis-aligned bounding box of no primitive of the scene at a parameter `t >= 0` (the box of
the three vertices of each triangle, of each sphere, of the four corners of each
parallelogram), `find_nearest_object` returns false and leaves `p` and `N` untouched. -/
theorem find_nearest_object_misses (sqrt : K → K) (hs : IsSqrt sqrt) (scene : Scene K)
    (O D : Vec3 K) (hmiss : RayMissesBoxes scene O D) (p N : Vec3 (Dbl K)) :
    find_nearest_object sqrt scene.lift O.lift D.lift p N = (false, p, N) := by
  rcases find_nearest_object_cases sqrt scene.lift O.lift D.lift p N with
    ⟨-, hval⟩ | ⟨pre, q, post, hsplit, hq, -, -, -⟩
  · exact hval
  · have hqmem : q ∈ scene_primitives scene.lift := by
      rw [hsplit]
      simp
    exact absurd hq.1 (no_hit_of_misses hs scene O D hmiss q hqmem Vec3.uninit Vec3.uninit)

end ClaimC9

section ClaimC9Witness

/-- An instance of `find_nearest_object_misses`: a scene with the triangle
`(0,0,0), (1,0,0), (0,1,0)`, the sphere of centre
`(0,3,0)` and radius `1`, and the parallelogram of origin `(0,0,0)` and corners `(1,0,0)`,
`(0,1,0)`; the ray from `(0,0,5)` along `(1,0,0)` stays at height `5`, above every bounding
box, and `find_nearest_object` returns false. -/
theorem find_nearest_object_misses_witness :
    IsSqrt Real.sqrt
    ∧ RayMissesBoxes
        (⟨[⟨0, 0, 0⟩, ⟨1, 0, 0⟩, ⟨0, 1, 0⟩], [(0, 1, 2)], [⟨0, 3, 0⟩], [1],
          [⟨0, 1, 0, 0, 0, 1, 0, 0, 0⟩], [], []⟩ : Scene ℝ) ⟨0, 0, 5⟩ ⟨1, 0, 0⟩
    ∧ find_nearest_object Real.sqrt
        (Scene.lift (⟨[⟨0, 0, 0⟩, ⟨1, 0, 0⟩, ⟨0, 1, 0⟩], [(0, 1, 2)], [⟨0, 3, 0⟩], [1],
          [⟨0, 1, 0, 0, 0, 1, 0, 0, 0⟩], [], []⟩ : Scene ℝ))
        (Vec3.lift ⟨0, 0, 5⟩) (Vec3.lift ⟨1, 0, 0⟩) Vec3.uninit Vec3.uninit
      = (false, Vec3.uninit, Vec3.uninit) := by
  have hmiss : RayMissesBoxes
      (⟨[⟨0, 0, 0⟩, ⟨1, 0, 0⟩, ⟨0, 1, 0⟩], [(0, 1, 2)], [⟨0, 3, 0⟩], [1],
        [⟨0, 1, 0, 0, 0, 1, 0, 0, 0⟩], [], []⟩ : Scene ℝ) ⟨0, 0, 5⟩ ⟨1, 0, 0⟩ := by
    refine ⟨?_, ?_, ?_⟩
    · rintro i f a b c - ha hb hc ⟨t, -, hbox⟩
      have hz : ∀ (j : Nat) (v : Vec3 ℝ),
          ([⟨0, 0, 0⟩, ⟨1, 0, 0⟩, ⟨0, 1, 0⟩] : List (Vec3 ℝ))[j]? = some v → v.z = 0 := by
        intro j v hv
        have hmem := List.getElem?_mem hv
        simp only [List.mem_cons, List.mem_singleton, List.not_mem_nil, or_false] at hmem
        rcases hmem with h | h | h <;> rw [h]
      have h6 := hbox.2.2.2.2.2
      simp only [triangle_box, Vec3.cwiseMax, Vec3.add_z, Vec3.smul, hz _ a ha, hz _ b hb,
        hz _ c hc] at h6
      norm_num at h6
    · rintro i C r hC hr ⟨t, -, hbox⟩
      have hC2 := List.getElem?_mem hC
      have hr2 := List.getElem?_mem hr
      simp only [List.mem_singleton] at hC2 hr2
      subst hC2 hr2
      have h6 := hbox.2.2.2.2.2
      simp only [sphere_box, Vec3.add_z, Vec3.smul] at h6
      norm_num at h6
    · rintro M hM ⟨t, -, hbox⟩
      simp only [List.mem_singleton] at hM
      subst hM
      have h6 := hbox.2.2.2.2.2
      simp only [parallelogram_box, Vec3.cwiseMax, Vec3.add_z, Vec3.sub_z, Vec3.smul,
        Mat3.col0, Mat3.col1, Mat3.col2] at h6
      norm_num at h6
  exact ⟨real_isSqrt, hmiss,
    find_nearest_object_misses Real.sqrt real_isSqrt _ ⟨0, 0, 5⟩ ⟨1, 0, 0⟩ hmiss
      Vec3.uninit Vec3.uninit⟩

end ClaimC9Witness

section ClaimC10

variable {K : Type} [LinearOrderedField K]

/-- C10: for every ray and every bounce count, when `find_nearest_object` reports no hit for
the ray, `shoot_ray` returns the colour `(0, 0, 0, 0)`; it does so whatever the lights of the
scene are and with no nested call of `shoot_ray` (one level of calls suffices). -/
theorem shoot_ray_no_hit (sqrt : K → K) (scene : Scene (Dbl K)) (O D : Vec3 (Dbl K))
    (max_bounce : Int) (fuel : Nat)
    (hmiss : (find_nearest_object sqrt scene O D Vec3.uninit Vec3.uninit).1 = false) :
    shoot_ray sqrt scene (fuel + 1) O D max_bounce
      = some ⟨Dbl.fin 0, Dbl.fin 0, Dbl.fin 0, Dbl.fin 0⟩ := by
  unfold shoot_ray
  simp only [hmiss, Bool.not_false, if_true]

/-- Witness of C10: in the scene with one light and no primitive, the ray from `(0,0,2)`
along `(0,0,-1)` hits nothing and `shoot_ray` returns `(0, 0, 0, 0)` at bounce count `5`. -/
theorem shoot_ray_no_hit_witness :
    (find_nearest_object Real.sqrt
        (⟨[], [], [], [], [], [Vec3.lift ⟨8, 8, 0⟩], [Vec4.lift ⟨16, 16, 16, 0⟩]⟩ :
          Scene (Dbl ℝ))
        (Vec3.lift ⟨0, 0, 2⟩) (Vec3.lift ⟨0, 0, -1⟩) Vec3.uninit Vec3.uninit).1 = false
    ∧ shoot_ray Real.sqrt
        (⟨[], [], [], [], [], [Vec3.lift ⟨8, 8, 0⟩], [Vec4.lift ⟨16, 16, 16, 0⟩]⟩ :
          Scene (Dbl ℝ))
        (0 + 1) (Vec3.lift ⟨0, 0, 2⟩) (Vec3.lift ⟨0, 0, -1⟩) 5
      = some ⟨Dbl.fin 0, Dbl.fin 0, Dbl.fin 0, Dbl.fin 0⟩ :=
  have hmiss : (find_nearest_object Real.sqrt
      (⟨[], [], [], [], [], [Vec3.lift ⟨8, 8, 0⟩], [Vec4.lift ⟨16, 16, 16, 0⟩]⟩ :
        Scene (Dbl ℝ))
      (Vec3.lift ⟨0, 0, 2⟩) (Vec3.lift ⟨0, 0, -1⟩) Vec3.uninit Vec3.uninit).1 = false := by
    simp [find_nearest_object, find_nearest_state]
  ⟨hmiss, shoot_ray_no_hit Real.sqrt _ _ _ 5 0 hmiss⟩

end ClaimC10

section BoundingBoxOfTriangle

variable {K : Type} [LinearOrderedField K]

theorem min_fin_fin (a b : K) :
    (Min.min (Dbl.fin a) (Dbl.fin b) : Dbl K) = Dbl.fin (Min.min a b) := by
  show Dbl.min (Dbl.fin a) (Dbl.fin b) = _
  unfold Dbl.min
  by_cases h : b < a
  · simp [h, min_eq_right h.le]
  · simp [h, min_eq_left (not_lt.mp h)]

theorem max_fin_fin (a b : K) :
    (Max.max (Dbl.fin a) (Dbl.fin b) : Dbl K) = Dbl.fin (Max.max a b) := by
  show Dbl.max (Dbl.fin a) (Dbl.fin b) = _
  unfold Dbl.max
  by_cases h : a < b
  · simp [h, max_eq_right h.le]
  · simp [h, max_eq_left (not_lt.mp h)]

/-- On finite vertices in the range of the doubles, `bbox_from_triangle` returns the box
whose corners are the componentwise minimum and maximum of the three vertices. -/
theorem bbox_from_triangle_lift (a b c : Vec3 K) (ha : a.InDoubleRange) :
    bbox_from_triangle a.lift b.lift c.lift
      = ⟨(triangle_box a b c).1.lift, (triangle_box a b c).2.lift⟩ := by
  obtain ⟨⟨hx1, hx2⟩, ⟨hy1, hy2⟩, ⟨hz1, hz2⟩⟩ := ha
  simp only [bbox_from_triangle, AlignedBox3d.extend, AlignedBox3d.empty, Vec3.cwiseMin,
    Vec3.cwiseMax, Vec3.lift, Dbl.DBL_MAX, Dbl.neg_fin, min_fin_fin, max_fin_fin,
    triangle_box, min_eq_right hx2, min_eq_right hy2, min_eq_right hz2, max_eq_right hx1,
    max_eq_right hy1, max_eq_right hz1, min_assoc, max_assoc]

end BoundingBoxOfTriangle

section ShootRayEquations

variable {K : Type} [LinearOrderedField K]

/-- The body of `shoot_ray` when `find_nearest_object` reports a hit and the bounce count is
not `0`: the colour of the nested call along the reflection direction is composed with the
ambient and light terms. -/
theorem shoot_ray_hit_bounce (sqrt : K → K) (scene : Scene (Dbl K)) (fuel : Nat)
    (O D : Vec3 (Dbl K)) (max_bounce : Int)
    (hhit : (find_nearest_object sqrt scene O D Vec3.uninit Vec3.uninit).1 = true)
    (hb : max_bounce ≠ 0) :
    shoot_ray sqrt scene (fuel + 1) O D max_bounce
      = (shoot_ray sqrt scene fuel
          ((find_nearest_object sqrt scene O D Vec3.uninit Vec3.uninit).2.1
            + Vec3.smul (Dbl.fin (1 / 100000))
                (reflection_direction sqrt
                  (find_nearest_object sqrt scene O D Vec3.uninit Vec3.uninit).2.2 D))
          (reflection_direction sqrt
            (find_nearest_object sqrt scene O D Vec3.uninit Vec3.uninit).2.2 D)
          max_bounce).map
        (fun colors => compose_color ambient_color
          (lights_color sqrt scene D
            (find_nearest_object sqrt scene O D Vec3.uninit Vec3.uninit).2.1
            (find_nearest_object sqrt scene O D Vec3.uninit Vec3.uninit).2.2)
          ((obj_reflection_color : Vec4 (Dbl K)).cwiseProduct colors)) := by
  have hcond : (decide (max_bounce < 0) || decide (max_bounce > 0)) = true := by
    rcases lt_or_gt_of_ne hb with h | h
    · simp [h]
    · simp [h]
  rw [shoot_ray]
  simp only [hhit, Bool.not_true, Bool.false_eq_true, if_false, hcond, if_true]
  unfold reflection_direction view_direction lights_color ambient_color
  split <;> rename_i h <;> rw [h] <;> rfl

/-- The body of `shoot_ray` when `find_nearest_object` reports a hit and the bounce count is
`0`: no nested call is made and the initial `reflection_color` is composed as it is. -/
theorem shoot_ray_hit_no_bounce (sqrt : K → K) (scene : Scene (Dbl K)) (fuel : Nat)
    (O D : Vec3 (Dbl K))
    (hhit : (find_nearest_object sqrt scene O D Vec3.uninit Vec3.uninit).1 = true) :
    shoot_ray sqrt scene (fuel + 1) O D 0
      = some (compose_color ambient_color
          (lights_color sqrt scene D
            (find_nearest_object sqrt scene O D Vec3.uninit Vec3.uninit).2.1
            (find_nearest_object sqrt scene O D Vec3.uninit Vec3.uninit).2.2)
          initial_reflection_color) := by
  rw [shoot_ray]
  simp only [hhit, Bool.not_true, Bool.false_eq_true, if_false]
  rfl

/-- The body of `shoot_ray` when `find_nearest_object` reports no hit. -/
theorem shoot_ray_miss (sqrt : K → K) (scene : Scene (Dbl K)) (fuel : Nat)
    (O D : Vec3 (Dbl K)) (max_bounce : Int)
    (hmiss : (find_nearest_object sqrt scene O D Vec3.uninit Vec3.uninit).1 = false) :
    shoot_ray sqrt scene (fuel + 1) O D max_bounce
      = some ⟨Dbl.fin 0, Dbl.fin 0, Dbl.fin 0, Dbl.fin 0⟩ := by
  rw [shoot_ray]
  simp only [hmiss, Bool.not_false, if_true]

end ShootRayEquations

section ClaimsShadowTreeBox

variable {K : Type} [LinearOrderedField K]

/-- C13: `is_light_visible` returns false exactly when `find_nearest_object` reports a hit
for the shadow ray, whatever the distance of the hit; its result does not depend on the
`light_position` argument; and the iteration of the loop of `shoot_ray` over a light for
which it returns false leaves `lights_color` as it was: that light adds neither a diffuse nor
a specular contribution. -/
theorem is_light_visible_spec (sqrt : K → K) (scene : Scene (Dbl K))
    (ray_origin ray_direction light_position : Vec3 (Dbl K)) :
    (is_light_visible sqrt scene ray_origin ray_direction light_position = false
      ↔ (find_nearest_object sqrt scene ray_origin ray_direction Vec3.uninit Vec3.uninit).1
          = true)
    ∧ (∀ other_position : Vec3 (Dbl K),
        is_light_visible sqrt scene ray_origin ray_direction other_position
          = is_light_visible sqrt scene ray_origin ray_direction light_position)
    ∧ (∀ (view p N : Vec3 (Dbl K)) (lights : Vec4 (Dbl K)) (i : Nat),
        is_light_visible sqrt scene
            (p + Vec3.smul (Dbl.fin (1 / 10000))
              ((scene.light_positions.getD i default - p).normalized sqrt))
            ((scene.light_positions.getD i default - p).normalized sqrt)
            (scene.light_positions.getD i default) = false →
        light_step sqrt scene view p N lights i = lights) := by
  refine ⟨?_, fun _ => rfl, ?_⟩
  · unfold is_light_visible
    cases (find_nearest_object sqrt scene ray_origin ray_direction Vec3.uninit Vec3.uninit).1
      <;> simp
  · intro view p N lights i hocc
    unfold light_step
    simp only [hocc, beq_self_eq_true, if_true]

/-- Witness of C13: in the scene whose only primitive is the parallelogram of origin
`(0,0,0)` and corners `(1,0,0)`, `(0,1,0)`, the light at `(1/4, 1/4, -3)` is occluded for the
point `(1/4, 1/4, 1)`, and the iteration of the loop for this light adds nothing. -/
theorem is_light_visible_spec_witness :
    is_light_visible Real.sqrt
        (⟨[], [], [], [], [Mat3.lift (⟨0, 1, 0, 0, 0, 1, 0, 0, 0⟩ : Mat3 ℝ)],
          [Vec3.lift ⟨1 / 4, 1 / 4, -3⟩], [Vec4.lift ⟨16, 16, 16, 0⟩]⟩ : Scene (Dbl ℝ))
        (Vec3.lift ⟨1 / 4, 1 / 4, 1⟩) (Vec3.lift ⟨0, 0, -1⟩) (Vec3.lift ⟨1 / 4, 1 / 4, -3⟩)
      = false := by
  have hhit : (find_nearest_object Real.sqrt
      (⟨[], [], [], [], [Mat3.lift (⟨0, 1, 0, 0, 0, 1, 0, 0, 0⟩ : Mat3 ℝ)],
        [Vec3.lift ⟨1 / 4, 1 / 4, -3⟩], [Vec4.lift ⟨16, 16, 16, 0⟩]⟩ : Scene (Dbl ℝ))
      (Vec3.lift ⟨1 / 4, 1 / 4, 1⟩) (Vec3.lift ⟨0, 0, -1⟩) Vec3.uninit Vec3.uninit).1
      = true := by
    norm_num [find_nearest_object, find_nearest_state, parallelogram_step,
      NearestState.record, ray_parallelogram_intersection, scale_matrix, Mat3.det,
      Mat3.inverse, Mat3.mulVec, Mat3.col0, Mat3.col1, Mat3.col2, Mat3.lift, Vec3.lift,
      Dbl.one_div_fin, Dbl.DBL_MAX, List.range, List.range.loop]
  exact (is_light_visible_spec Real.sqrt _ _ _ _).1.mpr hhit

end ClaimsShadowTreeBox

section ClaimsTreeAndBox

variable {K : Type} [LinearOrderedField K]

/-- C14 (defect of the code): for every mesh, with one triangle or more, the tree that the
constructor `AABBTree(V, F)` builds has no node at all and `root` was never written: it has
no leaf, and no node holds triangle `0`. -/
theorem aabbtree_has_no_node (V : List (Vec3 (Dbl K))) (F : List (Nat × Nat × Nat)) :
    (AABBTree.build V F).nodes = []
    ∧ (AABBTree.build V F).root = none
    ∧ (AABBTree.build V F).nodes.length ≠ 1
    ∧ ¬ (∃ node ∈ (AABBTree.build V F).nodes, node.IsLeaf ∧ node.triangle = 0) := by
  refine ⟨rfl, rfl, ?_, ?_⟩
  · simp [AABBTree.build]
  · simp [AABBTree.build]

/-- C15 (defect of the code): the origin `(1/2, 1/2, 1/2)` of the ray lies inside the box of
corners `(0,0,0)` and `(1,1,1)`, so the ray meets the box at `t = 0` and the slab test
succeeds; `ray_box_intersection` returns false, as it does on every input. -/
theorem ray_box_intersection_from_inside :
    InBox (⟨0, 0, 0⟩ : Vec3 ℝ) ⟨1, 1, 1⟩ ⟨1 / 2, 1 / 2, 1 / 2⟩
    ∧ RayMeetsBox (⟨1 / 2, 1 / 2, 1 / 2⟩ : Vec3 ℝ) ⟨0, 0, -1⟩ ⟨0, 0, 0⟩ ⟨1, 1, 1⟩
    ∧ ray_box_intersection (Vec3.lift (⟨1 / 2, 1 / 2, 1 / 2⟩ : Vec3 ℝ)) (Vec3.lift ⟨0, 0, -1⟩)
        ⟨Vec3.lift ⟨0, 0, 0⟩, Vec3.lift ⟨1, 1, 1⟩⟩ = false
    ∧ (∀ (O D : Vec3 (Dbl ℝ)) (box : AlignedBox3d ℝ), ray_box_intersection O D box = false) := by
  refine ⟨?_, ⟨0, le_refl 0, ?_⟩, rfl, fun _ _ _ => rfl⟩
  · norm_num [InBox]
  · norm_num [InBox, Vec3.smul]

end ClaimsTreeAndBox

section ClaimC17

variable {K : Type} [LinearOrderedField K]

/-- Twice the product of the vector from the centre to the returned point with the ray
direction is minus the square root of the discriminant. -/
theorem sphere_t_dot (sqrt : K → K) (O D C : Vec3 K) (r : K) (hD : D ≠ ⟨0, 0, 0⟩) :
    2 * (O + Vec3.smul (sphere_t sqrt O D C r) D - C).dot D
      = -sqrt (sphere_delta O D C r) := by
  have ha := squaredNorm_pos hD
  have ht : 2 * D.squaredNorm * sphere_t sqrt O D C r
      = -2 * (O - C).dot D - sqrt (sphere_delta O D C r) := by
    unfold sphere_t
    field_simp
  generalize sphere_t sqrt O D C r = t at ht
  simp only [Vec3.dot, Vec3.squaredNorm, Vec3.smul, Vec3.add_x, Vec3.add_y, Vec3.add_z,
    Vec3.sub_x, Vec3.sub_y, Vec3.sub_z] at ht ⊢
  linear_combination ht

/-- C17: with an exact square root, for a finite sphere of radius `r > 0` and a finite ray
with a direction that is not zero, when `ray_sphere_intersection` does not take its
`delta < 0` branch, the point `p` it writes lies on the sphere, the normal `N` it writes is
`(p - C) / r`, of unit length, and `N . ray_direction <= 0`. -/
theorem ray_sphere_intersection_point_and_normal (sqrt : K → K) (hs : IsSqrt sqrt)
    (scene : Scene (Dbl K)) (index : Nat) (C : Vec3 K) (r : K)
    (hC : scene.sphere_centers.getD index default = C.lift)
    (hr : scene.sphere_radii.getD index default = Dbl.fin r)
    (O D : Vec3 K) (hD : D ≠ ⟨0, 0, 0⟩) (hrpos : 0 < r) (p N : Vec3 (Dbl K))
    (hbranch : Dbl.lt (sphere_discriminant O.lift D.lift C.lift (Dbl.fin r)) (Dbl.fin 0)
      = false) :
    ∃ P n : Vec3 K,
      (ray_sphere_intersection sqrt scene O.lift D.lift index p N).2.1 = P.lift
      ∧ (ray_sphere_intersection sqrt scene O.lift D.lift index p N).2.2 = n.lift
      ∧ (P - C).squaredNorm = r * r
      ∧ n = (P - C).divs r
      ∧ n.squaredNorm = 1
      ∧ n.dot D ≤ 0 := by
  rw [sphere_discriminant_lift] at hbranch
  simp only [Dbl.lt_fin_fin, decide_eq_false_iff_not] at hbranch
  have hval := ray_sphere_intersection_lift sqrt scene index C r hC hr O D hD p N
  rw [if_neg hbranch] at hval
  have hon := onSphere_sphere_t hs O D C r hD (not_lt.mp hbranch)
  have hdot := sphere_t_dot sqrt O D C r hD
  have hs0 := (hs _ (not_lt.mp hbranch)).1
  unfold OnSphere at hon
  generalize sphere_t sqrt O D C r = t at hval hon hdot
  have hpos : 0 < (O + Vec3.smul t D - C).squaredNorm := by
    rw [hon]
    positivity
  rw [normalized_lift hs _ hpos, hon, hs.sqrt_mul_self hrpos.le] at hval
  refine ⟨O + Vec3.smul t D, (O + Vec3.smul t D - C).divs r, ?_, ?_, hon, rfl, ?_, ?_⟩
  · rw [hval]
  · rw [hval]
  · have hr0 : r ≠ 0 := hrpos.ne'
    generalize O + Vec3.smul t D - C = w at hon
    simp only [Vec3.squaredNorm, Vec3.divs] at hon ⊢
    field_simp
    linear_combination hon
  · have hr0 : r ≠ 0 := hrpos.ne'
    have hkey : ((O + Vec3.smul t D - C).divs r).dot D
        = (O + Vec3.smul t D - C).dot D / r := by
      simp only [Vec3.dot, Vec3.divs]
      field_simp
    rw [hkey]
    apply div_nonpos_of_nonpos_of_nonneg _ hrpos.le
    linarith

/-- Witness of C17: the sphere of radius `2` around the origin and the ray from its centre
along `(1, 0, 0)`; the discriminant is `16`, the branch `delta < 0` is not taken. -/
theorem ray_sphere_intersection_point_and_normal_witness :
    IsSqrt Real.sqrt ∧ (⟨1, 0, 0⟩ : Vec3 ℝ) ≠ ⟨0, 0, 0⟩ ∧ (0 : ℝ) < 2
    ∧ Dbl.lt (sphere_discriminant (Vec3.lift (⟨0, 0, 0⟩ : Vec3 ℝ)) (Vec3.lift ⟨1, 0, 0⟩)
        (Vec3.lift ⟨0, 0, 0⟩) (Dbl.fin 2)) (Dbl.fin 0) = false
    ∧ ∃ P n : Vec3 ℝ,
      (ray_sphere_intersection Real.sqrt
        (⟨[], [], [Vec3.lift (⟨0, 0, 0⟩ : Vec3 ℝ)], [Dbl.fin 2], [], [], []⟩ : Scene (Dbl ℝ))
        (Vec3.lift ⟨0, 0, 0⟩) (Vec3.lift ⟨1, 0, 0⟩) 0 Vec3.uninit Vec3.uninit).2.1 = P.lift
      ∧ (ray_sphere_intersection Real.sqrt
        (⟨[], [], [Vec3.lift (⟨0, 0, 0⟩ : Vec3 ℝ)], [Dbl.fin 2], [], [], []⟩ : Scene (Dbl ℝ))
        (Vec3.lift ⟨0, 0, 0⟩) (Vec3.lift ⟨1, 0, 0⟩) 0 Vec3.uninit Vec3.uninit).2.2 = n.lift
      ∧ (P - ⟨0, 0, 0⟩).squaredNorm = 2 * 2
      ∧ n = (P - ⟨0, 0, 0⟩).divs 2
      ∧ n.squaredNorm = 1
      ∧ n.dot ⟨1, 0, 0⟩ ≤ 0 := by
  have hne : (⟨1, 0, 0⟩ : Vec3 ℝ) ≠ ⟨0, 0, 0⟩ := by simp
  have h2 : (0 : ℝ) < 2 := by norm_num
  have hbranch : Dbl.lt (sphere_discriminant (Vec3.lift (⟨0, 0, 0⟩ : Vec3 ℝ))
      (Vec3.lift ⟨1, 0, 0⟩) (Vec3.lift ⟨0, 0, 0⟩) (Dbl.fin 2)) (Dbl.fin 0) = false := by
    rw [sphere_discriminant_lift]
    norm_num [sphere_delta, Vec3.dot, Vec3.squaredNorm]
  exact ⟨real_isSqrt, hne, h2, hbranch,
    ray_sphere_intersection_point_and_normal Real.sqrt real_isSqrt
      (⟨[], [], [Vec3.lift (⟨0, 0, 0⟩ : Vec3 ℝ)], [Dbl.fin 2], [], [], []⟩ : Scene (Dbl ℝ))
      0 ⟨0, 0, 0⟩ 2 rfl rfl ⟨0, 0, 0⟩ ⟨1, 0, 0⟩ hne h2 Vec3.uninit Vec3.uninit hbranch⟩

end ClaimC17

section ClaimC18

variable {K : Type} [LinearOrderedField K]

/-- The local `v` of `shoot_ray` on a finite ray direction that is not zero. -/
theorem view_direction_lift {sqrt : K → K} (hs : IsSqrt sqrt) (D : Vec3 K)
    (hD : D ≠ ⟨0, 0, 0⟩) :
    view_direction sqrt D.lift
      = (Vec3.smul (-1) (D.divs (sqrt D.squaredNorm))).lift := by
  unfold view_direction
  rw [normalized_lift hs D (squaredNorm_pos hD), Vec3.smul_lift]

/-- The local `reflection_direction` of `shoot_ray` on a finite normal and a finite ray
direction that is not zero. -/
theorem reflection_direction_lift {sqrt : K → K} (hs : IsSqrt sqrt) (n D : Vec3 K)
    (hD : D ≠ ⟨0, 0, 0⟩) :
    reflection_direction sqrt n.lift D.lift
      = ((Vec3.smul 2 n).muls (n.dot (Vec3.smul (-1) (D.divs (sqrt D.squaredNorm))))
          - Vec3.smul (-1) (D.divs (sqrt D.squaredNorm))).lift := by
  unfold reflection_direction
  rw [view_direction_lift hs D hD, Vec3.smul_lift, Vec3.dot_lift, Vec3.muls_lift,
    Vec3.lift_sub]

/-- C18: with an exact square root, for every finite unit normal `n` and every finite ray
direction `D` that is not zero, the vectors `v = -D / |D|` and `R = 2 n (n . v) - v` that
`shoot_ray` computes satisfy `|R| = 1`, `R . n = v . n = -(D . n) / |D|`, and the reflection
of `R` about `n` is `v` again, also as the code computes it for the incoming direction
`-R`. -/
theorem reflection_direction_mirror (sqrt : K → K) (hs : IsSqrt sqrt) (n D : Vec3 K)
    (hn : n.squaredNorm = 1) (hD : D ≠ ⟨0, 0, 0⟩) :
    ∃ R v : Vec3 K,
      view_direction sqrt D.lift = v.lift
      ∧ v = Vec3.smul (-1) (D.divs (sqrt D.squaredNorm))
      ∧ reflection_direction sqrt n.lift D.lift = R.lift
      ∧ R = (Vec3.smul 2 n).muls (n.dot v) - v
      ∧ R.squaredNorm = 1
      ∧ R.dot n = v.dot n
      ∧ v.dot n = -(D.dot n) / sqrt D.squaredNorm
      ∧ (Vec3.smul 2 n).muls (n.dot R) - R = v
      ∧ reflection_direction sqrt n.lift (-R).lift = v.lift := by
  have ha := squaredNorm_pos hD
  have hspos := hs.pos ha
  have hssq := (hs _ ha.le).2
  have hvn : (Vec3.smul (-1) (D.divs (sqrt D.squaredNorm))).squaredNorm = 1 := by
    generalize sqrt D.squaredNorm = s at hspos hssq
    simp only [Vec3.squaredNorm, Vec3.smul, Vec3.divs] at hssq ⊢
    field_simp
    linear_combination -hssq
  have hvdot : (Vec3.smul (-1) (D.divs (sqrt D.squaredNorm))).dot n
      = -(D.dot n) / sqrt D.squaredNorm := by
    generalize sqrt D.squaredNorm = s at hspos
    simp only [Vec3.dot, Vec3.smul, Vec3.divs]
    field_simp
    ring
  generalize hv : Vec3.smul (-1) (D.divs (sqrt D.squaredNorm)) = v at hvn hvdot
  have hRn : ((Vec3.smul 2 n).muls (n.dot v) - v).squaredNorm = 1 := by
    simp only [Vec3.squaredNorm, Vec3.dot, Vec3.smul, Vec3.muls, Vec3.sub_x, Vec3.sub_y,
      Vec3.sub_z] at hn hvn ⊢
    linear_combination (4 * (n.x * v.x + n.y * v.y + n.z * v.z) ^ 2) * hn + hvn
  have hRdot : ((Vec3.smul 2 n).muls (n.dot v) - v).dot n = v.dot n := by
    simp only [Vec3.squaredNorm, Vec3.dot, Vec3.smul, Vec3.muls, Vec3.sub_x, Vec3.sub_y,
      Vec3.sub_z] at hn ⊢
    linear_combination (2 * (n.x * v.x + n.y * v.y + n.z * v.z)) * hn
  have htwice : (Vec3.smul 2 n).muls (n.dot ((Vec3.smul 2 n).muls (n.dot v) - v))
      - ((Vec3.smul 2 n).muls (n.dot v) - v) = v := by
    simp only [Vec3.squaredNorm] at hn
    ext
    · simp only [Vec3.dot, Vec3.smul, Vec3.muls, Vec3.sub_x, Vec3.sub_y, Vec3.sub_z]
      linear_combination (4 * n.x * (n.x * v.x + n.y * v.y + n.z * v.z)) * hn
    · simp only [Vec3.dot, Vec3.smul, Vec3.muls, Vec3.sub_x, Vec3.sub_y, Vec3.sub_z]
      linear_combination (4 * n.y * (n.x * v.x + n.y * v.y + n.z * v.z)) * hn
    · simp only [Vec3.dot, Vec3.smul, Vec3.muls, Vec3.sub_x, Vec3.sub_y, Vec3.sub_z]
      linear_combination (4 * n.z * (n.x * v.x + n.y * v.y + n.z * v.z)) * hn
  have hs1 : sqrt 1 = 1 := by
    have := hs.sqrt_mul_self (zero_le_one (α := K))
    simpa using this
  have hnegn : (-((Vec3.smul 2 n).muls (n.dot v) - v)).squaredNorm = 1 := by
    rw [← hRn]
    simp only [Vec3.squaredNorm, Vec3.neg_x, Vec3.neg_y, Vec3.neg_z]
    ring
  have hneg0 : -((Vec3.smul 2 n).muls (n.dot v) - v) ≠ ⟨0, 0, 0⟩ := by
    intro h
    rw [h] at hnegn
    simp [Vec3.squaredNorm] at hnegn
  have hback : Vec3.smul (-1) ((-((Vec3.smul 2 n).muls (n.dot v) - v)).divs 1)
      = (Vec3.smul 2 n).muls (n.dot v) - v := by
    ext <;> simp [Vec3.smul, Vec3.divs]
  refine ⟨(Vec3.smul 2 n).muls (n.dot v) - v, v, ?_, rfl, ?_, rfl, hRn, hRdot, hvdot,
    htwice, ?_⟩
  · rw [view_direction_lift hs D hD, hv]
  · rw [reflection_direction_lift hs n D hD, hv]
  · rw [reflection_direction_lift hs n _ hneg0, hnegn, hs1, hback, htwice]

/-- Witness of C18: the unit normal `(0, 0, 1)` and the ray direction `(0, 0, -2)`. -/
theorem reflection_direction_mirror_witness :
    IsSqrt Real.sqrt ∧ (⟨0, 0, 1⟩ : Vec3 ℝ).squaredNorm = 1
    ∧ (⟨0, 0, -2⟩ : Vec3 ℝ) ≠ ⟨0, 0, 0⟩
    ∧ ∃ R v : Vec3 ℝ,
      view_direction Real.sqrt (Vec3.lift (⟨0, 0, -2⟩ : Vec3 ℝ)) = v.lift
      ∧ v = Vec3.smul (-1) ((⟨0, 0, -2⟩ : Vec3 ℝ).divs
          (Real.sqrt (⟨0, 0, -2⟩ : Vec3 ℝ).squaredNorm))
      ∧ reflection_direction Real.sqrt (Vec3.lift (⟨0, 0, 1⟩ : Vec3 ℝ))
          (Vec3.lift ⟨0, 0, -2⟩) = R.lift
      ∧ R = (Vec3.smul 2 (⟨0, 0, 1⟩ : Vec3 ℝ)).muls ((⟨0, 0, 1⟩ : Vec3 ℝ).dot v) - v
      ∧ R.squaredNorm = 1
      ∧ R.dot ⟨0, 0, 1⟩ = v.dot ⟨0, 0, 1⟩
      ∧ v.dot ⟨0, 0, 1⟩ = -((⟨0, 0, -2⟩ : Vec3 ℝ).dot ⟨0, 0, 1⟩)
          / Real.sqrt (⟨0, 0, -2⟩ : Vec3 ℝ).squaredNorm
      ∧ (Vec3.smul 2 (⟨0, 0, 1⟩ : Vec3 ℝ)).muls ((⟨0, 0, 1⟩ : Vec3 ℝ).dot R) - R = v
      ∧ reflection_direction Real.sqrt (Vec3.lift (⟨0, 0, 1⟩ : Vec3 ℝ)) (-R).lift = v.lift := by
  have hn : (⟨0, 0, 1⟩ : Vec3 ℝ).squaredNorm = 1 := by norm_num [Vec3.squaredNorm]
  have hD : (⟨0, 0, -2⟩ : Vec3 ℝ) ≠ ⟨0, 0, 0⟩ := by simp
  exact ⟨real_isSqrt, hn, hD,
    reflection_direction_mirror Real.sqrt real_isSqrt ⟨0, 0, 1⟩ ⟨0, 0, -2⟩ hn hD⟩

end ClaimC18

section ClaimC11

variable {K : Type} [LinearOrderedField K]

/-- With no light, the loop over the lights leaves `lights_color` at zero. -/
theorem lights_color_no_light (sqrt : K → K) (scene : Scene (Dbl K))
    (hlights : scene.light_positions = []) (view p N : Vec3 (Dbl K)) :
    lights_color sqrt scene view p N = ⟨Dbl.fin 0, Dbl.fin 0, Dbl.fin 0, Dbl.fin 0⟩ := by
  unfold lights_color
  rw [hlights]
  rfl

/-- The colour composed from the ambient term, no light and the initial `reflection_color`. -/
theorem compose_ambient_initial :
    compose_color (ambient_color : Vec4 (Dbl K)) ⟨Dbl.fin 0, Dbl.fin 0, Dbl.fin 0, Dbl.fin 0⟩
        initial_reflection_color
      = ⟨Dbl.fin (1 / 10), Dbl.fin (1 / 5), Dbl.fin (1 / 10), Dbl.fin 1⟩ := by
  have hadd : ∀ a b : Vec4 (Dbl K), a + b = Vec4.add a b := fun _ _ => rfl
  simp only [compose_color, ambient_color, initial_reflection_color, obj_ambient_color,
    ambient_light, Vec4.cwiseProduct, hadd, Vec4.add, Dbl.fin_mul_fin, Dbl.fin_add_fin]
  norm_num

/-- Counterexample to C11: the scene has no light and one parallelogram, of origin `(0,0,0)`
and corners `(1,0,0)`, `(0,1,0)`; the ray from `(1/4, 1/4, 1)` along `(0, 0, -1)` hits it.
With bounce count `0`, `shoot_ray` returns `(0.1, 0.2, 0.1, 1)`: the ambient contribution
`(0, 0.1, 0)` plus the initial value `0.1` of `reflection_color` in each channel. -/
theorem shoot_ray_adds_initial_reflection :
    (ambient_color : Vec4 (Dbl ℝ)) = ⟨Dbl.fin 0, Dbl.fin (1 / 10), Dbl.fin 0, Dbl.fin 0⟩
    ∧ shoot_ray Real.sqrt
        (⟨[], [], [], [], [Mat3.lift (⟨0, 1, 0, 0, 0, 1, 0, 0, 0⟩ : Mat3 ℝ)], [], []⟩ :
          Scene (Dbl ℝ))
        1 (Vec3.lift ⟨1 / 4, 1 / 4, 1⟩) (Vec3.lift ⟨0, 0, -1⟩) 0
      = some ⟨Dbl.fin (1 / 10), Dbl.fin (1 / 5), Dbl.fin (1 / 10), Dbl.fin 1⟩
    ∧ shoot_ray Real.sqrt
        (⟨[], [], [], [], [Mat3.lift (⟨0, 1, 0, 0, 0, 1, 0, 0, 0⟩ : Mat3 ℝ)], [], []⟩ :
          Scene (Dbl ℝ))
        1 (Vec3.lift ⟨1 / 4, 1 / 4, 1⟩) (Vec3.lift ⟨0, 0, -1⟩) 0
      ≠ some ⟨Dbl.fin 0, Dbl.fin (1 / 10), Dbl.fin 0, Dbl.fin 1⟩ := by
  have hhit : (find_nearest_object Real.sqrt
      (⟨[], [], [], [], [Mat3.lift (⟨0, 1, 0, 0, 0, 1, 0, 0, 0⟩ : Mat3 ℝ)], [], []⟩ :
        Scene (Dbl ℝ))
      (Vec3.lift ⟨1 / 4, 1 / 4, 1⟩) (Vec3.lift ⟨0, 0, -1⟩) Vec3.uninit Vec3.uninit).1
      = true := by
    norm_num [find_nearest_object, find_nearest_state, parallelogram_step,
      NearestState.record, ray_parallelogram_intersection, scale_matrix, Mat3.det,
      Mat3.inverse, Mat3.mulVec, Mat3.col0, Mat3.col1, Mat3.col2, Mat3.lift, Vec3.lift,
      Dbl.one_div_fin, Dbl.DBL_MAX, List.range, List.range.loop]
  have hval := shoot_ray_hit_no_bounce Real.sqrt _ 0 _ _ hhit
  rw [lights_color_no_light Real.sqrt _ rfl, compose_ambient_initial] at hval
  refine ⟨?_, hval, ?_⟩
  · have hmul : ∀ a b : ℝ, (Dbl.fin a * Dbl.fin b : Dbl ℝ) = Dbl.fin (a * b) := fun _ _ => rfl
    simp only [ambient_color, obj_ambient_color, ambient_light, Vec4.cwiseProduct, hmul]
    norm_num
  · rw [hval]
    simp only [ne_eq, Option.some.injEq, Vec4.mk.injEq, Dbl.fin.injEq]
    norm_num

/-- C11, amended: for every scene with an empty light list and every ray that hits some
primitive, `shoot_ray` called with bounce count `0` returns the ambient contribution
`obj_ambient_color * ambient_light = (0, 0.1, 0)` plus the initial value `(0.1, 0.1, 0.1)` of
`reflection_color` in the RGB channels, that is `(0.1, 0.2, 0.1)`, with the alpha channel
equal to `1`. -/
theorem shoot_ray_no_light_no_bounce (sqrt : K → K) (scene : Scene (Dbl K))
    (O D : Vec3 (Dbl K)) (fuel : Nat) (hlights : scene.light_positions = [])
    (hhit : (find_nearest_object sqrt scene O D Vec3.uninit Vec3.uninit).1 = true) :
    shoot_ray sqrt scene (fuel + 1) O D 0
      = some (compose_color ambient_color ⟨Dbl.fin 0, Dbl.fin 0, Dbl.fin 0, Dbl.fin 0⟩
          initial_reflection_color)
    ∧ shoot_ray sqrt scene (fuel + 1) O D 0
      = some ⟨Dbl.fin (1 / 10), Dbl.fin (1 / 5), Dbl.fin (1 / 10), Dbl.fin 1⟩ := by
  have hval := shoot_ray_hit_no_bounce sqrt scene fuel O D hhit
  rw [lights_color_no_light sqrt scene hlights] at hval
  refine ⟨hval, ?_⟩
  rw [hval, compose_ambient_initial]

/-- Witness of C11, amended: the mesh with the one triangle `(0,0,0), (1,0,0), (0,1,0)` and no
light; the ray from `(1/4, 1/4, 1)` along `(0, 0, -1)` hits it. -/
theorem shoot_ray_no_light_no_bounce_witness :
    (⟨[Vec3.lift (⟨0, 0, 0⟩ : Vec3 ℝ), Vec3.lift ⟨1, 0, 0⟩, Vec3.lift ⟨0, 1, 0⟩],
        [(0, 1, 2)], [], [], [], [], []⟩ : Scene (Dbl ℝ)).light_positions = []
    ∧ (find_nearest_object Real.sqrt
        (⟨[Vec3.lift (⟨0, 0, 0⟩ : Vec3 ℝ), Vec3.lift ⟨1, 0, 0⟩, Vec3.lift ⟨0, 1, 0⟩],
          [(0, 1, 2)], [], [], [], [], []⟩ : Scene (Dbl ℝ))
        (Vec3.lift ⟨1 / 4, 1 / 4, 1⟩) (Vec3.lift ⟨0, 0, -1⟩) Vec3.uninit Vec3.uninit).1
      = true
    ∧ shoot_ray Real.sqrt
        (⟨[Vec3.lift (⟨0, 0, 0⟩ : Vec3 ℝ), Vec3.lift ⟨1, 0, 0⟩, Vec3.lift ⟨0, 1, 0⟩],
          [(0, 1, 2)], [], [], [], [], []⟩ : Scene (Dbl ℝ))
        (0 + 1) (Vec3.lift ⟨1 / 4, 1 / 4, 1⟩) (Vec3.lift ⟨0, 0, -1⟩) 0
      = some ⟨Dbl.fin (1 / 10), Dbl.fin (1 / 5), Dbl.fin (1 / 10), Dbl.fin 1⟩ := by
  have hhit : (find_nearest_object Real.sqrt
      (⟨[Vec3.lift (⟨0, 0, 0⟩ : Vec3 ℝ), Vec3.lift ⟨1, 0, 0⟩, Vec3.lift ⟨0, 1, 0⟩],
        [(0, 1, 2)], [], [], [], [], []⟩ : Scene (Dbl ℝ))
      (Vec3.lift ⟨1 / 4, 1 / 4, 1⟩) (Vec3.lift ⟨0, 0, -1⟩) Vec3.uninit Vec3.uninit).1
      = true := by
    norm_num [find_nearest_object, find_nearest_state, triangle_step, facet_vertices,
      NearestState.record, ray_triangle_intersection, scale_matrix, Mat3.det,
      Mat3.inverse, Mat3.mulVec, Vec3.lift, Dbl.one_div_fin, Dbl.DBL_MAX, List.range,
      List.range.loop]
  exact ⟨rfl, hhit, (shoot_ray_no_light_no_bounce Real.sqrt _ _ _ 0 rfl hhit).2⟩

end ClaimC11

section ClaimC16

variable {K : Type} [LinearOrderedField K]

/-- The alpha channel of a composed colour is `1`. -/
theorem compose_color_alpha (amb lights refl : Vec4 (Dbl K)) :
    (compose_color amb lights refl).a = Dbl.fin 1 := rfl

/-- C16, amended: the alpha channel of every colour that `shoot_ray` returns is `0` or `1`;
when `find_nearest_object` reports a hit and `shoot_ray` returns, the colour has alpha `1` and
RGB channels `ambient + lights + reflection`, where `reflection` is `obj_reflection_color`
times the colour of the nested call along the reflection direction (made with the same
bounce count) when the bounce count is not `0`, and is the initial value `(0.1, 0.1, 0.1)` of
`reflection_color`, with no nested call, when the bounce count is `0`. -/
theorem shoot_ray_hit_colour (sqrt : K → K) (scene : Scene (Dbl K)) (fuel : Nat)
    (O D : Vec3 (Dbl K)) (max_bounce : Int) :
    (∀ C : Vec4 (Dbl K), shoot_ray sqrt scene fuel O D max_bounce = some C →
      C.a = Dbl.fin 0 ∨ C.a = Dbl.fin 1)
    ∧ ((find_nearest_object sqrt scene O D Vec3.uninit Vec3.uninit).1 = true →
      ∀ C : Vec4 (Dbl K), shoot_ray sqrt scene (fuel + 1) O D max_bounce = some C →
      C.a = Dbl.fin 1
      ∧ ((max_bounce ≠ 0
          ∧ ∃ colors : Vec4 (Dbl K),
            shoot_ray sqrt scene fuel
              ((find_nearest_object sqrt scene O D Vec3.uninit Vec3.uninit).2.1
                + Vec3.smul (Dbl.fin (1 / 100000))
                    (reflection_direction sqrt
                      (find_nearest_object sqrt scene O D Vec3.uninit Vec3.uninit).2.2 D))
              (reflection_direction sqrt
                (find_nearest_object sqrt scene O D Vec3.uninit Vec3.uninit).2.2 D)
              max_bounce = some colors
            ∧ C = ⟨(ambient_color
                    + lights_color sqrt scene D
                        (find_nearest_object sqrt scene O D Vec3.uninit Vec3.uninit).2.1
                        (find_nearest_object sqrt scene O D Vec3.uninit Vec3.uninit).2.2
                    + (obj_reflection_color : Vec4 (Dbl K)).cwiseProduct colors).r,
                  (ambient_color
                    + lights_color sqrt scene D
                        (find_nearest_object sqrt scene O D Vec3.uninit Vec3.uninit).2.1
                        (find_nearest_object sqrt scene O D Vec3.uninit Vec3.uninit).2.2
                    + (obj_reflection_color : Vec4 (Dbl K)).cwiseProduct colors).g,
                  (ambient_color
                    + lights_color sqrt scene D
                        (find_nearest_object sqrt scene O D Vec3.uninit Vec3.uninit).2.1
                        (find_nearest_object sqrt scene O D Vec3.uninit Vec3.uninit).2.2
                    + (obj_reflection_color : Vec4 (Dbl K)).cwiseProduct colors).b,
                  Dbl.fin 1⟩)
        ∨ (max_bounce = 0
          ∧ C = ⟨(ambient_color
                    + lights_color sqrt scene D
                        (find_nearest_object sqrt scene O D Vec3.uninit Vec3.uninit).2.1
                        (find_nearest_object sqrt scene O D Vec3.uninit Vec3.uninit).2.2
                    + initial_reflection_color).r,
                  (ambient_color
                    + lights_color sqrt scene D
                        (find_nearest_object sqrt scene O D Vec3.uninit Vec3.uninit).2.1
                        (find_nearest_object sqrt scene O D Vec3.uninit Vec3.uninit).2.2
                    + initial_reflection_color).g,
                  (ambient_color
                    + lights_color sqrt scene D
                        (find_nearest_object sqrt scene O D Vec3.uninit Vec3.uninit).2.1
                        (find_nearest_object sqrt scene O D Vec3.uninit Vec3.uninit).2.2
                    + initial_reflection_color).b,
                  Dbl.fin 1⟩))) := by
  have hhitcase : (find_nearest_object sqrt scene O D Vec3.uninit Vec3.uninit).1 = true →
      ∀ (g : Nat) (C : Vec4 (Dbl K)), shoot_ray sqrt scene (g + 1) O D max_bounce = some C →
      (max_bounce ≠ 0
        ∧ ∃ colors : Vec4 (Dbl K),
          shoot_ray sqrt scene g
            ((find_nearest_object sqrt scene O D Vec3.uninit Vec3.uninit).2.1
              + Vec3.smul (Dbl.fin (1 / 100000))
                  (reflection_direction sqrt
                    (find_nearest_object sqrt scene O D Vec3.uninit Vec3.uninit).2.2 D))
            (reflection_direction sqrt
              (find_nearest_object sqrt scene O D Vec3.uninit Vec3.uninit).2.2 D)
            max_bounce = some colors
          ∧ C = compose_color ambient_color
              (lights_color sqrt scene D
                (find_nearest_object sqrt scene O D Vec3.uninit Vec3.uninit).2.1
                (find_nearest_object sqrt scene O D Vec3.uninit Vec3.uninit).2.2)
              ((obj_reflection_color : Vec4 (Dbl K)).cwiseProduct colors))
      ∨ (max_bounce = 0
        ∧ C = compose_color ambient_color
            (lights_color sqrt scene D
              (find_nearest_object sqrt scene O D Vec3.uninit Vec3.uninit).2.1
              (find_nearest_object sqrt scene O D Vec3.uninit Vec3.uninit).2.2)
            initial_reflection_color) := by
    intro hhit g C hret
    by_cases hb : max_bounce = 0
    · right
      subst hb
      rw [shoot_ray_hit_no_bounce sqrt scene g O D hhit] at hret
      exact ⟨rfl, (Option.some.inj hret).symm⟩
    · left
      rw [shoot_ray_hit_bounce sqrt scene g O D max_bounce hhit hb] at hret
      obtain ⟨colors, hcol, hC⟩ := Option.map_eq_some'.mp hret
      exact ⟨hb, colors, hcol, hC.symm⟩
  constructor
  · intro C hret
    cases fuel with
    | zero => simp [shoot_ray] at hret
    | succ g =>
      cases hfind : (find_nearest_object sqrt scene O D Vec3.uninit Vec3.uninit).1 with
      | false =>
        rw [shoot_ray_miss sqrt scene g O D max_bounce hfind] at hret
        left
        rw [← Option.some.inj hret]
      | true =>
        right
        rcases hhitcase hfind g C hret with ⟨-, colors, -, hC⟩ | ⟨-, hC⟩
        · rw [hC]
          rfl
        · rw [hC]
          rfl
  · intro hhit C hret
    rcases hhitcase hhit fuel C hret with ⟨hb, colors, hcol, hC⟩ | ⟨hb, hC⟩
    · exact ⟨by rw [hC]; rfl, Or.inl ⟨hb, colors, hcol, hC⟩⟩
    · exact ⟨by rw [hC]; rfl, Or.inr ⟨hb, hC⟩⟩

end ClaimC16

section FloorScene

/-- In `floor_scene`, the ray from `(1/2, 1/2, 2)` along `(0, 0, -1)` hits the parallelogram
at `(1/2, 1/2, 0)`, with normal `(0, 0, -1)`. -/
theorem floor_scene_hit :
    find_nearest_object Real.sqrt (floor_scene : Scene (Dbl ℝ)) (Vec3.lift ⟨1 / 2, 1 / 2, 2⟩)
        (Vec3.lift ⟨0, 0, -1⟩) Vec3.uninit Vec3.uninit
      = (true, Vec3.lift ⟨1 / 2, 1 / 2, 0⟩, Vec3.lift ⟨0, 0, -1⟩) := by
  norm_num [floor_scene, find_nearest_object, find_nearest_state, parallelogram_step,
    NearestState.record, ray_parallelogram_intersection, scale_matrix, Mat3.det,
    Mat3.inverse, Mat3.mulVec, Mat3.col0, Mat3.col1, Mat3.col2, Mat3.lift, Vec3.lift,
    Vec3.smul, Vec3.muls, Vec3.cross, Vec3.normalized, Vec3.squaredNorm, Vec3.divs, Dbl.sqrt,
    Dbl.fin_div_fin_eq, Dbl.one_div_fin, Dbl.DBL_MAX, List.range, List.range.loop]
  ext <;> norm_num

/-- The reflection of the direction `(0, 0, -1)` about the normal `(0, 0, -1)` is
`(0, 0, 1)`. -/
theorem reflection_direction_down :
    reflection_direction Real.sqrt (Vec3.lift (⟨0, 0, -1⟩ : Vec3 ℝ)) (Vec3.lift ⟨0, 0, -1⟩)
      = Vec3.lift ⟨0, 0, 1⟩ := by
  norm_num [reflection_direction, view_direction, Vec3.normalized, Vec3.squaredNorm,
    Vec3.divs, Vec3.smul, Vec3.muls, Vec3.dot, Vec3.lift, Dbl.sqrt, Dbl.fin_div_fin_eq]
  ext <;> norm_num

/-- The reflection of the direction `(0, 0, 1)` about the normal `(0, 0, -1)` is
`(0, 0, -1)`. -/
theorem reflection_direction_up :
    reflection_direction Real.sqrt (Vec3.lift (⟨0, 0, -1⟩ : Vec3 ℝ)) (Vec3.lift ⟨0, 0, 1⟩)
      = Vec3.lift ⟨0, 0, -1⟩ := by
  norm_num [reflection_direction, view_direction, Vec3.normalized, Vec3.squaredNorm,
    Vec3.divs, Vec3.smul, Vec3.muls, Vec3.dot, Vec3.lift, Dbl.sqrt, Dbl.fin_div_fin_eq]
  ext <;> norm_num

/-- In `floor_scene`, the ray that leaves the parallelogram upwards hits nothing. -/
theorem floor_scene_miss :
    (find_nearest_object Real.sqrt (floor_scene : Scene (Dbl ℝ))
        (Vec3.lift ⟨1 / 2, 1 / 2, 1 / 100000⟩) (Vec3.lift ⟨0, 0, 1⟩)
        Vec3.uninit Vec3.uninit).1 = false := by
  norm_num [floor_scene, find_nearest_object, find_nearest_state, parallelogram_step,
    NearestState.record, ray_parallelogram_intersection, scale_matrix, Mat3.det,
    Mat3.inverse, Mat3.mulVec, Mat3.col0, Mat3.col1, Mat3.col2, Mat3.lift, Vec3.lift,
    Dbl.one_div_fin, Dbl.DBL_MAX, List.range, List.range.loop]

/-- The origin of the ray that `shoot_ray` sends from `(1/2, 1/2, 0)` along `(0, 0, 1)`. -/
theorem offset_up :
    Vec3.lift (⟨1 / 2, 1 / 2, 0⟩ : Vec3 ℝ)
        + Vec3.smul (Dbl.fin (1 / 100000)) (Vec3.lift ⟨0, 0, 1⟩)
      = Vec3.lift ⟨1 / 2, 1 / 2, 1 / 100000⟩ := by
  rw [Vec3.smul_lift, Vec3.lift_add]
  congr 1
  ext <;> norm_num [Vec3.smul]

end FloorScene

section ClaimC16Examples

/-- The colour composed from the ambient term, no light and a reflection of a transparent
colour. -/
theorem compose_ambient_transparent :
    compose_color (ambient_color : Vec4 (Dbl ℝ)) ⟨Dbl.fin 0, Dbl.fin 0, Dbl.fin 0, Dbl.fin 0⟩
        ((obj_reflection_color : Vec4 (Dbl ℝ)).cwiseProduct
          ⟨Dbl.fin 0, Dbl.fin 0, Dbl.fin 0, Dbl.fin 0⟩)
      = ⟨Dbl.fin 0, Dbl.fin (1 / 10), Dbl.fin 0, Dbl.fin 1⟩ := by
  have hadd : ∀ a b : Vec4 (Dbl ℝ), a + b = Vec4.add a b := fun _ _ => rfl
  simp only [compose_color, ambient_color, obj_reflection_color, obj_ambient_color,
    ambient_light, Vec4.cwiseProduct, hadd, Vec4.add, Dbl.fin_mul_fin, Dbl.fin_add_fin]
  norm_num

/-- Counterexample to C16: in `floor_scene` the ray from `(1/2, 1/2, 2)` along `(0, 0, -1)`
hits the parallelogram.  With bounce count `0`, `shoot_ray` returns `(0.1, 0.2, 0.1, 1)`.  The
ray along the reflection direction, from `(1/2, 1/2, 0.00001)` along `(0, 0, 1)`, hits nothing,
so every call of `shoot_ray` on it returns `(0, 0, 0, 0)`, and `ambient + lights +
obj_reflection_color * (0, 0, 0, 0)` is `(0, 0.1, 0)`, not the RGB channels returned. -/
theorem shoot_ray_reflection_is_not_recursive :
    (find_nearest_object Real.sqrt (floor_scene : Scene (Dbl ℝ))
        (Vec3.lift ⟨1 / 2, 1 / 2, 2⟩) (Vec3.lift ⟨0, 0, -1⟩) Vec3.uninit Vec3.uninit).1 = true
    ∧ shoot_ray Real.sqrt (floor_scene : Scene (Dbl ℝ)) 1 (Vec3.lift ⟨1 / 2, 1 / 2, 2⟩)
        (Vec3.lift ⟨0, 0, -1⟩) 0
      = some ⟨Dbl.fin (1 / 10), Dbl.fin (1 / 5), Dbl.fin (1 / 10), Dbl.fin 1⟩
    ∧ reflection_direction Real.sqrt
        (find_nearest_object Real.sqrt (floor_scene : Scene (Dbl ℝ))
          (Vec3.lift ⟨1 / 2, 1 / 2, 2⟩) (Vec3.lift ⟨0, 0, -1⟩) Vec3.uninit Vec3.uninit).2.2
        (Vec3.lift ⟨0, 0, -1⟩) = Vec3.lift ⟨0, 0, 1⟩
    ∧ (find_nearest_object Real.sqrt (floor_scene : Scene (Dbl ℝ))
          (Vec3.lift ⟨1 / 2, 1 / 2, 2⟩) (Vec3.lift ⟨0, 0, -1⟩) Vec3.uninit Vec3.uninit).2.1
        + Vec3.smul (Dbl.fin (1 / 100000)) (Vec3.lift ⟨0, 0, 1⟩)
      = Vec3.lift ⟨1 / 2, 1 / 2, 1 / 100000⟩
    ∧ (∀ (fuel : Nat) (max_bounce : Int),
        shoot_ray Real.sqrt (floor_scene : Scene (Dbl ℝ)) (fuel + 1)
          (Vec3.lift ⟨1 / 2, 1 / 2, 1 / 100000⟩) (Vec3.lift ⟨0, 0, 1⟩) max_bounce
        = some ⟨Dbl.fin 0, Dbl.fin 0, Dbl.fin 0, Dbl.fin 0⟩)
    ∧ compose_color (ambient_color : Vec4 (Dbl ℝ))
        (lights_color Real.sqrt (floor_scene : Scene (Dbl ℝ)) (Vec3.lift ⟨0, 0, -1⟩)
          (Vec3.lift ⟨1 / 2, 1 / 2, 0⟩) (Vec3.lift ⟨0, 0, -1⟩))
        ((obj_reflection_color : Vec4 (Dbl ℝ)).cwiseProduct
          ⟨Dbl.fin 0, Dbl.fin 0, Dbl.fin 0, Dbl.fin 0⟩)
      ≠ ⟨Dbl.fin (1 / 10), Dbl.fin (1 / 5), Dbl.fin (1 / 10), Dbl.fin 1⟩ := by
  have hhit : (find_nearest_object Real.sqrt (floor_scene : Scene (Dbl ℝ))
      (Vec3.lift ⟨1 / 2, 1 / 2, 2⟩) (Vec3.lift ⟨0, 0, -1⟩) Vec3.uninit Vec3.uninit).1
      = true := by
    rw [floor_scene_hit]
  have hval := shoot_ray_hit_no_bounce Real.sqrt (floor_scene : Scene (Dbl ℝ)) 0
    (Vec3.lift ⟨1 / 2, 1 / 2, 2⟩) (Vec3.lift ⟨0, 0, -1⟩) hhit
  rw [lights_color_no_light Real.sqrt _ rfl, compose_ambient_initial] at hval
  refine ⟨hhit, hval, ?_, ?_, ?_, ?_⟩
  · rw [floor_scene_hit]
    exact reflection_direction_down
  · rw [floor_scene_hit]
    exact offset_up
  · intro fuel max_bounce
    exact shoot_ray_miss Real.sqrt _ fuel _ _ max_bounce floor_scene_miss
  · rw [lights_color_no_light Real.sqrt _ rfl, compose_ambient_transparent]
    simp only [ne_eq, Vec4.mk.injEq, Dbl.fin.injEq]
    norm_num

/-- Witness of C16, amended: in `floor_scene`, the ray from `(1/2, 1/2, 2)` along
`(0, 0, -1)` with bounce count `5`: the nested call along the reflection direction returns
`(0, 0, 0, 0)` and `shoot_ray` returns `(0, 0.1, 0, 1)`, of alpha `1`. -/
theorem shoot_ray_hit_colour_witness :
    (find_nearest_object Real.sqrt (floor_scene : Scene (Dbl ℝ))
        (Vec3.lift ⟨1 / 2, 1 / 2, 2⟩) (Vec3.lift ⟨0, 0, -1⟩) Vec3.uninit Vec3.uninit).1 = true
    ∧ shoot_ray Real.sqrt (floor_scene : Scene (Dbl ℝ)) (1 + 1) (Vec3.lift ⟨1 / 2, 1 / 2, 2⟩)
        (Vec3.lift ⟨0, 0, -1⟩) 5
      = some ⟨Dbl.fin 0, Dbl.fin (1 / 10), Dbl.fin 0, Dbl.fin 1⟩
    ∧ (⟨Dbl.fin 0, Dbl.fin (1 / 10), Dbl.fin 0, Dbl.fin 1⟩ : Vec4 (Dbl ℝ)).a = Dbl.fin 1 := by
  have hhit : (find_nearest_object Real.sqrt (floor_scene : Scene (Dbl ℝ))
      (Vec3.lift ⟨1 / 2, 1 / 2, 2⟩) (Vec3.lift ⟨0, 0, -1⟩) Vec3.uninit Vec3.uninit).1
      = true := by
    rw [floor_scene_hit]
  have hret : shoot_ray Real.sqrt (floor_scene : Scene (Dbl ℝ)) (1 + 1)
      (Vec3.lift ⟨1 / 2, 1 / 2, 2⟩) (Vec3.lift ⟨0, 0, -1⟩) 5
      = some ⟨Dbl.fin 0, Dbl.fin (1 / 10), Dbl.fin 0, Dbl.fin 1⟩ := by
    rw [shoot_ray_hit_bounce Real.sqrt _ 1 _ _ 5 hhit (by norm_num), floor_scene_hit]
    simp only [reflection_direction_down, offset_up]
    rw [shoot_ray_miss Real.sqrt _ 0 _ _ 5 floor_scene_miss,
      lights_color_no_light Real.sqrt _ rfl]
    simp only [Option.map_some', compose_ambient_transparent]
  exact ⟨hhit, hret,
    ((shoot_ray_hit_colour Real.sqrt (floor_scene : Scene (Dbl ℝ)) 1
      (Vec3.lift ⟨1 / 2, 1 / 2, 2⟩) (Vec3.lift ⟨0, 0, -1⟩) 5).2 hhit _ hret).1⟩

end ClaimC16Examples

section MirrorScene

variable {K : Type} [LinearOrderedField K]

/-- When the ray hits and the bounce count is not `0`, `shoot_ray` calls itself on the ray
along the reflection direction, with the same bounce count. -/
theorem nested_call_hit_bounce (sqrt : K → K) (scene : Scene (Dbl K))
    (O D : Vec3 (Dbl K)) (max_bounce : Int)
    (hhit : (find_nearest_object sqrt scene O D Vec3.uninit Vec3.uninit).1 = true)
    (hb : max_bounce ≠ 0) :
    nested_call sqrt scene O D max_bounce
      = some ((find_nearest_object sqrt scene O D Vec3.uninit Vec3.uninit).2.1
            + Vec3.smul (Dbl.fin (1 / 100000))
                (reflection_direction sqrt
                  (find_nearest_object sqrt scene O D Vec3.uninit Vec3.uninit).2.2 D),
          reflection_direction sqrt
            (find_nearest_object sqrt scene O D Vec3.uninit Vec3.uninit).2.2 D,
          max_bounce) := by
  have hcond : (decide (max_bounce < 0) || decide (max_bounce > 0)) = true := by
    rcases lt_or_gt_of_ne hb with h | h
    · simp [h]
    · simp [h]
  unfold nested_call
  simp only [hhit, Bool.not_true, Bool.false_eq_true, if_false, hcond, if_true]
  rfl

/-- A call of `shoot_ray` that makes a nested call returns only if the nested call does. -/
theorem shoot_ray_of_nested_call (sqrt : K → K) (scene : Scene (Dbl K)) (fuel : Nat)
    (O D : Vec3 (Dbl K)) (max_bounce : Int) (c : Vec3 (Dbl K) × Vec3 (Dbl K) × Int)
    (hc : nested_call sqrt scene O D max_bounce = some c)
    (hnone : shoot_ray sqrt scene fuel c.1 c.2.1 c.2.2 = none) :
    shoot_ray sqrt scene (fuel + 1) O D max_bounce = none := by
  have hhit : (find_nearest_object sqrt scene O D Vec3.uninit Vec3.uninit).1 = true := by
    by_contra h
    simp only [Bool.not_eq_true] at h
    simp [nested_call, h] at hc
  have hb : max_bounce ≠ 0 := by
    rintro rfl
    simp [nested_call, hhit] at hc
  rw [nested_call_hit_bounce sqrt scene O D max_bounce hhit hb] at hc
  rw [shoot_ray_hit_bounce sqrt scene fuel O D max_bounce hhit hb]
  obtain rfl := Option.some.inj hc
  simp only at hnone
  rw [hnone]
  rfl

/-- In `mirror_scene`, the ray from `(1/2, 1/2, 0.00001)` along `(0, 0, 1)` hits the upper
square at `(1/2, 1/2, 1)`, with normal `(0, 0, -1)`. -/
theorem mirror_scene_hit_up :
    find_nearest_object Real.sqrt (mirror_scene : Scene (Dbl ℝ))
        (Vec3.lift ⟨1 / 2, 1 / 2, 1 / 100000⟩) (Vec3.lift ⟨0, 0, 1⟩) Vec3.uninit Vec3.uninit
      = (true, Vec3.lift ⟨1 / 2, 1 / 2, 1⟩, Vec3.lift ⟨0, 0, -1⟩) := by
  norm_num [mirror_scene, find_nearest_object, find_nearest_state, parallelogram_step,
    NearestState.record, ray_parallelogram_intersection, scale_matrix, Mat3.det,
    Mat3.inverse, Mat3.mulVec, Mat3.col0, Mat3.col1, Mat3.col2, Mat3.lift, Vec3.lift,
    Vec3.smul, Vec3.muls, Vec3.cross, Vec3.normalized, Vec3.squaredNorm, Vec3.divs, Dbl.sqrt,
    Dbl.fin_div_fin_eq, Dbl.one_div_fin, Dbl.DBL_MAX, List.range, List.range.loop]
  ext <;> norm_num

/-- In `mirror_scene`, the ray from `(1/2, 1/2, 0.99999)` along `(0, 0, -1)` hits the lower
square at `(1/2, 1/2, 0)`, with normal `(0, 0, -1)`. -/
theorem mirror_scene_hit_down :
    find_nearest_object Real.sqrt (mirror_scene : Scene (Dbl ℝ))
        (Vec3.lift ⟨1 / 2, 1 / 2, 99999 / 100000⟩) (Vec3.lift ⟨0, 0, -1⟩)
        Vec3.uninit Vec3.uninit
      = (true, Vec3.lift ⟨1 / 2, 1 / 2, 0⟩, Vec3.lift ⟨0, 0, -1⟩) := by
  norm_num [mirror_scene, find_nearest_object, find_nearest_state, parallelogram_step,
    NearestState.record, ray_parallelogram_intersection, scale_matrix, Mat3.det,
    Mat3.inverse, Mat3.mulVec, Mat3.col0, Mat3.col1, Mat3.col2, Mat3.lift, Vec3.lift,
    Vec3.smul, Vec3.muls, Vec3.cross, Vec3.normalized, Vec3.squaredNorm, Vec3.divs, Dbl.sqrt,
    Dbl.fin_div_fin_eq, Dbl.one_div_fin, Dbl.DBL_MAX, List.range, List.range.loop]
  ext <;> norm_num

/-- The origin of the ray that `shoot_ray` sends from `(1/2, 1/2, 1)` along `(0, 0, -1)`. -/
theorem offset_down :
    Vec3.lift (⟨1 / 2, 1 / 2, 1⟩ : Vec3 ℝ)
        + Vec3.smul (Dbl.fin (1 / 100000)) (Vec3.lift ⟨0, 0, -1⟩)
      = Vec3.lift ⟨1 / 2, 1 / 2, 99999 / 100000⟩ := by
  rw [Vec3.smul_lift, Vec3.lift_add]
  congr 1
  ext <;> norm_num [Vec3.smul]

/-- In `mirror_scene`, the call on the ray going up makes a nested call on the ray going
down, with the same bounce count. -/
theorem mirror_scene_nested_call_up (max_bounce : Int) (hb : max_bounce ≠ 0) :
    nested_call Real.sqrt (mirror_scene : Scene (Dbl ℝ))
        (Vec3.lift ⟨1 / 2, 1 / 2, 1 / 100000⟩) (Vec3.lift ⟨0, 0, 1⟩) max_bounce
      = some (Vec3.lift ⟨1 / 2, 1 / 2, 99999 / 100000⟩, Vec3.lift ⟨0, 0, -1⟩, max_bounce) := by
  rw [nested_call_hit_bounce Real.sqrt _ _ _ max_bounce (by rw [mirror_scene_hit_up]) hb,
    mirror_scene_hit_up]
  simp only [reflection_direction_up, offset_down]

/-- In `mirror_scene`, the call on the ray going down makes a nested call on the ray going
up, with the same bounce count. -/
theorem mirror_scene_nested_call_down (max_bounce : Int) (hb : max_bounce ≠ 0) :
    nested_call Real.sqrt (mirror_scene : Scene (Dbl ℝ))
        (Vec3.lift ⟨1 / 2, 1 / 2, 99999 / 100000⟩) (Vec3.lift ⟨0, 0, -1⟩) max_bounce
      = some (Vec3.lift ⟨1 / 2, 1 / 2, 1 / 100000⟩, Vec3.lift ⟨0, 0, 1⟩, max_bounce) := by
  rw [nested_call_hit_bounce Real.sqrt _ _ _ max_bounce (by rw [mirror_scene_hit_down]) hb,
    mirror_scene_hit_down]
  simp only [reflection_direction_down, offset_up]

/-- In `mirror_scene`, no number of nested calls suffices for `shoot_ray` to return, on
either of the two rays, when the bounce count is not `0`. -/
theorem mirror_scene_no_return (max_bounce : Int) (hb : max_bounce ≠ 0) (fuel : Nat) :
    shoot_ray Real.sqrt (mirror_scene : Scene (Dbl ℝ)) fuel
        (Vec3.lift ⟨1 / 2, 1 / 2, 99999 / 100000⟩) (Vec3.lift ⟨0, 0, -1⟩) max_bounce = none
    ∧ shoot_ray Real.sqrt (mirror_scene : Scene (Dbl ℝ)) fuel
        (Vec3.lift ⟨1 / 2, 1 / 2, 1 / 100000⟩) (Vec3.lift ⟨0, 0, 1⟩) max_bounce = none := by
  induction fuel with
  | zero => exact ⟨rfl, rfl⟩
  | succ n ih =>
    exact ⟨shoot_ray_of_nested_call Real.sqrt _ n _ _ max_bounce _
        (mirror_scene_nested_call_down max_bounce hb) ih.2,
      shoot_ray_of_nested_call Real.sqrt _ n _ _ max_bounce _
        (mirror_scene_nested_call_up max_bounce hb) ih.1⟩

/-- In `mirror_scene`, the chain of nested calls never ends and the bounce count is the same
in all of its calls. -/
theorem mirror_scene_call_chain (max_bounce : Int) (hb : max_bounce ≠ 0) (k : Nat) :
    ((call_chain Real.sqrt (mirror_scene : Scene (Dbl ℝ)) k
        (Vec3.lift ⟨1 / 2, 1 / 2, 99999 / 100000⟩) (Vec3.lift ⟨0, 0, -1⟩) max_bounce).length
        = k + 1
      ∧ ∀ c ∈ call_chain Real.sqrt (mirror_scene : Scene (Dbl ℝ)) k
          (Vec3.lift ⟨1 / 2, 1 / 2, 99999 / 100000⟩) (Vec3.lift ⟨0, 0, -1⟩) max_bounce,
          c.2.2 = max_bounce)
    ∧ ((call_chain Real.sqrt (mirror_scene : Scene (Dbl ℝ)) k
        (Vec3.lift ⟨1 / 2, 1 / 2, 1 / 100000⟩) (Vec3.lift ⟨0, 0, 1⟩) max_bounce).length
        = k + 1
      ∧ ∀ c ∈ call_chain Real.sqrt (mirror_scene : Scene (Dbl ℝ)) k
          (Vec3.lift ⟨1 / 2, 1 / 2, 1 / 100000⟩) (Vec3.lift ⟨0, 0, 1⟩) max_bounce,
          c.2.2 = max_bounce) := by
  induction k with
  | zero => simp [call_chain]
  | succ n ih =>
    obtain ⟨⟨hl1, hc1⟩, hl2, hc2⟩ := ih
    refine ⟨⟨?_, ?_⟩, ?_, ?_⟩
    · rw [call_chain, mirror_scene_nested_call_down max_bounce hb]
      simp only [List.length_cons, hl2]
    · rw [call_chain, mirror_scene_nested_call_down max_bounce hb]
      intro c hc
      rcases List.mem_cons.mp hc with rfl | h
      · rfl
      · exact hc2 c h
    · rw [call_chain, mirror_scene_nested_call_up max_bounce hb]
      simp only [List.length_cons, hl1]
    · rw [call_chain, mirror_scene_nested_call_up max_bounce hb]
      intro c hc
      rcases List.mem_cons.mp hc with rfl | h
      · rfl
      · exact hc1 c h

end MirrorScene

section ClaimC12

/-- The nested call of `shoot_ray`, when there is one, has the bounce count of its caller. -/
theorem nested_call_same_bounce {K : Type} [LinearOrderedField K] (sqrt : K → K)
    (scene : Scene (Dbl K)) (O D : Vec3 (Dbl K)) (max_bounce : Int)
    (c : Vec3 (Dbl K) × Vec3 (Dbl K) × Int)
    (hc : nested_call sqrt scene O D max_bounce = some c) : c.2.2 = max_bounce := by
  unfold nested_call at hc
  simp only at hc
  split at hc
  · exact absurd hc (by simp)
  · split at hc
    · obtain rfl := Option.some.inj hc
      rfl
    · exact absurd hc (by simp)

/-- C12, which the code does not satisfy: `shoot_ray` passes `max_bounce` unchanged to its
nested call, in every scene.  In `mirror_scene`, two facing unit squares, the call on the ray
from `(1/2, 1/2, 0.99999)` along `(0, 0, -1)` with bounce limit `1` makes a nested call on the
ray from `(1/2, 1/2, 0.00001)` along `(0, 0, 1)` with bounce count `1`, which makes a nested
call on the first ray with bounce count `1`; the chain of nested calls has more than `k` calls
for every `k`, all of them with bounce count `1`, and `shoot_ray` does not return, whatever
the number of nested calls it is allowed, with bounce limit `1` or with the limit `5` of the
program. -/
theorem shoot_ray_bounce_count_is_not_decremented :
    (∀ (scene : Scene (Dbl ℝ)) (O D : Vec3 (Dbl ℝ)) (max_bounce : Int)
        (c : Vec3 (Dbl ℝ) × Vec3 (Dbl ℝ) × Int),
        nested_call Real.sqrt scene O D max_bounce = some c → c.2.2 = max_bounce)
    ∧ nested_call Real.sqrt (mirror_scene : Scene (Dbl ℝ))
        (Vec3.lift ⟨1 / 2, 1 / 2, 99999 / 100000⟩) (Vec3.lift ⟨0, 0, -1⟩) 1
      = some (Vec3.lift ⟨1 / 2, 1 / 2, 1 / 100000⟩, Vec3.lift ⟨0, 0, 1⟩, 1)
    ∧ nested_call Real.sqrt (mirror_scene : Scene (Dbl ℝ))
        (Vec3.lift ⟨1 / 2, 1 / 2, 1 / 100000⟩) (Vec3.lift ⟨0, 0, 1⟩) 1
      = some (Vec3.lift ⟨1 / 2, 1 / 2, 99999 / 100000⟩, Vec3.lift ⟨0, 0, -1⟩, 1)
    ∧ (∀ k : Nat,
        (call_chain Real.sqrt (mirror_scene : Scene (Dbl ℝ)) k
          (Vec3.lift ⟨1 / 2, 1 / 2, 99999 / 100000⟩) (Vec3.lift ⟨0, 0, -1⟩) 1).length = k + 1
        ∧ ∀ c ∈ call_chain Real.sqrt (mirror_scene : Scene (Dbl ℝ)) k
            (Vec3.lift ⟨1 / 2, 1 / 2, 99999 / 100000⟩) (Vec3.lift ⟨0, 0, -1⟩) 1,
            c.2.2 = 1)
    ∧ (∀ fuel : Nat,
        shoot_ray Real.sqrt (mirror_scene : Scene (Dbl ℝ)) fuel
          (Vec3.lift ⟨1 / 2, 1 / 2, 99999 / 100000⟩) (Vec3.lift ⟨0, 0, -1⟩) 1 = none)
    ∧ (∀ fuel : Nat,
        shoot_ray Real.sqrt (mirror_scene : Scene (Dbl ℝ)) fuel
          (Vec3.lift ⟨1 / 2, 1 / 2, 99999 / 100000⟩) (Vec3.lift ⟨0, 0, -1⟩) 5 = none) :=
  ⟨fun scene O D max_bounce c hc => nested_call_same_bounce Real.sqrt scene O D max_bounce c hc,
    mirror_scene_nested_call_down 1 (by norm_num),
    mirror_scene_nested_call_up 1 (by norm_num),
    fun k => (mirror_scene_call_chain 1 (by norm_num) k).1,
    fun fuel => (mirror_scene_no_return 1 (by norm_num) fuel).1,
    fun fuel => (mirror_scene_no_return 5 (by norm_num) fuel).1⟩

end ClaimC12

/-! ## The planar tests in the arithmetic that rounds -/

namespace Dbl

theorem round_self {K : Type} (x : Dbl K) : round (fun a => a) x = x := by
  cases x <;> rfl

variable {K : Type} [LinearOrderedField K]

end Dbl

namespace RDbl

variable {K : Type} [LinearOrderedField K] {rnd : K → K}

end RDbl

section SingularRounded

variable {K : Type} [LinearOrderedField K] {rnd : K → K}

end SingularRounded

section ClaimC5

variable {K : Type} [LinearOrderedField K]

end ClaimC5

section ClaimC9Rounded

/-- C9, which the code does not satisfy in double arithmetic.  In `slanted_scene`, whose only
primitive is the parallelogram of origin `(0, 0, 0)` and corners `(1, 0.1, 0.3)`,
`(3, 0.2, 0.6)`, the ray from `(8, 0, 0)` along `(1, 0.4, 1.2)` has its first coordinate at
least `8` and the bounding box of the parallelogram has it at most `4`: the ray meets no
bounding box.  The ray lies in the plane of the parallelogram, the determinant of the system
is exactly `0`, and in the arithmetic without rounding `find_nearest_object` returns false.
In double arithmetic the determinant that `inverse()` computes is `-2^-54`; the inverse is
finite, `radius` is `(0, 0, 0)`, `ray_parallelogram_intersection` returns `0` and
`find_nearest_object` returns true, with `p` the ray origin.  The square root only enters the
normal `N`, which is not stated; the first term of the determinant and every product of
`scale.inverse() * y_position` are `0`, so that the order of the additions does not
matter. -/
theorem find_nearest_object_hit_outside_boxes :
    RayMissesBoxes slanted_scene ⟨8, 0, 0⟩ ⟨1, round53 (4 / 10), round53 (12 / 10)⟩
    ∧ (scale_matrix
        ((⟨1, round53 (1 / 10), round53 (3 / 10)⟩ : Vec3 ℚ) - ⟨0, 0, 0⟩)
        ((⟨3, round53 (2 / 10), round53 (6 / 10)⟩ : Vec3 ℚ) - ⟨0, 0, 0⟩)
        (⟨1, round53 (4 / 10), round53 (12 / 10)⟩ : Vec3 ℚ)).det = 0
    ∧ find_nearest_object Rat.sqrt (Scene.lift slanted_scene) (Vec3.lift ⟨8, 0, 0⟩)
        (Vec3.lift ⟨1, round53 (4 / 10), round53 (12 / 10)⟩) Vec3.uninit Vec3.uninit
      = (false, Vec3.uninit, Vec3.uninit)
    ∧ (scale_matrix
        (((Scene.rlift round53 slanted_scene).parallelograms.getD 0 default).col1
          - ((Scene.rlift round53 slanted_scene).parallelograms.getD 0 default).col0)
        (((Scene.rlift round53 slanted_scene).parallelograms.getD 0 default).col2
          - ((Scene.rlift round53 slanted_scene).parallelograms.getD 0 default).col0)
        (Vec3.rlift round53 ⟨1, round53 (4 / 10), round53 (12 / 10)⟩)).det
      = RDbl.fin (-(1 / 2 ^ 54))
    ∧ (ray_parallelogram_intersection_rounded Rat.sqrt (Scene.rlift round53 slanted_scene)
        (Vec3.rlift round53 ⟨8, 0, 0⟩)
        (Vec3.rlift round53 ⟨1, round53 (4 / 10), round53 (12 / 10)⟩) 0 default default).1
      = RDbl.fin 0
    ∧ (find_nearest_object_rounded Rat.sqrt (Scene.rlift round53 slanted_scene)
        (Vec3.rlift round53 ⟨8, 0, 0⟩)
        (Vec3.rlift round53 ⟨1, round53 (4 / 10), round53 (12 / 10)⟩) default default).1
      = true
    ∧ (find_nearest_object_rounded Rat.sqrt (Scene.rlift round53 slanted_scene)
        (Vec3.rlift round53 ⟨8, 0, 0⟩)
        (Vec3.rlift round53 ⟨1, round53 (4 / 10), round53 (12 / 10)⟩) default default).2.1
      = Vec3.rlift round53 ⟨8, 0, 0⟩ := by
  refine ⟨⟨?_, ?_, ?_⟩, by decide!, by decide!, by decide!, by decide!, by decide!,
    by decide!⟩
  · intro i f a b c hf
    simp [slanted_scene] at hf
  · intro i C r hC
    simp [slanted_scene] at hC
  · rintro M hM ⟨t, ht, hbox⟩
    simp only [slanted_scene, List.mem_singleton] at hM
    subst hM
    have h2 := hbox.2.1
    simp only [parallelogram_box, Vec3.cwiseMax, Vec3.add_x, Vec3.sub_x, Vec3.smul,
      Mat3.col0, Mat3.col1, Mat3.col2] at h2
    norm_num at h2
    linarith

end ClaimC9Rounded

/-! ## The arithmetic that rounds, when no operation rounds

With the identity for `rnd`, the definitions `..._rounded` compute the values that the
definitions of the exact arithmetic compute. -/

section ExactRounding

@[simp]
theorem RDbl.fin_val {K : Type} {rnd : K → K} (x : K) :
    (RDbl.fin x : RDbl K rnd).val = Dbl.fin x := rfl

@[simp]
theorem Vec3.default_vals {K : Type} {rnd : K → K} :
    (default : Vec3 (RDbl K rnd)).vals = Vec3.uninit :=
  rfl

variable {K : Type} [LinearOrderedField K]

@[simp]
theorem RDbl.add_val_exact (a b : RDbl K (fun x => x)) : (a + b).val = a.val + b.val :=
  Dbl.round_self _

@[simp]
theorem RDbl.sub_val_exact (a b : RDbl K (fun x => x)) : (a - b).val = a.val - b.val :=
  Dbl.round_self _

@[simp]
theorem RDbl.mul_val_exact (a b : RDbl K (fun x => x)) : (a * b).val = a.val * b.val :=
  Dbl.round_self _

@[simp]
theorem RDbl.div_val_exact (a b : RDbl K (fun x => x)) : (a / b).val = a.val / b.val :=
  Dbl.round_self _

@[simp]
theorem RDbl.neg_val {rnd : K → K} (a : RDbl K rnd) : (-a).val = -a.val := rfl

@[simp]
theorem RDbl.one_val {rnd : K → K} : (1 : RDbl K rnd).val = 1 := rfl


@[simp]
theorem RDbl.sqrt_val_exact (sqrt : K → K) (a : RDbl K (fun x => x)) :
    (RDbl.sqrt sqrt a).val = Dbl.sqrt sqrt a.val :=
  Dbl.round_self _

@[simp]
theorem RDbl.le_val {rnd : K → K} (a b : RDbl K rnd) : RDbl.le a b = Dbl.le a.val b.val := rfl

@[simp]
theorem RDbl.lt_val {rnd : K → K} (a b : RDbl K rnd) : RDbl.lt a b = Dbl.lt a.val b.val := rfl

@[simp]
theorem RDbl.ge_val {rnd : K → K} (a b : RDbl K rnd) : RDbl.ge a b = Dbl.ge a.val b.val := rfl

@[simp]
theorem RDbl.gt_val {rnd : K → K} (a b : RDbl K rnd) : RDbl.gt a b = Dbl.gt a.val b.val := rfl


theorem Vec3.sub_vals_exact (a b : Vec3 (RDbl K (fun x => x))) :
    (a - b).vals = a.vals - b.vals := by
  ext <;> simp [Vec3.vals, Vec3.sub_x, Vec3.sub_y, Vec3.sub_z]

theorem Vec3.add_vals_exact (a b : Vec3 (RDbl K (fun x => x))) :
    (a + b).vals = a.vals + b.vals := by
  ext <;> simp [Vec3.vals, Vec3.add_x, Vec3.add_y, Vec3.add_z]

theorem Vec3.muls_vals_exact (a : Vec3 (RDbl K (fun x => x))) (s : RDbl K (fun x => x)) :
    (a.muls s).vals = a.vals.muls s.val := by
  ext <;> simp [Vec3.vals, Vec3.muls]

theorem Vec3.smul_vals_exact (s : RDbl K (fun x => x)) (a : Vec3 (RDbl K (fun x => x))) :
    (Vec3.smul s a).vals = Vec3.smul s.val a.vals := by
  ext <;> simp [Vec3.vals, Vec3.smul]

theorem Vec3.divs_vals_exact (a : Vec3 (RDbl K (fun x => x))) (s : RDbl K (fun x => x)) :
    (a.divs s).vals = a.vals.divs s.val := by
  ext <;> simp [Vec3.vals, Vec3.divs]

theorem Vec3.cross_vals_exact (a b : Vec3 (RDbl K (fun x => x))) :
    (a.cross b).vals = a.vals.cross b.vals := by
  ext <;> simp [Vec3.vals, Vec3.cross]

theorem Vec3.dot_val_exact (a b : Vec3 (RDbl K (fun x => x))) :
    (a.dot b).val = a.vals.dot b.vals := by
  simp [Vec3.vals, Vec3.dot]

theorem Vec3.squaredNorm_val_exact (a : Vec3 (RDbl K (fun x => x))) :
    a.squaredNorm.val = a.vals.squaredNorm := by
  simp [Vec3.vals, Vec3.squaredNorm]

theorem Vec3.normalized_vals_exact (sqrt : K → K) (a : Vec3 (RDbl K (fun x => x))) :
    (a.normalized_rounded sqrt).vals = a.vals.normalized sqrt := by
  unfold Vec3.normalized_rounded Vec3.normalized
  simp only [RDbl.gt_val, RDbl.fin_val, Vec3.squaredNorm_val_exact]
  split
  · rw [Vec3.divs_vals_exact, RDbl.sqrt_val_exact, Vec3.squaredNorm_val_exact]
  · rfl

theorem scale_matrix_vals {rnd : K → K} (u v d : Vec3 (RDbl K rnd)) :
    (scale_matrix u v d).vals = scale_matrix u.vals v.vals d.vals := rfl

theorem Mat3.inverse_mulVec_vals_exact (m : Mat3 (RDbl K (fun x => x)))
    (y : Vec3 (RDbl K (fun x => x))) :
    (m.inverse.mulVec y).vals = m.vals.inverse.mulVec y.vals := by
  ext <;> simp [Vec3.vals, Mat3.vals, Mat3.inverse, Mat3.mulVec, Mat3.det]

/-- With the identity for `rnd`, `ray_triangle_intersection_rounded` computes the values of
`ray_triangle_intersection`. -/
theorem ray_triangle_intersection_rounded_exact (sqrt : K → K)
    (O D a b c p N : Vec3 (RDbl K (fun x => x))) :
    report_vals (ray_triangle_intersection_rounded sqrt O D a b c p N)
      = ray_triangle_intersection sqrt O.vals D.vals a.vals b.vals c.vals p.vals N.vals := by
  unfold ray_triangle_intersection_rounded ray_triangle_intersection
  simp only [RDbl.le_val, RDbl.fin_val, RDbl.add_val_exact, ← Vec3.sub_vals_exact,
    ← scale_matrix_vals, ← Mat3.inverse_mulVec_vals_exact]
  have hx : ∀ v : Vec3 (RDbl K (fun x => x)), v.vals.x = v.x.val := fun _ => rfl
  have hy : ∀ v : Vec3 (RDbl K (fun x => x)), v.vals.y = v.y.val := fun _ => rfl
  have hz : ∀ v : Vec3 (RDbl K (fun x => x)), v.vals.z = v.z.val := fun _ => rfl
  simp only [hx, hy, hz]
  split
  · simp only [report_vals, RDbl.neg_val, RDbl.mul_val_exact, RDbl.fin_val,
      Vec3.add_vals_exact, Vec3.muls_vals_exact, Vec3.normalized_vals_exact,
      Vec3.smul_vals_exact, Vec3.cross_vals_exact, Vec3.sub_vals_exact]
  · rfl

end ExactRounding

section ExactRoundingScene

theorem Mat3.default_matrix_vals {K : Type} {rnd : K → K} :
    (default : Mat3 (RDbl K rnd)).vals = (default : Mat3 (Dbl K)) := rfl

theorem Scene.getD_parallelograms_vals {K : Type} {rnd : K → K} (scene : Scene (RDbl K rnd)) (i : Nat) :
    scene.vals.parallelograms.getD i default = (scene.parallelograms.getD i default).vals := by
  show (scene.parallelograms.map Mat3.vals).getD i default = _
  rw [← Mat3.default_matrix_vals, List.getD_map]

theorem Scene.getD_sphere_centers_vals {K : Type} {rnd : K → K} (scene : Scene (RDbl K rnd)) (i : Nat) :
    scene.vals.sphere_centers.getD i default = (scene.sphere_centers.getD i default).vals := by
  show (scene.sphere_centers.map Vec3.vals).getD i default = _
  have h : (default : Vec3 (Dbl K)) = (default : Vec3 (RDbl K rnd)).vals := rfl
  rw [h, List.getD_map]

theorem Scene.getD_sphere_radii_vals {K : Type} {rnd : K → K} (scene : Scene (RDbl K rnd)) (i : Nat) :
    scene.vals.sphere_radii.getD i default = (scene.sphere_radii.getD i default).val := by
  show (scene.sphere_radii.map RDbl.val).getD i default = _
  have h : (default : Dbl K) = (default : RDbl K rnd).val := rfl
  rw [h, List.getD_map]

theorem Scene.getD_vertices_vals {K : Type} {rnd : K → K} (scene : Scene (RDbl K rnd)) (i : Nat) :
    scene.vals.vertices.getD i default = (scene.vertices.getD i default).vals := by
  show (scene.vertices.map Vec3.vals).getD i default = _
  have h : (default : Vec3 (Dbl K)) = (default : Vec3 (RDbl K rnd)).vals := rfl
  rw [h, List.getD_map]

theorem foldl_vals {K : Type} {rnd : K → K}
    (f : NearestStateRounded K rnd → Nat → NearestStateRounded K rnd)
    (g : NearestState K → Nat → NearestState K) (h : ∀ st i, (f st i).vals = g st.vals i)
    (l : List Nat) (st : NearestStateRounded K rnd) :
    (l.foldl f st).vals = l.foldl g st.vals := by
  induction l generalizing st with
  | nil => rfl
  | cons i l ih => rw [List.foldl_cons, List.foldl_cons, ih, h]

variable {K : Type} [LinearOrderedField K]

/-- With the identity for `rnd`, `ray_parallelogram_intersection_rounded` computes the values
of `ray_parallelogram_intersection`. -/
theorem ray_parallelogram_intersection_rounded_exact (sqrt : K → K)
    (scene : Scene (RDbl K (fun x => x))) (O D : Vec3 (RDbl K (fun x => x))) (index : Nat)
    (p N : Vec3 (RDbl K (fun x => x))) :
    report_vals (ray_parallelogram_intersection_rounded sqrt scene O D index p N)
      = ray_parallelogram_intersection sqrt scene.vals O.vals D.vals index p.vals N.vals := by
  unfold ray_parallelogram_intersection_rounded ray_parallelogram_intersection
  have h0 : ∀ m : Mat3 (RDbl K (fun x => x)), m.vals.col0 = m.col0.vals := fun _ => rfl
  have h1 : ∀ m : Mat3 (RDbl K (fun x => x)), m.vals.col1 = m.col1.vals := fun _ => rfl
  have h2 : ∀ m : Mat3 (RDbl K (fun x => x)), m.vals.col2 = m.col2.vals := fun _ => rfl
  simp only [Scene.getD_parallelograms_vals, h0, h1, h2, RDbl.le_val, RDbl.fin_val,
    ← Vec3.sub_vals_exact, ← scale_matrix_vals, ← Mat3.inverse_mulVec_vals_exact]
  have hx : ∀ v : Vec3 (RDbl K (fun x => x)), v.vals.x = v.x.val := fun _ => rfl
  have hy : ∀ v : Vec3 (RDbl K (fun x => x)), v.vals.y = v.y.val := fun _ => rfl
  have hz : ∀ v : Vec3 (RDbl K (fun x => x)), v.vals.z = v.z.val := fun _ => rfl
  simp only [hx, hy, hz]
  split
  · simp only [report_vals, RDbl.neg_val, RDbl.mul_val_exact, RDbl.fin_val,
      Vec3.add_vals_exact, Vec3.muls_vals_exact, Vec3.normalized_vals_exact,
      Vec3.smul_vals_exact, Vec3.cross_vals_exact, Vec3.sub_vals_exact]
  · rfl

theorem sphere_discriminant_rounded_exact (O D C : Vec3 (RDbl K (fun x => x)))
    (r : RDbl K (fun x => x)) :
    (sphere_discriminant_rounded O D C r).val
      = sphere_discriminant O.vals D.vals C.vals r.val := by
  simp only [sphere_discriminant_rounded, sphere_discriminant, RDbl.sub_val_exact,
    RDbl.mul_val_exact, RDbl.fin_val, Vec3.dot_val_exact, Vec3.squaredNorm_val_exact,
    Vec3.sub_vals_exact]

/-- With the identity for `rnd`, `ray_sphere_intersection_rounded` computes the values of
`ray_sphere_intersection`. -/
theorem ray_sphere_intersection_rounded_exact (sqrt : K → K)
    (scene : Scene (RDbl K (fun x => x))) (O D : Vec3 (RDbl K (fun x => x))) (index : Nat)
    (p N : Vec3 (RDbl K (fun x => x))) :
    report_vals (ray_sphere_intersection_rounded sqrt scene O D index p N)
      = ray_sphere_intersection sqrt scene.vals O.vals D.vals index p.vals N.vals := by
  unfold ray_sphere_intersection_rounded ray_sphere_intersection
  simp only [Scene.getD_sphere_centers_vals, Scene.getD_sphere_radii_vals, RDbl.lt_val,
    RDbl.fin_val, sphere_discriminant_rounded_exact]
  split
  · rfl
  · simp only [report_vals, RDbl.div_val_exact, RDbl.sub_val_exact, RDbl.mul_val_exact,
      RDbl.fin_val, RDbl.sqrt_val_exact, Vec3.dot_val_exact, Vec3.squaredNorm_val_exact,
      Vec3.sub_vals_exact, Vec3.add_vals_exact, Vec3.smul_vals_exact,
      Vec3.normalized_vals_exact, sphere_discriminant_rounded_exact]

theorem NearestStateRounded.record_vals {rnd : K → K} (st : NearestStateRounded K rnd)
    (index : Int) (r : RDbl K rnd × Vec3 (RDbl K rnd) × Vec3 (RDbl K rnd)) :
    (st.record index r).vals = st.vals.record index (report_vals r) := by
  unfold NearestStateRounded.record NearestState.record
  simp only [RDbl.ge_val, RDbl.lt_val, RDbl.fin_val, report_vals, NearestStateRounded.vals]
  split
  · split <;> rfl
  · rfl

theorem triangle_step_rounded_exact (sqrt : K → K) (scene : Scene (RDbl K (fun x => x)))
    (O D : Vec3 (RDbl K (fun x => x))) (st : NearestStateRounded K (fun x => x)) (i : Nat) :
    (triangle_step_rounded sqrt scene O D st i).vals
      = triangle_step sqrt scene.vals O.vals D.vals st.vals i := by
  unfold triangle_step_rounded triangle_step facet_vertices_rounded facet_vertices
  simp only [NearestStateRounded.record_vals, ray_triangle_intersection_rounded_exact,
    Scene.getD_vertices_vals]
  rfl

theorem sphere_step_rounded_exact (sqrt : K → K) (scene : Scene (RDbl K (fun x => x)))
    (O D : Vec3 (RDbl K (fun x => x))) (st : NearestStateRounded K (fun x => x)) (i : Nat) :
    (sphere_step_rounded sqrt scene O D st i).vals
      = sphere_step sqrt scene.vals O.vals D.vals st.vals i := by
  unfold sphere_step_rounded sphere_step
  simp only [NearestStateRounded.record_vals, ray_sphere_intersection_rounded_exact]
  rfl

theorem parallelogram_step_rounded_exact (sqrt : K → K)
    (scene : Scene (RDbl K (fun x => x))) (O D : Vec3 (RDbl K (fun x => x)))
    (st : NearestStateRounded K (fun x => x)) (i : Nat) :
    (parallelogram_step_rounded sqrt scene O D st i).vals
      = parallelogram_step sqrt scene.vals O.vals D.vals st.vals i := by
  unfold parallelogram_step_rounded parallelogram_step
  simp only [NearestStateRounded.record_vals, ray_parallelogram_intersection_rounded_exact]
  have hlen : scene.vals.sphere_centers.length = scene.sphere_centers.length := by
    simp [Scene.vals]
  rw [hlen]
  rfl

/-- With the identity for `rnd`, `find_nearest_object_rounded` computes the flag and the
values that `find_nearest_object` computes. -/
theorem find_nearest_object_rounded_exact (sqrt : K → K)
    (scene : Scene (RDbl K (fun x => x))) (O D p N : Vec3 (RDbl K (fun x => x))) :
    ((find_nearest_object_rounded sqrt scene O D p N).1,
      (find_nearest_object_rounded sqrt scene O D p N).2.1.vals,
      (find_nearest_object_rounded sqrt scene O D p N).2.2.vals)
      = find_nearest_object sqrt scene.vals O.vals D.vals p.vals N.vals := by
  have hst : (find_nearest_state_rounded sqrt scene O D p N).vals
      = find_nearest_state sqrt scene.vals O.vals D.vals p.vals N.vals := by
    unfold find_nearest_state_rounded find_nearest_state
    have hf : scene.vals.facets.length = scene.facets.length := rfl
    have hs : scene.vals.sphere_centers.length = scene.sphere_centers.length := by
      simp [Scene.vals]
    have hp : scene.vals.parallelograms.length = scene.parallelograms.length := by
      simp [Scene.vals]
    simp only [hf, hs, hp]
    rw [foldl_vals _ _ (parallelogram_step_rounded_exact sqrt scene O D),
      foldl_vals _ _ (sphere_step_rounded_exact sqrt scene O D),
      foldl_vals _ _ (triangle_step_rounded_exact sqrt scene O D)]
    rfl
  unfold find_nearest_object_rounded find_nearest_object
  rw [← hst]
  simp only [NearestStateRounded.vals]
  split <;> rfl

end ExactRoundingScene

end Raytracer
